import Mathlib

/-!
# Moolticute websocket connection handler (`src/WSServerCon.cpp`)

A shallow embedding of `WSServerCon::processMessage` and the functions it
dispatches to.  A handler turn is a pure function from the state it reads
(`Env`) and the inbound JSON object to the list of things it does, in order
(`Effect`).  Completion and progress callbacks handed to the device are kept as
functions inside the recorded device call; they read the state of the moment
they fire.

Modelling conventions
* `QJsonObject` is an association list in insertion order (Qt keeps the keys
  sorted; nothing stated here depends on the order); `value` is the value of
  `obj[key]`, `insert` is `obj[key] = v`.  A read `obj[key]` on an object that is not
  `const` stores `key` with `null` when it is absent; `afterRead` is the object
  after such a read, and it is applied wherever the object read is used again
  (`root` in `processMessage`, `processMessageMini` and `processMessageBLE`, and
  `o` in the two `set_credential` branches, which send or capture `o`).  In the
  other branches `o` is a local copy that is only read, and inside the lambdas
  the captured objects are `const`.
* C++ leaves the order in which the arguments of one call are evaluated
  unspecified.  Where an argument list both reads `obj[key]` and copies `obj`
  into the completion lambda, the order is the parameter `Env.argsLeftToRight`.
* A JSON number is a double; it is kept as the rational it denotes (`ℚ`), so
  that numbers with a fractional part are values too.  `toInt` gives 0 for a
  number that is not an integer within the 32-bit `int` range.
* Messages handed to the socket or to the GUI are recorded as JSON objects,
  not as their serialised text.  Logging (`qDebug`, `qWarning`) is no effect.
-/

namespace Moolticute

/-! ## JSON -/

/-- The value type `QJsonValue`. -/
inductive QJsonValue where
  | null
  | bool (b : Bool)
  | double (d : ℚ)
  | string (s : String)
  | array (xs : List QJsonValue)
  | object (kvs : List (String × QJsonValue))
  | undefined

/-- The map type `QJsonObject`: keys with their values. -/
structure QJsonObject where
  fields : List (String × QJsonValue)

namespace QJsonObject

/-- The empty object, `QJsonObject()`. -/
def empty : QJsonObject := ⟨[]⟩

/-- Read `obj[key]`: the value stored under `key`, `undefined` when absent. -/
def value (o : QJsonObject) (key : String) : QJsonValue :=
  match o.fields.find? (fun kv => kv.1 == key) with
  | some kv => kv.2
  | none => QJsonValue.undefined

/-- Membership test `obj.contains(key)`. -/
def contains (o : QJsonObject) (key : String) : Bool :=
  o.fields.any (fun kv => kv.1 == key)

/-- Replace the value of the first entry with key `key`, or append a new entry. -/
def insertFields (key : String) (v : QJsonValue) :
    List (String × QJsonValue) → List (String × QJsonValue)
  | [] => [(key, v)]
  | kv :: rest => if kv.1 == key then (key, v) :: rest else kv :: insertFields key v rest

/-- Write `obj[key] = v`. -/
def insert (o : QJsonObject) (key : String) (v : QJsonValue) : QJsonObject :=
  ⟨insertFields key v o.fields⟩

/-- The object after a read `obj[key]` through the non-const `operator[]`: when
`key` is absent Qt stores it with the value `null`. -/
def afterRead (o : QJsonObject) (key : String) : QJsonObject :=
  if o.contains key then o else o.insert key QJsonValue.null

/-- Removal `obj.remove(key)`. -/
def remove (o : QJsonObject) (key : String) : QJsonObject :=
  ⟨o.fields.filter (fun kv => !(kv.1 == key))⟩

end QJsonObject

namespace QJsonValue

/-- Conversion `toObject()`: the object, or an empty one for any other type. -/
def toObject : QJsonValue → QJsonObject
  | object kvs => ⟨kvs⟩
  | _ => QJsonObject.empty

/-- Conversion `toString()`: the string, or the empty string for any other type. -/
def toString : QJsonValue → String
  | string s => s
  | _ => ""

/-- Conversion `toBool()`: the boolean, or false for any other type. -/
def toBool : QJsonValue → Bool
  | bool b => b
  | _ => false

/-- Conversion `toInt()`, `int(dbl) == dbl ? int(dbl) : 0`: the number when it
is an integer that fits a 32-bit int, otherwise 0. -/
def toInt : QJsonValue → Int
  | double d =>
    if d.den = 1 ∧ -2147483648 ≤ d.num ∧ d.num ≤ 2147483647 then d.num else 0
  | _ => 0

/-- Conversion `toArray()`: the array, or an empty one for any other type. -/
def toArray : QJsonValue → List QJsonValue
  | array xs => xs
  | _ => []

/-- Test `isDouble()`. -/
def isDouble : QJsonValue → Bool
  | double _ => true
  | _ => false

/-- Comparison of a JSON value with a string literal, as in `root["msg"] == "show_app"`. -/
def eqString : QJsonValue → String → Bool
  | string s, t => s == t
  | _, _ => false

end QJsonValue

/-- Build an object from a brace initialiser list, inserting left to right. -/
def mkObject (kvs : List (String × QJsonValue)) : QJsonObject :=
  kvs.foldl (fun o kv => o.insert kv.1 kv.2) QJsonObject.empty

/-! ## Collaborators whose code is outside `src/` -/

/-- Result of `ParseDomain url(service)`: the accessors the handler reads. -/
structure ParseDomain where
  subdomain : String
  isWebsite : Bool
  getFullDomain : String
  getFullSubdomain : String
  getManuallyEnteredDomainName : String → String

/-- The two `QSettings` keys read by the handler. -/
structure QSettings where
  enable_subdomain_selection : Bool
  enable_hibp_check : Bool

/-- A credential as `BleCredential` holds it. -/
structure BleCredential where
  service : String
  login : String
  description : String
  third : String
  password : String

/-- State of the attached `MPDevice` that the handler reads through getters. -/
structure MPDevice where
  isBLE : Bool
  ble : Bool
  memMgmtMode : Bool
  isFw12 : Bool
  hasFilesCache : Bool
  statusUnlocked : Bool
  filesCache : List QJsonObject
  isFilesCacheInSync : Bool

/-- Modelled from the spec: the `WSServer` singleton (its code is not under
`src/`), holding the Exclusive Mode Lock as an optional holder id and the
Client Registry as the list of live client ids. -/
structure WSServer where
  memLockedClient : Option String
  clients : List String

/-- Modelled from the spec: `isHeldByOther(clientId)`, true when the lock is
`Locked(x)` and `x ≠ clientId`; this is `WSServer::isMemModeLocked`. -/
def WSServer.isMemModeLocked (s : WSServer) (uid : String) : Bool :=
  match s.memLockedClient with
  | some x => !(x == uid)
  | none => false

/-- Modelled from the spec: the Client Registry query "does client X still
exist"; this is `WSServer::checkClientExists`. -/
def WSServer.checkClientExists (s : WSServer) (uid : String) : Bool :=
  s.clients.contains uid

/-- Everything a handler turn or a callback reads.  `argsLeftToRight` is the
order in which the compiled code evaluates the arguments of one call, which
C++ leaves to the compiler: left to right (true) or right to left (false). -/
structure Env where
  clientUid : String
  mpdevice : Option MPDevice
  server : WSServer
  guiRunning : Bool
  argsLeftToRight : Bool
  settings : QSettings
  parseDomain : String → ParseDomain
  APP_VERSION : String
  HIBP_COMPROMISED_FORMAT : String
  MP_MAX_FILE_SIZE : Int
  MP_MAX_SSH_SIZE : Int
  MC_SSH_SERVICE : String
  toLower : String → String
  simplified : String → String
  fromBase64 : String → List Nat
  toBase64 : List Nat → String
  FetchType_ACCELEROMETER : Int
  calcDebugPlatInfo : List Nat → Nat → Int
  retrieveCredentialFromResponse : List Nat → String → String → BleCredential

/-- The progress map (`QVariantMap`) a device operation reports: the four keys
the relay reads, each absent or present. -/
structure ProgressData where
  total : Option Int
  current : Option Int
  msg : Option String
  msg_args : Option (List QJsonValue)

/-! ## Effects -/

/-- What a handler or a callback does besides calling the device. -/
inductive Output where
  | sendJsonMessage (m : QJsonObject)
  | sendMessageToGUI (m : QJsonObject)
  | notifyAllClients (m : QJsonObject)
  | setMemLockedClient (uid : String)
  | isPasswordPwned (pass : String) (fmt : String)

/-- A callback body: run against the state of the moment it fires. -/
abbrev Action := Env → List Output

/-- The callback type `MessageHandlerCb`: `(bool success, QString errstr)`. -/
abbrev MessageHandlerCb := Bool → String → Action

/-- The callback type `MPDeviceProgressCb`. -/
abbrev MPDeviceProgressCb := ProgressData → Action

/-- The device operations of `MPDevice` that `processMessageMini` invokes and
those of `MPDeviceBleImpl` that `processMessageBLE` invokes, each with the
arguments and callbacks it is given. -/
inductive DeviceCall where
  | updateInt (param : String) (v : Int)
  | updateBool (param : String) (v : Bool)
  | loadParameters
  | startMemMgmtMode (wantData : Bool) (cbProgress : MPDeviceProgressCb)
      (cb : Bool → Int → String → Action)
  | exitMemMgmtMode
  | startIntegrityCheck (cb : Bool → Int → Int → String → Action)
      (cbProgress : MPDeviceProgressCb)
  | getCredential (service login fallbackService reqid : String)
      (cb : Bool → String → String → String → String → String → Action)
  | setCredential (service login pass description : String) (setDesc : Bool)
      (cb : MessageHandlerCb)
  | delCredentialAndLeave (service login : String) (cbProgress : MPDeviceProgressCb)
      (cb : MessageHandlerCb)
  | getUID (key : String)
  | getRandomNumber (cb : Bool → String → List Nat → Action)
  | cancelUserRequest (reqid : String)
  | getDataNode (service fallbackService reqid : String)
      (cb : Bool → String → String → List Nat → Action) (cbProgress : MPDeviceProgressCb)
  | setDataNode (service : String) (data : List Nat) (cb : MessageHandlerCb)
      (cbProgress : MPDeviceProgressCb)
  | deleteDataNodesAndLeave (services : List String) (cb : MessageHandlerCb)
      (cbProgress : MPDeviceProgressCb)
  | serviceExists (isDatanode : Bool) (service reqid : String)
      (cb : Bool → String → String → Bool → Action)
  | setMMCredentials (creds : List QJsonValue) (noDelete : Bool)
      (cbProgress : MPDeviceProgressCb) (cb : MessageHandlerCb)
  | exportDatabase (encryption : String) (cb : Bool → String → List Nat → Action)
      (cbProgress : MPDeviceProgressCb)
  | importDatabase (data : List Nat) (noDelete : Bool) (cb : MessageHandlerCb)
      (cbProgress : MPDeviceProgressCb)
  | importFromCSV (rows : List QJsonValue) (cbProgress : MPDeviceProgressCb)
      (cb : MessageHandlerCb)
  | updateFilesCache
  | resetSmartCard (cb : MessageHandlerCb)
  | lockDevice (cb : MessageHandlerCb)
  | getDebugPlatInfo (cb : Bool → String → List Nat → Action)
  | flashMCU (type : String) (cb : MessageHandlerCb)
  | uploadBundle (file : String) (cb : MessageHandlerCb) (cbProgress : MPDeviceProgressCb)
  | fetchData (file : String) (accelerometer : Bool)
  | stopFetchData
  | bleGetCredential (service login : String) (cb : Bool → String → List Nat → Action)
  | storeCredential (cred : BleCredential) (cb : MessageHandlerCb)

/-- One step of a handler turn: an output, or a call on the device. -/
inductive Effect where
  | out (o : Output)
  | device (c : DeviceCall)

/-- The arguments a device operation passes to its completion callback, one
shape per callback signature. -/
inductive DeviceReply where
  | status (success : Bool) (errstr : String)
  | memMgmt (success : Bool) (errCode : Int) (errMsg : String)
  | integrity (success : Bool) (freeBlocks totalBlocks : Int) (errstr : String)
  | credential (success : Bool) (errstr service login pass desc : String)
  | bytes (success : Bool) (errstr : String) (data : List Nat)
  | dataNode (success : Bool) (errstr service : String) (data : List Nat)
  | serviceExists (success : Bool) (errstr service : String) (found : Bool)

/-- The success flag a reply carries. -/
def DeviceReply.success : DeviceReply → Bool
  | status s _ => s
  | memMgmt s _ _ => s
  | integrity s _ _ _ => s
  | credential s _ _ _ _ _ => s
  | bytes s _ _ => s
  | dataNode s _ _ _ => s
  | serviceExists s _ _ _ => s

/-- The error text a reply carries. -/
def DeviceReply.errstr : DeviceReply → String
  | status _ e => e
  | memMgmt _ _ e => e
  | integrity _ _ _ e => e
  | credential _ e _ _ _ _ => e
  | bytes _ e _ => e
  | dataNode _ e _ _ => e
  | serviceExists _ e _ _ => e

/-- One firing of the completion callback of a device call with a reply of the
shape of its signature; `none` when the call has no completion callback or the
reply has another shape. -/
def DeviceCall.complete : DeviceCall → DeviceReply → Option Action
  | .startMemMgmtMode _ _ cb, .memMgmt s c e => some (cb s c e)
  | .startIntegrityCheck cb _, .integrity s f t e => some (cb s f t e)
  | .getCredential _ _ _ _ cb, .credential s e sv l p d => some (cb s e sv l p d)
  | .setCredential _ _ _ _ _ cb, .status s e => some (cb s e)
  | .delCredentialAndLeave _ _ _ cb, .status s e => some (cb s e)
  | .getRandomNumber cb, .bytes s e d => some (cb s e d)
  | .getDataNode _ _ _ cb _, .dataNode s e sv d => some (cb s e sv d)
  | .setDataNode _ _ cb _, .status s e => some (cb s e)
  | .deleteDataNodesAndLeave _ cb _, .status s e => some (cb s e)
  | .serviceExists _ _ _ cb, .serviceExists s e sv x => some (cb s e sv x)
  | .setMMCredentials _ _ _ cb, .status s e => some (cb s e)
  | .exportDatabase _ cb _, .bytes s e d => some (cb s e d)
  | .importDatabase _ _ cb _, .status s e => some (cb s e)
  | .importFromCSV _ _ cb, .status s e => some (cb s e)
  | .resetSmartCard cb, .status s e => some (cb s e)
  | .lockDevice cb, .status s e => some (cb s e)
  | .getDebugPlatInfo cb, .bytes s e d => some (cb s e d)
  | .flashMCU _ cb, .status s e => some (cb s e)
  | .uploadBundle _ cb _, .status s e => some (cb s e)
  | .bleGetCredential _ _ cb, .bytes s e d => some (cb s e d)
  | .storeCredential _ cb, .status s e => some (cb s e)
  | _, _ => none

/-- The progress callback a device call was handed, when it takes one. -/
def DeviceCall.progress : DeviceCall → Option MPDeviceProgressCb
  | .startMemMgmtMode _ p _ => some p
  | .startIntegrityCheck _ p => some p
  | .delCredentialAndLeave _ _ p _ => some p
  | .getDataNode _ _ _ _ p => some p
  | .setDataNode _ _ _ p => some p
  | .deleteDataNodesAndLeave _ _ p => some p
  | .setMMCredentials _ _ p _ => some p
  | .exportDatabase _ _ p => some p
  | .importDatabase _ _ _ p => some p
  | .importFromCSV _ p _ => some p
  | .uploadBundle _ _ p => some p
  | _ => none

/-! ## `WSServerCon` -/

/-- `WSServerCon::sendFailedJson(obj, errstr, errCode)`; `errCode` defaults to -999. -/
def sendFailedJson (obj : QJsonObject) (errstr : String) (errCode : Int) : List Output :=
  let odata := QJsonObject.empty.insert "failed" (.bool true)
  let odata := if !errstr.isEmpty then odata.insert "error_message" (.string errstr) else odata
  let odata := if errCode != -999 then odata.insert "error_code" (.double errCode) else odata
  [.sendJsonMessage (obj.insert "data" (.object odata.fields))]

/-- The lambda `defaultProgressCb` of `processMessage`, capturing the connection
(its `clientUid`) and `rootStripped`. -/
def defaultProgressCb (clientUid : String) (rootStripped : QJsonObject) : MPDeviceProgressCb :=
  fun progressData env =>
    if !env.server.checkClientExists clientUid then []
    else
      let total := progressData.total.getD (-1)
      let current := progressData.current.getD (-1)
      let current := if current > total then total else current
      let ores := QJsonObject.empty.insert "progress_total" (.double total)
      let ores := ores.insert "progress_current" (.double current)
      let oroot := rootStripped.insert "msg" (.string "progress")
      let ores :=
        match progressData.msg with
        | some m =>
          let ores := ores.insert "progress_message" (.string m)
          match progressData.msg_args with
          | some args => ores.insert "progress_message_args" (.array args)
          | none => ores
        | none => ores
      let oroot2 := (oroot.insert "data" (.object ores.fields)).insert "msg"
        (.string "progress_detailed")
      [.sendJsonMessage oroot, .sendJsonMessage oroot2]

/-- `WSServerCon::checkMemModeEnabled`: the rejection it sends, and its result. -/
def checkMemModeEnabled (env : Env) (root : QJsonObject) : List Output × Bool :=
  if env.server.isMemModeLocked env.clientUid then
    (sendFailedJson root "Device is in memory management mode" (-999), true)
  else ([], false)

/-- `WSServerCon::getRequestId`. -/
def getRequestId (v : QJsonValue) : String :=
  if v.isDouble then toString v.toInt else v.toString

/-- The correlation id `QStringLiteral("%1-%2").arg(clientUid).arg(getRequestId(..))`,
left empty when `request_id` is absent. -/
def reqidOf (clientUid : String) (o : QJsonObject) : String :=
  if o.contains "request_id" then clientUid ++ "-" ++ getRequestId (o.value "request_id")
  else ""

/-- The parameters `processParametersSet` forwards, in source order, with
whether each is read with `toInt()` (true) or `toBool()` (false). -/
def parameterTable : List (String × Bool) :=
  [("keyboard_layout", true), ("lock_timeout_enabled", false), ("lock_timeout", true),
   ("screensaver", false), ("user_request_cancel", false),
   ("user_interaction_timeout", true), ("flash_screen", false), ("offline_mode", false),
   ("tutorial_enabled", false), ("screen_brightness", true), ("knock_enabled", false),
   ("knock_sensitivity", true), ("random_starting_pin", false), ("hash_display", false),
   ("lock_unlock_mode", true), ("key_after_login_enabled", false), ("key_after_login", true),
   ("key_after_pass_enabled", false), ("key_after_pass", true),
   ("delay_after_key_enabled", false), ("delay_after_key", true)]

/-- `WSServerCon::processParametersSet` on an attached device. -/
def processParametersSet (data : QJsonObject) : List Effect :=
  (parameterTable.filterMap fun p =>
    if data.contains p.1 then
      some (Effect.device
        (if p.2 then DeviceCall.updateInt p.1 (data.value p.1).toInt
         else DeviceCall.updateBool p.1 (data.value p.1).toBool))
    else none)
  ++ [Effect.device DeviceCall.loadParameters]

/-- `WSServerCon::sendFilesCache` on an attached device. -/
def sendFilesCache (dev : MPDevice) : List Output :=
  if !dev.hasFilesCache then []
  else if !dev.statusUnlocked then []
  else
    let oroot := mkObject [("msg", .string "files_cache_list")]
    let oroot := oroot.insert "data" (.array (dev.filesCache.map fun item => .object item.fields))
    let oroot := oroot.insert "sync" (.bool dev.isFilesCacheInSync)
    [.sendJsonMessage oroot]

/-- The test `root["msg"] == verb`. -/
def msgIs (root : QJsonObject) (verb : String) : Bool :=
  (root.value "msg").eqString verb

/-- The completion lambda shared in shape by the verbs that answer
`{"success": "true"}`: `set_credentials`, `import_database`, `import_csv`,
`reset_card`. -/
def cbSuccessTrue (clientUid : String) (root : QJsonObject) : MessageHandlerCb :=
  fun success errstr env =>
    if !env.server.checkClientExists clientUid then []
    else if !success then sendFailedJson root errstr (-999)
    else
      let ores := QJsonObject.empty.insert "success" (.string "true")
      [.sendJsonMessage (root.insert "data" (.object ores.fields))]

/-- The `start_memorymgmt` branch of `processMessageMini`. -/
def miniStartMemorymgmt (env : Env) (root : QJsonObject) (cbProgress : MPDeviceProgressCb) :
    List Effect :=
  let root := root.afterRead "data"
  let o := (root.value "data").toObject
  [.out (.setMemLockedClient env.clientUid),
   .device (.startMemMgmtMode (o.value "want_data").toBool cbProgress
     (fun success errCode errMsg env2 =>
       if !env2.server.checkClientExists env.clientUid then []
       else if !success then
         sendFailedJson (root.insert "msg" (.string "failed_memorymgmt")) errMsg errCode
       else []))]

/-- The `start_memcheck` branch of `processMessageMini`. -/
def miniStartMemcheck (env : Env) (root : QJsonObject) (cbProgress : MPDeviceProgressCb) :
    List Effect :=
  [.device (.startIntegrityCheck
     (fun success freeBlocks totalBlocks errstr env2 =>
       if !env2.server.checkClientExists env.clientUid then []
       else
         let oroot := root.insert "msg" (.string "memcheck")
         if !success then sendFailedJson oroot errstr (-999)
         else
           let ores := QJsonObject.empty.insert "memcheck_status" (.string "done")
           let ores := ores.insert "free_blocks" (.double freeBlocks)
           let ores := ores.insert "total_blocks" (.double totalBlocks)
           [.sendJsonMessage (oroot.insert "data" (.object ores.fields))])
     cbProgress)]

/-- The `ask_password` / `get_credential` branch of `processMessageMini`. -/
def miniGetCredential (env : Env) (root : QJsonObject) : List Effect :=
  let root := root.afterRead "data"
  let o := (root.value "data").toObject
  let reqid := reqidOf env.clientUid o
  [.device (.getCredential (o.value "service").toString (o.value "login").toString
     (o.value "fallback_service").toString reqid
     (fun success errstr service login pass desc env2 =>
       if !env2.server.checkClientExists env.clientUid then []
       else if !success then sendFailedJson root errstr (-999)
       else
         let hibp : List Output :=
           if env2.settings.enable_hibp_check then
             [.isPasswordPwned pass
               (service ++ ": " ++ login ++ ": " ++ env2.HIBP_COMPROMISED_FORMAT)]
           else []
         let ores := QJsonObject.empty.insert "service" (.string service)
         let ores := ores.insert "login" (.string login)
         let ores := ores.insert "password" (.string pass)
         let ores :=
           match env2.mpdevice with
           | some d => if d.isFw12 then ores.insert "description" (.string desc) else ores
           | none => ores
         hibp ++ [.sendJsonMessage (root.insert "data" (.object ores.fields))]))]

/-- The last part of the `set_credential` branch of `processMessageMini`, from
`if (!o.contains("saveDomainConfirmed") && url.isWebsite())` on: the final
service key, the notification, the breach check and the call, for `root` and
`o` as they stand there.  The arguments of the call read `o`, test
`o.contains("description")` and copy `o` into the lambda in the order the
compiler chooses. -/
def miniSetCredentialStore (env : Env) (root o : QJsonObject)
    (loginName originalService : String) (url : ParseDomain) (isManualCredential : Bool) :
    List Effect :=
  let o :=
    if !o.contains "saveDomainConfirmed" && url.isWebsite then
      o.insert "service" (.string url.getFullDomain)
    else o
  let o :=
    if isManualCredential then
      o.insert "service" (.string (url.getManuallyEnteredDomainName originalService))
    else o
  let detected : List Effect :=
    [.out (.sendMessageToGUI (mkObject [("msg", .string "credential_detected")]))]
  let hibp : List Effect :=
    if env.settings.enable_hibp_check then
      [.out (.isPasswordPwned (o.value "password").toString
        ((o.value "service").toString ++ ": " ++ loginName ++ ": " ++
          env.HIBP_COMPROMISED_FORMAT))]
    else []
  let o :=
    if env.settings.enable_hibp_check then (o.afterRead "service").afterRead "password"
    else o
  let oRead :=
    (((o.afterRead "service").afterRead "login").afterRead "password").afterRead
      "description"
  let setDescription :=
    if env.argsLeftToRight then oRead.contains "description" else o.contains "description"
  let captured := if env.argsLeftToRight then oRead else o
  detected ++ hibp ++
  [.device (.setCredential (o.value "service").toString (o.value "login").toString
     (o.value "password").toString (o.value "description").toString
     setDescription
     (fun success errstr env2 =>
       if !env2.server.checkClientExists env.clientUid then []
       else if !success then sendFailedJson root errstr (-999)
       else [.sendJsonMessage (root.insert "data" (.object captured.fields))]))]

/-- The middle part of the `set_credential` branch of `processMessageMini`, from
`QString originalService = o["service"].toString()` on: the `request_domain`
round trip, for `root` and `o` as they stand there. -/
def miniSetCredentialDomain (env : Env) (root o : QJsonObject) (loginName : String)
    (isMsgContainsExtInfo : Bool) : List Effect :=
  let originalService := (o.value "service").toString
  let o := o.afterRead "service"
  let url := env.parseDomain originalService
  let isSubdomainSelectionEnabled := env.settings.enable_subdomain_selection && url.isWebsite
  let isManualCredential := o.contains "saveManualCredential"
  let askDomain := !url.subdomain.isEmpty && isMsgContainsExtInfo &&
    isSubdomainSelectionEnabled && !isManualCredential && !o.contains "saveDomainConfirmed"
  let o :=
    if askDomain then
      (o.insert "domain" (.string url.getFullDomain)).insert "subdomain"
        (.string url.getFullSubdomain)
    else o
  let root :=
    if askDomain then
      (root.insert "msg" (.string "request_domain")).insert "data" (.object o.fields)
    else root
  let sentDomain : List Effect := if askDomain then [.out (.sendMessageToGUI root)] else []
  if askDomain && env.guiRunning then sentDomain
  else
    sentDomain ++
      miniSetCredentialStore env root o loginName originalService url isManualCredential

/-- The `set_credential` branch of `processMessageMini`: the `request_login`
round trip, then the two parts above.  The object `o` is read through the
non-const `o[...]`, sent to the GUI and copied into the completion lambda, so
the entries the reads store are followed. -/
def miniSetCredential (env : Env) (root : QJsonObject) : List Effect :=
  let root := root.afterRead "data"
  let o := (root.value "data").toObject
  let loginName := (o.value "login").toString
  let o := o.afterRead "login"
  let isMsgContainsExtInfo := o.contains "extension_version" || o.contains "mc_cli_version"
  let askLogin := loginName.isEmpty && isMsgContainsExtInfo && !o.contains "saveLoginConfirmed"
  let root := if askLogin then root.insert "msg" (.string "request_login") else root
  let sentLogin : List Effect := if askLogin then [.out (.sendMessageToGUI root)] else []
  if askLogin && env.guiRunning then sentLogin
  else sentLogin ++ miniSetCredentialDomain env root o loginName isMsgContainsExtInfo

/-- The `del_credential` branch of `processMessageMini`. -/
def miniDelCredential (env : Env) (root : QJsonObject) (cbProgress : MPDeviceProgressCb) :
    List Effect :=
  let root := root.afterRead "data"
  let o := (root.value "data").toObject
  [.device (.delCredentialAndLeave (o.value "service").toString (o.value "login").toString
     cbProgress
     (fun success errstr env2 =>
       if !env2.server.checkClientExists env.clientUid then []
       else if !success then sendFailedJson root errstr (-999)
       else
         [.sendJsonMessage
           (root.insert "data" (.object (mkObject [("success", .bool true)]).fields))]))]

/-- The `get_random_numbers` branch of `processMessageMini`. -/
def miniGetRandomNumbers (env : Env) (root : QJsonObject) : List Effect :=
  [.device (.getRandomNumber
     (fun success errstr rndNums env2 =>
       if !env2.server.checkClientExists env.clientUid then []
       else if !success then sendFailedJson root errstr (-999)
       else
         let arr := rndNums.map fun b => QJsonValue.double ((b % 256 : Nat) : Int)
         [.sendJsonMessage (root.insert "data" (.array arr))]))]

/-- The `get_data_node` branch of `processMessageMini`. -/
def miniGetDataNode (env : Env) (root : QJsonObject) (cbProgress : MPDeviceProgressCb) :
    List Effect :=
  let root := root.afterRead "data"
  let o := (root.value "data").toObject
  let reqid := reqidOf env.clientUid o
  [.device (.getDataNode (o.value "service").toString (o.value "fallback_service").toString
     reqid
     (fun success errstr service dataNode env2 =>
       if !env2.server.checkClientExists env.clientUid then []
       else if !success then sendFailedJson root errstr (-999)
       else
         let ores := QJsonObject.empty.insert "service" (.string service)
         let ores := ores.insert "node_data" (.string (env2.toBase64 dataNode))
         [.sendJsonMessage (root.insert "data" (.object ores.fields))])
     cbProgress)]

/-- The `set_data_node` branch of `processMessageMini`. -/
def miniSetDataNode (env : Env) (root : QJsonObject) (cbProgress : MPDeviceProgressCb) :
    List Effect :=
  let root := root.afterRead "data"
  let o := (root.value "data").toObject
  let service := (o.value "service").toString
  let data := env.fromBase64 (o.value "node_data").toString
  if data.isEmpty then (sendFailedJson root "node_data is empty" (-999)).map Effect.out
  else
    let maxSize := env.MP_MAX_FILE_SIZE
    let maxSize := if env.toLower service == env.MC_SSH_SERVICE then env.MP_MAX_SSH_SIZE else maxSize
    if (data.length : Int) > maxSize then
      (sendFailedJson root "data is too big to be stored in device" (-999)).map Effect.out
    else
      [.device (.setDataNode service data
         (fun success errstr env2 =>
           if !env2.server.checkClientExists env.clientUid then []
           else if !success then sendFailedJson root errstr (-999)
           else
             let ores := QJsonObject.empty.insert "service" (.string service)
             [.sendJsonMessage (root.insert "data" (.object ores.fields))])
         cbProgress)]

/-- The `delete_data_nodes` branch of `processMessageMini`. -/
def miniDeleteDataNodes (env : Env) (dev : MPDevice) (root : QJsonObject)
    (cbProgress : MPDeviceProgressCb) : List Effect :=
  let root := root.afterRead "data"
  let o := (root.value "data").toObject
  if !dev.memMgmtMode then
    (sendFailedJson root "Not in memory management mode" (-999)).map Effect.out
  else
    let jarr := (o.value "services").toArray
    let services := jarr.map QJsonValue.toString
    [.device (.deleteDataNodesAndLeave services
       (fun success errstr env2 =>
         if !env2.server.checkClientExists env.clientUid then []
         else if !success then sendFailedJson root errstr (-999)
         else
           [.sendJsonMessage
             (root.insert "data" (.object (mkObject [("success", .bool true)]).fields))])
       cbProgress)]

/-- The `credential_exists` (`isDatanode = false`) and `data_node_exists`
(`isDatanode = true`) branches of `processMessageMini`. -/
def miniServiceExists (env : Env) (root : QJsonObject) (isDatanode : Bool) : List Effect :=
  let root := root.afterRead "data"
  let o := (root.value "data").toObject
  let reqid := reqidOf env.clientUid o
  [.device (.serviceExists isDatanode (o.value "service").toString reqid
     (fun success errstr service found env2 =>
       if !env2.server.checkClientExists env.clientUid then []
       else if !success then sendFailedJson root errstr (-999)
       else
         let ores := QJsonObject.empty.insert "service" (.string service)
         let ores := ores.insert "exists" (.bool found)
         [.sendJsonMessage (root.insert "data" (.object ores.fields))]))]

/-- The `set_credentials` branch of `processMessageMini`.  The read
`root["data"]` and the lambda that copies `root` are arguments of one call. -/
def miniSetCredentials (env : Env) (dev : MPDevice) (root : QJsonObject)
    (cbProgress : MPDeviceProgressCb) : List Effect :=
  if !dev.memMgmtMode then
    (sendFailedJson root "Not in memory management mode" (-999)).map Effect.out
  else
    let captured := if env.argsLeftToRight then root.afterRead "data" else root
    [.device (.setMMCredentials (root.value "data").toArray false cbProgress
       (cbSuccessTrue env.clientUid captured))]

/-- The `import_csv` branch of `processMessageMini`.  The read `root["data"]`
and the lambda that copies `root` are arguments of one call. -/
def miniImportCsv (env : Env) (root : QJsonObject) (cbProgress : MPDeviceProgressCb) :
    List Effect :=
  let captured := if env.argsLeftToRight then root.afterRead "data" else root
  [.device (.importFromCSV (root.value "data").toArray cbProgress
     (cbSuccessTrue env.clientUid captured))]

/-- The `export_database` branch of `processMessageMini`. -/
def miniExportDatabase (env : Env) (root : QJsonObject) (cbProgress : MPDeviceProgressCb) :
    List Effect :=
  let encryptionMethod :=
    if root.contains "data" then ((root.value "data").toObject.value "encryption").toString
    else "none"
  [.device (.exportDatabase encryptionMethod
     (fun success errstr fileData env2 =>
       if !env2.server.checkClientExists env.clientUid then []
       else if !success then sendFailedJson root errstr (-999)
       else
         let ores := QJsonObject.empty.insert "file_data" (.string (env2.toBase64 fileData))
         [.sendJsonMessage (root.insert "data" (.object ores.fields))])
     cbProgress)]

/-- The `import_database` branch of `processMessageMini`. -/
def miniImportDatabase (env : Env) (root : QJsonObject) (cbProgress : MPDeviceProgressCb) :
    List Effect :=
  let root := root.afterRead "data"
  let o := (root.value "data").toObject
  let data := env.fromBase64 (o.value "file_data").toString
  if data.isEmpty then (sendFailedJson root "file_data is empty" (-999)).map Effect.out
  else
    [.device (.importDatabase data (o.value "no_delete").toBool
       (cbSuccessTrue env.clientUid root) cbProgress)]

/-- The `lock_device` branch of `processMessageMini`; its lambda captures
`[this, root]` and has no client check. -/
def miniLockDevice (root : QJsonObject) : List Effect :=
  [.device (.lockDevice
     (fun success errstr _ =>
       if !success then sendFailedJson root errstr (-999)
       else
         let ores := QJsonObject.empty.insert "success" (.string "true")
         [.sendJsonMessage (root.insert "data" (.object ores.fields))]))]

/-- `WSServerCon::processMessageMini`, for an attached device `dev`. -/
def processMessageMini (env : Env) (dev : MPDevice) (root : QJsonObject)
    (cbProgress : MPDeviceProgressCb) : List Effect :=
  let root := root.afterRead "msg"
  if msgIs root "param_set" then processParametersSet (root.value "data").toObject
  else if msgIs root "start_memorymgmt" then miniStartMemorymgmt env root cbProgress
  else if msgIs root "exit_memorymgmt" then [.device .exitMemMgmtMode]
  else if msgIs root "start_memcheck" then miniStartMemcheck env root cbProgress
  else if msgIs root "ask_password" || msgIs root "get_credential" then
    miniGetCredential env root
  else if msgIs root "set_credential" then miniSetCredential env root
  else if msgIs root "del_credential" then miniDelCredential env root cbProgress
  else if msgIs root "request_device_uid" then
    [.device (.getUID (env.simplified (((root.value "data").toObject.value "key").toString)))]
  else if msgIs root "get_random_numbers" then miniGetRandomNumbers env root
  else if msgIs root "cancel_request" then
    [.device (.cancelUserRequest (reqidOf env.clientUid (root.value "data").toObject))]
  else if msgIs root "get_data_node" then miniGetDataNode env root cbProgress
  else if msgIs root "set_data_node" then miniSetDataNode env root cbProgress
  else if msgIs root "delete_data_nodes" then miniDeleteDataNodes env dev root cbProgress
  else if msgIs root "credential_exists" then miniServiceExists env root false
  else if msgIs root "data_node_exists" then miniServiceExists env root true
  else if msgIs root "set_credentials" then miniSetCredentials env dev root cbProgress
  else if msgIs root "export_database" then miniExportDatabase env root cbProgress
  else if msgIs root "import_database" then miniImportDatabase env root cbProgress
  else if msgIs root "import_csv" then miniImportCsv env root cbProgress
  else if msgIs root "refresh_files_cache" then [.device .updateFilesCache]
  else if msgIs root "list_files_cache" then (sendFilesCache dev).map Effect.out
  else if msgIs root "reset_card" then
    [.device (.resetSmartCard (cbSuccessTrue env.clientUid root))]
  else if msgIs root "lock_device" then miniLockDevice root
  else []

/-- The `get_debug_platinfo` branch of `processMessageBLE`; its lambda captures
`[this, root, bleImpl]` and has no client check. -/
def bleGetDebugPlatinfo (root : QJsonObject) : List Effect :=
  [.device (.getDebugPlatInfo
     (fun success errstr data env2 =>
       if !success then sendFailedJson root errstr (-999)
       else
         let platInfo := env2.calcDebugPlatInfo data
         let ores := QJsonObject.empty.insert "aux_major" (.double (platInfo 0))
         let ores := ores.insert "aux_minor" (.double (platInfo 1))
         let ores := ores.insert "main_major" (.double (platInfo 2))
         let ores := ores.insert "main_minor" (.double (platInfo 3))
         let ores := ores.insert "success" (.string "true")
         [.sendJsonMessage (root.insert "data" (.object ores.fields))]))]

/-- The `flash_mcu` branch of `processMessageBLE`. -/
def bleFlashMcu (root : QJsonObject) : List Effect :=
  let root := root.afterRead "data"
  let o := (root.value "data").toObject
  [.device (.flashMCU (o.value "type").toString
     (fun success errstr _ =>
       if !success then sendFailedJson root errstr (-999)
       else []))]

/-- The `upload_bundle` branch of `processMessageBLE`. -/
def bleUploadBundle (root : QJsonObject) (cbProgress : MPDeviceProgressCb) : List Effect :=
  let root := root.afterRead "data"
  let o := (root.value "data").toObject
  [.device (.uploadBundle (o.value "file").toString
     (fun success _ _ =>
       let ores := QJsonObject.empty.insert "success" (.bool success)
       [.sendJsonMessage (root.insert "data" (.object ores.fields))])
     cbProgress)]

/-- The `ask_password` / `get_credential` branch of `processMessageBLE`. -/
def bleGetCredential (root : QJsonObject) : List Effect :=
  let root := root.afterRead "data"
  let o := (root.value "data").toObject
  let service := (o.value "service").toString
  let login := (o.value "login").toString
  [.device (.bleGetCredential service login
     (fun success errstr data env2 =>
       if !success then sendFailedJson root errstr (-999)
       else
         let cred := env2.retrieveCredentialFromResponse data service login
         let hibp : List Output :=
           if env2.settings.enable_hibp_check then
             [.isPasswordPwned cred.password
               (service ++ ": " ++ login ++ ": " ++ env2.HIBP_COMPROMISED_FORMAT)]
           else []
         let ores := QJsonObject.empty.insert "service" (.string service)
         let ores := ores.insert "login" (.string cred.login)
         let ores := ores.insert "desc" (.string cred.description)
         let ores := ores.insert "third" (.string cred.third)
         let ores := ores.insert "password" (.string cred.password)
         hibp ++ [.sendJsonMessage (root.insert "data" (.object ores.fields))]))]

/-- The `set_credential` branch of `processMessageBLE`.  The entries stored by
the reads of `o` are followed as in the Mini branch; the `BleCredential`
argument reads `o` and the lambda argument copies it, in the order the compiler
chooses. -/
def bleSetCredential (env : Env) (root : QJsonObject) : List Effect :=
  let root := root.afterRead "data"
  let o := (root.value "data").toObject
  let loginName := (o.value "login").toString
  let o := o.afterRead "login"
  let originalService := (o.value "service").toString
  let o := o.afterRead "service"
  let url := env.parseDomain originalService
  let isManualCredential := o.contains "saveManualCredential"
  let o :=
    if isManualCredential then
      o.insert "service" (.string (url.getManuallyEnteredDomainName originalService))
    else o.insert "service" (.string url.getFullSubdomain)
  let detected : List Effect :=
    [.out (.sendMessageToGUI (mkObject [("msg", .string "credential_detected")]))]
  let hibp : List Effect :=
    if env.settings.enable_hibp_check then
      [.out (.isPasswordPwned (o.value "password").toString
        ((o.value "service").toString ++ ": " ++ loginName ++ ": " ++
          env.HIBP_COMPROMISED_FORMAT))]
    else []
  let o :=
    if env.settings.enable_hibp_check then (o.afterRead "service").afterRead "password"
    else o
  let oRead :=
    (((o.afterRead "service").afterRead "login").afterRead "description").afterRead
      "password"
  let captured := if env.argsLeftToRight then oRead else o
  detected ++ hibp ++
  [.device (.storeCredential
     ⟨(o.value "service").toString, (o.value "login").toString,
      (o.value "description").toString, "", (o.value "password").toString⟩
     (fun success errstr env2 =>
       if !env2.server.checkClientExists env.clientUid then []
       else if !success then sendFailedJson root errstr (-999)
       else [.sendJsonMessage (root.insert "data" (.object captured.fields))]))]

/-- `WSServerCon::processMessageBLE`, for an attached device `dev`. -/
def processMessageBLE (env : Env) (dev : MPDevice) (root : QJsonObject)
    (cbProgress : MPDeviceProgressCb) : List Effect :=
  if !dev.ble then []
  else
    let root := root.afterRead "msg"
    if msgIs root "get_debug_platinfo" then bleGetDebugPlatinfo root
    else if msgIs root "flash_mcu" then bleFlashMcu root
    else if msgIs root "upload_bundle" then bleUploadBundle root cbProgress
    else if msgIs root "fetch_data" then
      let o := (root.value "data").toObject
      [.device (.fetchData (o.value "file").toString
         ((o.value "type").toInt == env.FetchType_ACCELEROMETER))]
    else if msgIs root "stop_fetch_data" then [.device .stopFetchData]
    else if msgIs root "ask_password" || msgIs root "get_credential" then bleGetCredential root
    else if msgIs root "set_credential" then bleSetCredential env root
    else []

/-- `WSServerCon::processMessage`, from the parsed JSON object on (a text that
does not parse returns before anything is done). -/
def processMessage (env : Env) (root : QJsonObject) : List Effect :=
  let root := root.afterRead "msg"
  if msgIs root "show_app" then [.out (.notifyAllClients root)]
  else if msgIs root "get_application_id" then
    let ores := QJsonObject.empty.insert "application_name" (.string "moolticute")
    let ores := ores.insert "application_version" (.string env.APP_VERSION)
    let oroot := root.insert "data" (.object ores.fields)
    let oroot := oroot.insert "msg" (.string "get_application_id")
    [.out (.sendJsonMessage oroot)]
  else if msgIs root "show_status_notification_warning" then [.out (.sendMessageToGUI root)]
  else
    let rootStripped := root.remove "data"
    let cbProgress := defaultProgressCb env.clientUid rootStripped
    match env.mpdevice with
    | none => (sendFailedJson root "No device connected" (-999)).map Effect.out
    | some dev =>
      let locked := checkMemModeEnabled env root
      if locked.2 then locked.1.map Effect.out
      else if dev.isBLE then locked.1.map Effect.out ++ processMessageBLE env dev root cbProgress
      else locked.1.map Effect.out ++ processMessageMini env dev root cbProgress

/-- `WSServerCon::sendHibpNotification`. -/
def sendHibpNotification (message : String) : List Output :=
  let oroot := mkObject [("msg", .string "send_hibp")]
  let data := QJsonObject.empty.insert "message" (.string message)
  let oroot := oroot.insert "data" (.object data.fields)
  [.sendMessageToGUI oroot]

/-! ## Observations on a turn -/

/-- The device calls of a turn, in order. -/
def deviceCalls (es : List Effect) : List DeviceCall :=
  es.filterMap fun e => match e with
    | .device c => some c
    | .out _ => none

/-- The outputs of a turn, in order. -/
def outputs (es : List Effect) : List Output :=
  es.filterMap fun e => match e with
    | .out o => some o
    | .device _ => none

/-- The messages sent to the connection's own client, in order. -/
def sentMessages (os : List Output) : List QJsonObject :=
  os.filterMap fun o => match o with
    | .sendJsonMessage m => some m
    | _ => none

/-- The messages handed to the GUI, in order. -/
def guiMessages (os : List Output) : List QJsonObject :=
  os.filterMap fun o => match o with
    | .sendMessageToGUI m => some m
    | _ => none

/-- The service and login that a device call stores, when it is `setCredential`. -/
def DeviceCall.storedKey : DeviceCall → Option (String × String)
  | .setCredential service login _ _ _ _ => some (service, login)
  | _ => none

/-- The correlation id a device call is given, for the calls that take one. -/
def DeviceCall.reqid : DeviceCall → Option String
  | .getCredential _ _ _ reqid _ => some reqid
  | .cancelUserRequest reqid => some reqid
  | .getDataNode _ _ reqid _ _ => some reqid
  | .serviceExists _ _ reqid _ => some reqid
  | _ => none

/-- The error code a reply carries, for the one callback signature that has one. -/
def DeviceReply.errCode : DeviceReply → Option Int
  | .memMgmt _ c _ => some c
  | _ => none

/-- The service and login that a device call stores, when it is the BLE
`storeCredential`. -/
def DeviceCall.bleStoredKey : DeviceCall → Option (String × String)
  | .storeCredential cred _ => some (cred.service, cred.login)
  | _ => none

/-- The verbs that `processMessage` answers without a device. -/
def deviceFreeVerbs : List String :=
  ["show_app", "get_application_id", "show_status_notification_warning"]

/-- The verbs that `processMessageMini` knows, in source order. -/
def miniVerbs : List String :=
  ["param_set", "start_memorymgmt", "exit_memorymgmt", "start_memcheck", "ask_password",
   "get_credential", "set_credential", "del_credential", "request_device_uid",
   "get_random_numbers", "cancel_request", "get_data_node", "set_data_node",
   "delete_data_nodes", "credential_exists", "data_node_exists", "set_credentials",
   "export_database", "import_database", "import_csv", "refresh_files_cache",
   "list_files_cache", "reset_card", "lock_device"]

/-- The verbs that `processMessageBLE` knows, in source order. -/
def bleVerbs : List String :=
  ["get_debug_platinfo", "flash_mcu", "upload_bundle", "fetch_data", "stop_fetch_data",
   "ask_password", "get_credential", "set_credential"]

/-- The client ids handed to `setMemLockedClient` in a turn, in order. -/
def lockSets (es : List Effect) : List String :=
  (outputs es).filterMap fun o => match o with
    | .setMemLockedClient uid => some uid
    | _ => none

/-- Modelled from the spec: `WSServer::setMemLockedClient` (its code is not
under `src/`), the transition of the Exclusive Mode Lock to `Locked(clientId)`,
taken as the assignment its name and its call site say it is. -/
def WSServer.setMemLockedClient (s : WSServer) (uid : String) : WSServer :=
  { s with memLockedClient := some uid }

/-- The `WSServer` state after the lock assignments of a turn. -/
def serverAfter (s : WSServer) (es : List Effect) : WSServer :=
  (lockSets es).foldl WSServer.setMemLockedClient s

/-! ## Sample states and messages -/

/-- Qt's base64 decoding loop (`QByteArray::fromBase64`): characters outside the
alphabet are skipped, every full group of 8 bits yields one byte. -/
def qtFromBase64 (s : String) : List Nat :=
  let step := fun (st : Nat × Nat × List Nat) (ch : Char) =>
    let c := ch.toNat
    let d : Option Nat :=
      if 65 ≤ c ∧ c ≤ 90 then some (c - 65)
      else if 97 ≤ c ∧ c ≤ 122 then some (c - 97 + 26)
      else if 48 ≤ c ∧ c ≤ 57 then some (c - 48 + 52)
      else if c = 43 then some 62
      else if c = 47 then some 63
      else none
    match d with
    | none => st
    | some d =>
      let buf := st.1 * 64 + d
      let nbits := st.2.1 + 6
      if nbits ≥ 8 then (buf % 2 ^ (nbits - 8), nbits - 8, st.2.2 ++ [buf / 2 ^ (nbits - 8)])
      else (buf, nbits, st.2.2)
  (s.toList.foldl step (0, 0, [])).2.2

/-- The parse of the sample address of the spec, and of anything else as a
service name that is not a website. -/
def sampleParseDomain (service : String) : ParseDomain :=
  if service == "https://login.example.com/path" then
    ⟨"login", true, "example.com", "login.example.com", fun s => s⟩
  else ⟨"", false, service, service, fun s => s⟩

/-- A Mini device, unlocked, outside memory management mode. -/
def sampleMini : MPDevice :=
  ⟨false, false, false, true, false, true, [], true⟩

/-- A Mini device, unlocked, in memory management mode. -/
def sampleMiniMgmt : MPDevice :=
  ⟨false, false, true, true, false, true, [], true⟩

/-- A BLE device with its BLE implementation present. -/
def sampleBle : MPDevice :=
  ⟨true, true, false, true, false, true, [], true⟩

/-- A state: client `ws-1` connected, the given device, lock holder and GUI
reachability, call arguments evaluated right to left, subdomain selection
enabled, breach check disabled, and small size limits (4 bytes for files, 2 for
the `ssh` service). -/
def sampleEnv (dev : Option MPDevice) (holder : Option String) (gui : Bool)
    (clients : List String) : Env :=
  { clientUid := "ws-1"
    mpdevice := dev
    server := ⟨holder, clients⟩
    guiRunning := gui
    argsLeftToRight := false
    settings := ⟨true, false⟩
    parseDomain := sampleParseDomain
    APP_VERSION := "v0"
    HIBP_COMPROMISED_FORMAT := "compromised"
    MP_MAX_FILE_SIZE := 4
    MP_MAX_SSH_SIZE := 2
    MC_SSH_SERVICE := "ssh"
    toLower := fun s => ⟨s.data.map Char.toLower⟩
    simplified := String.trim
    fromBase64 := qtFromBase64
    toBase64 := fun _ => ""
    FetchType_ACCELEROMETER := 0
    calcDebugPlatInfo := fun _ _ => 0
    retrieveCredentialFromResponse := fun _ service login => ⟨service, login, "", "", ""⟩ }

/-- The message `{"msg": verb, "data": data}`. -/
def sampleMsg (verb : String) (data : List (String × QJsonValue)) : QJsonObject :=
  ⟨[("msg", .string verb), ("data", .object data)]⟩

/-! ## Lemmas on `QJsonObject` -/

/-- After a write, the first entry found under the written key is the written one. -/
theorem QJsonObject.find_insertFields_same (k : String) (v : QJsonValue)
    (l : List (String × QJsonValue)) :
    (QJsonObject.insertFields k v l).find? (fun kv => kv.1 == k) = some (k, v) := by
  induction l with
  | nil => simp [QJsonObject.insertFields]
  | cons kv rest ih =>
    by_cases h : kv.1 = k
    · simp [QJsonObject.insertFields, h]
    · simp [QJsonObject.insertFields, h, List.find?_cons, ih]

/-- A write does not change the first entry found under another key. -/
theorem QJsonObject.find_insertFields_ne (k k2 : String) (v : QJsonValue) (hne : k2 ≠ k)
    (l : List (String × QJsonValue)) :
    (QJsonObject.insertFields k v l).find? (fun kv => kv.1 == k2) =
      l.find? (fun kv => kv.1 == k2) := by
  induction l with
  | nil => simp [QJsonObject.insertFields, List.find?_cons, Ne.symm hne]
  | cons kv rest ih =>
    by_cases h : kv.1 = k
    · have h2 : ¬ kv.1 = k2 := fun e => hne (e.symm.trans h)
      simp [QJsonObject.insertFields, h, List.find?_cons, h2, Ne.symm hne]
    · by_cases h3 : kv.1 = k2
      · have h4 : ¬ k2 = k := hne
        subst h3
        simp [QJsonObject.insertFields, h4, List.find?_cons]
      · simp [QJsonObject.insertFields, h, List.find?_cons, h3, ih]

/-- Reading back the key just written gives the written value. -/
theorem QJsonObject.value_insert_same (o : QJsonObject) (k : String) (v : QJsonValue) :
    (o.insert k v).value k = v := by
  simp [QJsonObject.value, QJsonObject.insert, QJsonObject.find_insertFields_same]

/-- Writing one key leaves the value read under any other key unchanged. -/
theorem QJsonObject.value_insert_ne (o : QJsonObject) (k k2 : String) (v : QJsonValue)
    (hne : k2 ≠ k) : (o.insert k v).value k2 = o.value k2 := by
  simp [QJsonObject.value, QJsonObject.insert, QJsonObject.find_insertFields_ne k k2 v hne]

/-- A message whose verb is `a` does not compare equal to another verb. -/
theorem msgIs_of_ne (root : QJsonObject) (a b : String) (h : msgIs root a = true)
    (hne : a ≠ b) : msgIs root b = false := by
  unfold msgIs at *
  cases hv : root.value "msg" <;> simp_all [QJsonValue.eqString]

/-- Conversion of a string value. -/
theorem QJsonValue.toString_string (s : String) : (QJsonValue.string s).toString = s := rfl

/-- A read of a key that is present leaves the object as it is. -/
theorem QJsonObject.afterRead_of_contains (o : QJsonObject) (k : String)
    (h : o.contains k = true) : o.afterRead k = o := by
  simp [QJsonObject.afterRead, h]

/-- Overwriting absent entries: writing a key that no entry has appends it. -/
theorem QJsonObject.insertFields_of_not_mem (k : String) (v : QJsonValue)
    (l : List (String × QJsonValue)) (h : l.any (fun kv => kv.1 == k) = false) :
    QJsonObject.insertFields k v l = l ++ [(k, v)] := by
  induction l with
  | nil => rfl
  | cons kv rest ih =>
    simp only [List.any_cons, Bool.or_eq_false_iff] at h
    simp [QJsonObject.insertFields, h.1, ih h.2]

/-- Writing a key twice keeps the second value. -/
theorem QJsonObject.insertFields_insertFields (k : String) (v w : QJsonValue)
    (l : List (String × QJsonValue)) :
    QJsonObject.insertFields k w (QJsonObject.insertFields k v l) =
      QJsonObject.insertFields k w l := by
  induction l with
  | nil => simp [QJsonObject.insertFields]
  | cons kv rest ih =>
    by_cases h : kv.1 = k
    · simp [QJsonObject.insertFields, h]
    · simp [QJsonObject.insertFields, h, ih]

/-- A write after a read of the same key is the write alone: the `null` the
read may have stored is overwritten. -/
@[simp] theorem QJsonObject.insert_afterRead_same (o : QJsonObject) (k : String)
    (v : QJsonValue) : (o.afterRead k).insert k v = o.insert k v := by
  unfold QJsonObject.afterRead
  split
  · rfl
  · simp [QJsonObject.insert, QJsonObject.insertFields_insertFields]

/-- The same on the entries: a write after a read of the same key is the write
alone. -/
@[simp] theorem QJsonObject.insertFields_afterRead_same (o : QJsonObject) (k : String)
    (v : QJsonValue) :
    QJsonObject.insertFields k v (o.afterRead k).fields = QJsonObject.insertFields k v o.fields :=
  congrArg QJsonObject.fields (QJsonObject.insert_afterRead_same o k v)

/-- After a read the key is present. -/
@[simp] theorem QJsonObject.contains_afterRead_same (o : QJsonObject) (k : String) :
    (o.afterRead k).contains k = true := by
  unfold QJsonObject.afterRead
  split
  · assumption
  · rename_i h
    have h2 : o.fields.any (fun kv => kv.1 == k) = false := Bool.eq_false_iff.2 h
    simp [QJsonObject.contains, QJsonObject.insert, QJsonObject.insertFields_of_not_mem _ _ _ h2]

/-- A read of one key does not change whether another key is present. -/
theorem QJsonObject.contains_afterRead_ne (o : QJsonObject) (k k2 : String) (hne : k2 ≠ k) :
    (o.afterRead k).contains k2 = o.contains k2 := by
  unfold QJsonObject.afterRead
  split
  · rfl
  · rename_i h
    have h2 : o.fields.any (fun kv => kv.1 == k) = false := Bool.eq_false_iff.2 h
    have h3 : ¬ k = k2 := fun e => hne e.symm
    simp [QJsonObject.contains, QJsonObject.insert, QJsonObject.insertFields_of_not_mem _ _ _ h2,
      h3]

/-- A read of one key does not change the value under another key. -/
theorem QJsonObject.value_afterRead_ne (o : QJsonObject) (k k2 : String) (hne : k2 ≠ k) :
    (o.afterRead k).value k2 = o.value k2 := by
  unfold QJsonObject.afterRead
  split
  · rfl
  · exact QJsonObject.value_insert_ne _ _ _ _ hne

/-- The value under a key after a read of it: what was there, or `null`. -/
theorem QJsonObject.value_afterRead_same (o : QJsonObject) (k : String) :
    (o.afterRead k).value k = if o.contains k then o.value k else QJsonValue.null := by
  unfold QJsonObject.afterRead
  split
  · rfl
  · exact QJsonObject.value_insert_same _ _ _

/-- An absent key reads as `undefined`. -/
theorem QJsonObject.value_of_not_contains (o : QJsonObject) (k : String)
    (h : o.contains k = false) : o.value k = QJsonValue.undefined := by
  have h2 : ∀ l : List (String × QJsonValue), l.any (fun kv => kv.1 == k) = false →
      l.find? (fun kv => kv.1 == k) = none := by
    intro l
    induction l with
    | nil => intro _; rfl
    | cons kv rest ih =>
      intro hl
      simp only [List.any_cons, Bool.or_eq_false_iff] at hl
      simp [List.find?_cons, hl.1, ih hl.2]
  have h3 : o.fields.find? (fun kv => kv.1 == k) = none := h2 _ h
  simp [QJsonObject.value, h3]

/-- The conversions do not tell the `null` a read stored from the absent key. -/
@[simp] theorem QJsonObject.toObject_value_afterRead (o : QJsonObject) (k k2 : String) :
    ((o.afterRead k).value k2).toObject = (o.value k2).toObject := by
  by_cases hk : k2 = k
  · subst hk
    rw [QJsonObject.value_afterRead_same]
    by_cases h : o.contains k2 = true
    · simp [h]
    · have h2 : o.contains k2 = false := by simpa using h
      simp [h2, QJsonObject.value_of_not_contains _ _ h2, QJsonValue.toObject]
  · rw [QJsonObject.value_afterRead_ne _ _ _ hk]

/-- The conversions do not tell the `null` a read stored from the absent key. -/
@[simp] theorem QJsonObject.toString_value_afterRead (o : QJsonObject) (k k2 : String) :
    ((o.afterRead k).value k2).toString = (o.value k2).toString := by
  by_cases hk : k2 = k
  · subst hk
    rw [QJsonObject.value_afterRead_same]
    by_cases h : o.contains k2 = true
    · simp [h]
    · have h2 : o.contains k2 = false := by simpa using h
      simp [h2, QJsonObject.value_of_not_contains _ _ h2, QJsonValue.toString]
  · rw [QJsonObject.value_afterRead_ne _ _ _ hk]

/-- The conversions do not tell the `null` a read stored from the absent key. -/
@[simp] theorem QJsonObject.toArray_value_afterRead (o : QJsonObject) (k k2 : String) :
    ((o.afterRead k).value k2).toArray = (o.value k2).toArray := by
  by_cases hk : k2 = k
  · subst hk
    rw [QJsonObject.value_afterRead_same]
    by_cases h : o.contains k2 = true
    · simp [h]
    · have h2 : o.contains k2 = false := by simpa using h
      simp [h2, QJsonObject.value_of_not_contains _ _ h2, QJsonValue.toArray]
  · rw [QJsonObject.value_afterRead_ne _ _ _ hk]

/-- The comparison with a string does not tell the `null` a read stored from
the absent key. -/
@[simp] theorem QJsonObject.eqString_value_afterRead (o : QJsonObject) (k k2 v : String) :
    ((o.afterRead k).value k2).eqString v = (o.value k2).eqString v := by
  by_cases hk : k2 = k
  · subst hk
    rw [QJsonObject.value_afterRead_same]
    by_cases h : o.contains k2 = true
    · simp [h]
    · have h2 : o.contains k2 = false := by simpa using h
      simp [h2, QJsonObject.value_of_not_contains _ _ h2, QJsonValue.eqString]
  · rw [QJsonObject.value_afterRead_ne _ _ _ hk]

/-- A read does not change the verb a message compares equal to. -/
@[simp] theorem msgIs_afterRead (root : QJsonObject) (k v : String) :
    msgIs (root.afterRead k) v = msgIs root v := by
  simp [msgIs]

/-- A message that compares equal to a verb has the key `msg`. -/
theorem contains_msg_of_msgIs (root : QJsonObject) (v : String) (h : msgIs root v = true) :
    root.contains "msg" = true := by
  by_contra hc
  have h2 : root.contains "msg" = false := by simpa using hc
  simp [msgIs, QJsonObject.value_of_not_contains _ _ h2, QJsonValue.eqString] at h

/-- The read `root["msg"]` leaves a message that has a verb as it is. -/
theorem afterRead_msg_of_msgIs (root : QJsonObject) (v : String) (h : msgIs root v = true) :
    root.afterRead "msg" = root :=
  QJsonObject.afterRead_of_contains _ _ (contains_msg_of_msgIs root v h)

/-- The read `root["msg"]` leaves a message whose `msg` is a string as it is. -/
theorem afterRead_msg_of_value (root : QJsonObject) (v : String)
    (h : root.value "msg" = QJsonValue.string v) : root.afterRead "msg" = root :=
  afterRead_msg_of_msgIs root v (by simp [msgIs, h, QJsonValue.eqString])

/-- A failure response built on an envelope is the same whether or not
`envelope["data"]` was read before: `sendFailedJson` overwrites `data`. -/
@[simp] theorem sendFailedJson_afterRead_data (obj : QJsonObject) (errstr : String)
    (errCode : Int) :
    sendFailedJson (obj.afterRead "data") errstr errCode = sendFailedJson obj errstr errCode := by
  simp [sendFailedJson]

/-- The `{"success": "true"}` lambda is the same whether or not `root["data"]`
was read before `root` was captured: it overwrites `data`. -/
@[simp] theorem cbSuccessTrue_afterRead_data (clientUid : String) (root : QJsonObject) :
    cbSuccessTrue clientUid (root.afterRead "data") = cbSuccessTrue clientUid root := by
  funext success errstr env
  simp [cbSuccessTrue]

/-! ## Rejections before dispatch -/

/-- C1: for every message whose verb is none of `show_app`, `get_application_id`,
`show_status_notification_warning`, when a device (Mini or BLE) is attached and
the management-mode lock is held by another client, the turn consists of
exactly one failure response carrying the error message "Device is in memory
management mode", and no call is made on the device.  The envelope of the
response is the message as it is after the read `root["msg"]`. -/
theorem processMessage_locked_by_other (env : Env) (root : QJsonObject) (dev : MPDevice)
    (h1 : msgIs root "show_app" = false)
    (h2 : msgIs root "get_application_id" = false)
    (h3 : msgIs root "show_status_notification_warning" = false)
    (hdev : env.mpdevice = some dev)
    (hlock : env.server.isMemModeLocked env.clientUid = true) :
    processMessage env root =
        [Effect.out (Output.sendJsonMessage ((root.afterRead "msg").insert "data" (QJsonValue.object
          [("failed", QJsonValue.bool true),
           ("error_message", QJsonValue.string "Device is in memory management mode")])))]
      ∧ deviceCalls (processMessage env root) = []
      ∧ (sentMessages (outputs (processMessage env root))).length = 1 := by
  have h : processMessage env root =
      [Effect.out (Output.sendJsonMessage ((root.afterRead "msg").insert "data" (QJsonValue.object
        [("failed", QJsonValue.bool true),
         ("error_message", QJsonValue.string "Device is in memory management mode")])))] := by
    have he : ("Device is in memory management mode").isEmpty = false := by decide
    simp [processMessage, h1, h2, h3, hdev, checkMemModeEnabled, hlock, sendFailedJson,
      QJsonObject.insert, QJsonObject.insertFields, QJsonObject.empty, he]
  rw [h]
  exact ⟨rfl, rfl, rfl⟩

/-- C1 at a sample: `set_credentials` from `ws-1` to a BLE device while `ws-2`
holds the lock. -/
theorem processMessage_locked_by_other_witness :
    msgIs (sampleMsg "set_credentials" []) "show_app" = false
      ∧ (sampleEnv (some sampleBle) (some "ws-2") true ["ws-1", "ws-2"]).server.isMemModeLocked
          "ws-1" = true
      ∧ deviceCalls (processMessage
          (sampleEnv (some sampleBle) (some "ws-2") true ["ws-1", "ws-2"])
          (sampleMsg "set_credentials" [])) = [] :=
  ⟨by decide, by decide,
    (processMessage_locked_by_other
      (sampleEnv (some sampleBle) (some "ws-2") true ["ws-1", "ws-2"])
      (sampleMsg "set_credentials" []) sampleBle (by decide) (by decide) (by decide) rfl
      (by decide)).2.1⟩

/-- C2: for every message whose verb requires a device (none of `show_app`,
`get_application_id`, `show_status_notification_warning`), when no device is
attached the turn consists of exactly one failure response whose `data` is
`failed = true` with error message "No device connected" and no error code;
no device call is made and nothing goes to the GUI.  The envelope of the
response is the message as it is after the read `root["msg"]`. -/
theorem processMessage_no_device (env : Env) (root : QJsonObject)
    (h1 : msgIs root "show_app" = false)
    (h2 : msgIs root "get_application_id" = false)
    (h3 : msgIs root "show_status_notification_warning" = false)
    (hdev : env.mpdevice = none) :
    processMessage env root =
        [Effect.out (Output.sendJsonMessage ((root.afterRead "msg").insert "data" (QJsonValue.object
          [("failed", QJsonValue.bool true),
           ("error_message", QJsonValue.string "No device connected")])))]
      ∧ deviceCalls (processMessage env root) = []
      ∧ guiMessages (outputs (processMessage env root)) = []
      ∧ (sentMessages (outputs (processMessage env root))).length = 1 := by
  have h : processMessage env root =
      [Effect.out (Output.sendJsonMessage ((root.afterRead "msg").insert "data" (QJsonValue.object
        [("failed", QJsonValue.bool true),
         ("error_message", QJsonValue.string "No device connected")])))] := by
    have he : ("No device connected").isEmpty = false := by decide
    simp [processMessage, h1, h2, h3, hdev, sendFailedJson,
      QJsonObject.insert, QJsonObject.insertFields, QJsonObject.empty, he]
  rw [h]
  exact ⟨rfl, rfl, rfl, rfl⟩

/-- C2 at a sample: `get_credential` with no device attached. -/
theorem processMessage_no_device_witness :
    msgIs (sampleMsg "get_credential" [("service", .string "example.com")]) "show_app" = false
      ∧ (sampleEnv none none true ["ws-1"]).mpdevice = none
      ∧ deviceCalls (processMessage (sampleEnv none none true ["ws-1"])
          (sampleMsg "get_credential" [("service", .string "example.com")])) = [] :=
  ⟨by decide, rfl,
    (processMessage_no_device (sampleEnv none none true ["ws-1"])
      (sampleMsg "get_credential" [("service", .string "example.com")])
      (by decide) (by decide) (by decide) rfl).2.1⟩

/-! ## Lemmas on the observations -/

/-- Membership of a key after a write to another key. -/
theorem QJsonObject.contains_insert_ne (o : QJsonObject) (k k2 : String) (v : QJsonValue)
    (hne : k2 ≠ k) : (o.insert k v).contains k2 = o.contains k2 := by
  unfold QJsonObject.contains QJsonObject.insert
  simp only
  induction o.fields with
  | nil => simp [QJsonObject.insertFields, Ne.symm hne]
  | cons kv rest ih =>
    by_cases h : kv.1 = k
    · have h2 : ¬ kv.1 = k2 := fun e => hne (e.symm.trans h)
      simp [QJsonObject.insertFields, h, h2, Ne.symm hne]
    · simp [QJsonObject.insertFields, h, ih]

/-- Membership of a key in the object chosen by a branch. -/
theorem QJsonObject.ite_contains (c : Prop) [Decidable c] (a b : QJsonObject) (k : String) :
    (if c then a else b).contains k = if c then a.contains k else b.contains k := by
  split <;> rfl

/-- Reading a key of the object chosen by a branch. -/
theorem QJsonObject.ite_value (c : Prop) [Decidable c] (a b : QJsonObject) (k : String) :
    (if c then a else b).value k = if c then a.value k else b.value k := by
  split <;> rfl

/-- The device calls of two stretches of a turn. -/
theorem deviceCalls_append (a b : List Effect) :
    deviceCalls (a ++ b) = deviceCalls a ++ deviceCalls b := by
  simp [deviceCalls]

/-- The device calls of a branch. -/
theorem deviceCalls_ite (c : Prop) [Decidable c] (a b : List Effect) :
    deviceCalls (if c then a else b) = if c then deviceCalls a else deviceCalls b := by
  split <;> rfl

/-- An output is not a device call. -/
theorem deviceCalls_cons_out (x : Output) (l : List Effect) :
    deviceCalls (Effect.out x :: l) = deviceCalls l := by
  simp [deviceCalls]

/-- A device call heads the device calls of what follows it. -/
theorem deviceCalls_cons_device (x : DeviceCall) (l : List Effect) :
    deviceCalls (Effect.device x :: l) = x :: deviceCalls l := by
  simp [deviceCalls]

/-- An empty turn has no device call. -/
theorem deviceCalls_nil : deviceCalls [] = [] := rfl

/-- The GUI messages of two stretches of a turn. -/
theorem guiMessages_outputs_append (a b : List Effect) :
    guiMessages (outputs (a ++ b)) = guiMessages (outputs a) ++ guiMessages (outputs b) := by
  simp [guiMessages, outputs]

/-- The GUI messages of a branch. -/
theorem guiMessages_outputs_ite (c : Prop) [Decidable c] (a b : List Effect) :
    guiMessages (outputs (if c then a else b)) =
      if c then guiMessages (outputs a) else guiMessages (outputs b) := by
  split <;> rfl

/-- The messages sent to the client in two stretches of a turn. -/
theorem sentMessages_outputs_append (a b : List Effect) :
    sentMessages (outputs (a ++ b)) =
      sentMessages (outputs a) ++ sentMessages (outputs b) := by
  simp [sentMessages, outputs]

/-- The messages sent to the client in a branch. -/
theorem sentMessages_outputs_ite (c : Prop) [Decidable c] (a b : List Effect) :
    sentMessages (outputs (if c then a else b)) =
      if c then sentMessages (outputs a) else sentMessages (outputs b) := by
  split <;> rfl

/-- A GUI message is among the GUI messages of a turn. -/
theorem guiMessages_outputs_gui (m : QJsonObject) (l : List Effect) :
    guiMessages (outputs (Effect.out (Output.sendMessageToGUI m) :: l)) =
      m :: guiMessages (outputs l) := rfl

/-- A breach check is no GUI message. -/
theorem guiMessages_outputs_pwned (p f : String) (l : List Effect) :
    guiMessages (outputs (Effect.out (Output.isPasswordPwned p f) :: l)) =
      guiMessages (outputs l) := rfl

/-- A device call is no GUI message. -/
theorem guiMessages_outputs_device (c : DeviceCall) (l : List Effect) :
    guiMessages (outputs (Effect.device c :: l)) = guiMessages (outputs l) := rfl

/-- An empty turn has no GUI message. -/
theorem guiMessages_outputs_nil : guiMessages (outputs []) = [] := rfl

/-- The verb test after re-tagging a message. -/
theorem msgIs_insert_msg (o : QJsonObject) (s t : String) :
    msgIs (o.insert "msg" (QJsonValue.string s)) t = (s == t) := by
  simp [msgIs, QJsonObject.value_insert_same, QJsonValue.eqString]

/-- Replacing `data` does not change the verb of a message. -/
theorem msgIs_insert_data (o : QJsonObject) (v : QJsonValue) (t : String) :
    msgIs (o.insert "data" v) t = msgIs o t := by
  simp [msgIs, QJsonObject.value_insert_ne]

/-! ## The Mini `set_credential` branch, part by part -/

/-- An object read out of `root["data"]` that has a key shows that `root` has
the key `data`. -/
theorem contains_data_of_contains (root : QJsonObject) (k : String)
    (h : (root.value "data").toObject.contains k = true) : root.contains "data" = true := by
  by_contra hc
  have h2 : root.contains "data" = false := by simpa using hc
  rw [QJsonObject.value_of_not_contains _ _ h2] at h
  simp [QJsonValue.toObject, QJsonObject.empty, QJsonObject.contains] at h

/-- The device call of the last part: one `setCredential`, with the final
service key and the login, answering on the envelope `root`. -/
theorem miniSetCredentialStore_deviceCalls (env : Env) (root o : QJsonObject)
    (loginName originalService : String) (url : ParseDomain) (isManualCredential : Bool) :
    ∃ (service login pass desc : String) (setDesc : Bool) (o2 : QJsonObject),
      deviceCalls (miniSetCredentialStore env root o loginName originalService url
          isManualCredential) =
        [DeviceCall.setCredential service login pass desc setDesc
          (fun success errstr env2 =>
            if !env2.server.checkClientExists env.clientUid then []
            else if !success then sendFailedJson root errstr (-999)
            else [Output.sendJsonMessage (root.insert "data" (QJsonValue.object o2.fields))])]
      ∧ service =
          (if isManualCredential = true then url.getManuallyEnteredDomainName originalService
           else if (!o.contains "saveDomainConfirmed" && url.isWebsite) = true then
             url.getFullDomain
           else (o.value "service").toString)
      ∧ login = (o.value "login").toString := by
  simp only [miniSetCredentialStore, deviceCalls_append, deviceCalls_ite, deviceCalls_cons_out,
    deviceCalls_cons_device, deviceCalls_nil, ite_self, List.append_nil, List.nil_append]
  refine ⟨_, _, _, _, _, _, rfl, ?_, ?_⟩
  · cases isManualCredential <;> cases env.settings.enable_hibp_check <;>
      by_cases hc : (!o.contains "saveDomainConfirmed" && url.isWebsite) = true <;>
      simp [hc, QJsonObject.value_insert_same, QJsonValue.toString_string]
  · cases isManualCredential <;> cases env.settings.enable_hibp_check <;>
      by_cases hc : (!o.contains "saveDomainConfirmed" && url.isWebsite) = true <;>
      simp [hc, QJsonObject.value_insert_ne]

/-- The key under which the last part stores the credential. -/
theorem miniSetCredentialStore_storedKey (env : Env) (root o : QJsonObject)
    (loginName originalService : String) (url : ParseDomain) (isManualCredential : Bool) :
    (deviceCalls (miniSetCredentialStore env root o loginName originalService url
        isManualCredential)).map DeviceCall.storedKey =
      [some
        (if isManualCredential = true then url.getManuallyEnteredDomainName originalService
         else if (!o.contains "saveDomainConfirmed" && url.isWebsite) = true then
           url.getFullDomain
         else (o.value "service").toString,
         (o.value "login").toString)] := by
  obtain ⟨service, login, pass, desc, setDesc, o2, hcalls, hs, hl⟩ :=
    miniSetCredentialStore_deviceCalls env root o loginName originalService url
      isManualCredential
  rw [hcalls, hs, hl]
  rfl

/-- The last part tells the GUI `credential_detected` and nothing else. -/
theorem miniSetCredentialStore_guiMessages (env : Env) (root o : QJsonObject)
    (loginName originalService : String) (url : ParseDomain) (isManualCredential : Bool) :
    guiMessages (outputs (miniSetCredentialStore env root o loginName originalService url
        isManualCredential)) =
      [mkObject [("msg", QJsonValue.string "credential_detected")]] := by
  simp only [miniSetCredentialStore, guiMessages_outputs_append, guiMessages_outputs_ite,
    guiMessages_outputs_gui, guiMessages_outputs_pwned, guiMessages_outputs_device,
    guiMessages_outputs_nil, ite_self, List.append_nil, List.nil_append]

/-- The last part sends nothing to the client within the turn. -/
theorem miniSetCredentialStore_sentMessages (env : Env) (root o : QJsonObject)
    (loginName originalService : String) (url : ParseDomain) (isManualCredential : Bool) :
    sentMessages (outputs (miniSetCredentialStore env root o loginName originalService url
        isManualCredential)) = [] := by
  simp only [miniSetCredentialStore, sentMessages_outputs_append, sentMessages_outputs_ite]
  simp [sentMessages, outputs]

/-- The key under which the middle part stores the credential, when the
`request_domain` round trip does not suspend the write. -/
theorem miniSetCredentialDomain_storedKey (env : Env) (root o : QJsonObject)
    (loginName : String) (isMsgContainsExtInfo : Bool) :
    (deviceCalls (miniSetCredentialDomain env root o loginName isMsgContainsExtInfo)).map
        DeviceCall.storedKey =
      if (!(env.parseDomain (o.value "service").toString).subdomain.isEmpty
          && isMsgContainsExtInfo
          && (env.settings.enable_subdomain_selection
            && (env.parseDomain (o.value "service").toString).isWebsite)
          && !o.contains "saveManualCredential" && !o.contains "saveDomainConfirmed"
          && env.guiRunning) = true then []
      else
        [some
          (if o.contains "saveManualCredential" = true then
              (env.parseDomain (o.value "service").toString).getManuallyEnteredDomainName
                (o.value "service").toString
            else if (!o.contains "saveDomainConfirmed"
                && (env.parseDomain (o.value "service").toString).isWebsite) = true then
              (env.parseDomain (o.value "service").toString).getFullDomain
            else (o.value "service").toString,
           (o.value "login").toString)] := by
  simp only [miniSetCredentialDomain, deviceCalls_append, deviceCalls_ite, deviceCalls_cons_out,
    deviceCalls_nil, ite_self, List.nil_append, apply_ite (List.map DeviceCall.storedKey),
    List.map_nil, miniSetCredentialStore_storedKey,
    QJsonObject.contains_afterRead_ne _ "service" "saveManualCredential" (by decide),
    QJsonObject.contains_afterRead_ne _ "service" "saveDomainConfirmed" (by decide),
    QJsonObject.toString_value_afterRead, QJsonObject.ite_contains, QJsonObject.ite_value,
    QJsonObject.contains_insert_ne _ "subdomain" "saveDomainConfirmed" _ (by decide),
    QJsonObject.contains_insert_ne _ "domain" "saveDomainConfirmed" _ (by decide),
    QJsonObject.value_insert_ne _ "subdomain" "service" _ (by decide),
    QJsonObject.value_insert_ne _ "domain" "service" _ (by decide),
    QJsonObject.value_insert_ne _ "subdomain" "login" _ (by decide),
    QJsonObject.value_insert_ne _ "domain" "login" _ (by decide),
    QJsonObject.value_afterRead_ne _ "service" "login" (by decide)]

/-- The GUI messages of the middle part, in order: the `request_domain` round
trip when a subdomain has to be confirmed, its `data` being `o` as it stands
after the read `o["service"]` plus `domain` and `subdomain`; then, unless the
round trip suspended the write, `credential_detected`. -/
theorem miniSetCredentialDomain_guiMessages (env : Env) (root o : QJsonObject)
    (loginName : String) (isMsgContainsExtInfo : Bool) :
    guiMessages (outputs (miniSetCredentialDomain env root o loginName isMsgContainsExtInfo)) =
      (if (!(env.parseDomain (o.value "service").toString).subdomain.isEmpty
          && isMsgContainsExtInfo
          && (env.settings.enable_subdomain_selection
            && (env.parseDomain (o.value "service").toString).isWebsite)
          && !o.contains "saveManualCredential" && !o.contains "saveDomainConfirmed") = true
        then
          [(root.insert "msg" (QJsonValue.string "request_domain")).insert "data"
            (QJsonValue.object
              (((o.afterRead "service").insert "domain"
                (QJsonValue.string
                  (env.parseDomain (o.value "service").toString).getFullDomain)).insert
                "subdomain"
                (QJsonValue.string
                  (env.parseDomain (o.value "service").toString).getFullSubdomain)).fields)]
        else [])
      ++ (if (!(env.parseDomain (o.value "service").toString).subdomain.isEmpty
          && isMsgContainsExtInfo
          && (env.settings.enable_subdomain_selection
            && (env.parseDomain (o.value "service").toString).isWebsite)
          && !o.contains "saveManualCredential" && !o.contains "saveDomainConfirmed"
          && env.guiRunning) = true then []
          else [mkObject [("msg", QJsonValue.string "credential_detected")]]) := by
  simp only [miniSetCredentialDomain, guiMessages_outputs_append, guiMessages_outputs_ite,
    guiMessages_outputs_gui, guiMessages_outputs_nil, miniSetCredentialStore_guiMessages,
    QJsonObject.contains_afterRead_ne _ "service" "saveManualCredential" (by decide),
    QJsonObject.contains_afterRead_ne _ "service" "saveDomainConfirmed" (by decide)]
  split_ifs <;> simp_all

/-- The middle part sends nothing to the client within the turn. -/
theorem miniSetCredentialDomain_sentMessages (env : Env) (root o : QJsonObject)
    (loginName : String) (isMsgContainsExtInfo : Bool) :
    sentMessages (outputs (miniSetCredentialDomain env root o loginName
      isMsgContainsExtInfo)) = [] := by
  simp only [miniSetCredentialDomain, sentMessages_outputs_append, sentMessages_outputs_ite,
    miniSetCredentialStore_sentMessages]
  simp [sentMessages, outputs]

/-- Every device call of the last part is one `setCredential` whose completion
callback answers on the envelope `root` with some data `o2`. -/
theorem miniSetCredentialStore_call_shape (env : Env) (root o : QJsonObject)
    (loginName originalService : String) (url : ParseDomain) (isManualCredential : Bool)
    (c : DeviceCall)
    (hc : c ∈ deviceCalls (miniSetCredentialStore env root o loginName originalService url
      isManualCredential)) :
    ∃ (service login pass desc : String) (setDesc : Bool) (root2 o2 : QJsonObject),
      c = DeviceCall.setCredential service login pass desc setDesc
        (fun success errstr env2 =>
          if !env2.server.checkClientExists env.clientUid then []
          else if !success then sendFailedJson root2 errstr (-999)
          else [Output.sendJsonMessage (root2.insert "data" (QJsonValue.object o2.fields))]) := by
  obtain ⟨service, login, pass, desc, setDesc, o2, hcalls, _, _⟩ :=
    miniSetCredentialStore_deviceCalls env root o loginName originalService url
      isManualCredential
  rw [hcalls, List.mem_singleton] at hc
  exact ⟨_, _, _, _, _, _, _, hc⟩

/-- Every device call of the middle part is one `setCredential` whose
completion callback answers on some envelope `root2` with some data `o2`. -/
theorem miniSetCredentialDomain_call_shape (env : Env) (root o : QJsonObject)
    (loginName : String) (isMsgContainsExtInfo : Bool) (c : DeviceCall)
    (hc : c ∈ deviceCalls (miniSetCredentialDomain env root o loginName
      isMsgContainsExtInfo)) :
    ∃ (service login pass desc : String) (setDesc : Bool) (root2 o2 : QJsonObject),
      c = DeviceCall.setCredential service login pass desc setDesc
        (fun success errstr env2 =>
          if !env2.server.checkClientExists env.clientUid then []
          else if !success then sendFailedJson root2 errstr (-999)
          else [Output.sendJsonMessage (root2.insert "data" (QJsonValue.object o2.fields))]) := by
  simp only [miniSetCredentialDomain, deviceCalls_append, deviceCalls_ite, deviceCalls_cons_out,
    deviceCalls_nil, ite_self, List.nil_append] at hc
  split_ifs at hc
  all_goals first
    | exact absurd hc (List.not_mem_nil _)
    | exact miniSetCredentialStore_call_shape _ _ _ _ _ _ _ _ hc

/-- Every device call of the Mini `set_credential` branch is one `setCredential`
whose completion callback answers on some envelope `root2` with some data `o2`. -/
theorem miniSetCredential_call_shape (env : Env) (root : QJsonObject) (c : DeviceCall)
    (hc : c ∈ deviceCalls (miniSetCredential env root)) :
    ∃ (service login pass desc : String) (setDesc : Bool) (root2 o2 : QJsonObject),
      c = DeviceCall.setCredential service login pass desc setDesc
        (fun success errstr env2 =>
          if !env2.server.checkClientExists env.clientUid then []
          else if !success then sendFailedJson root2 errstr (-999)
          else [Output.sendJsonMessage (root2.insert "data" (QJsonValue.object o2.fields))]) := by
  simp only [miniSetCredential, deviceCalls_append, deviceCalls_ite, deviceCalls_cons_out,
    deviceCalls_nil, ite_self, List.nil_append] at hc
  split_ifs at hc
  all_goals first
    | exact absurd hc (List.not_mem_nil _)
    | exact miniSetCredentialDomain_call_shape _ _ _ _ _ _ hc

/-- The Mini `set_credential` branch sends nothing to the client within the turn. -/
theorem miniSetCredential_sentMessages (env : Env) (root : QJsonObject) :
    sentMessages (outputs (miniSetCredential env root)) = [] := by
  simp only [miniSetCredential, sentMessages_outputs_append, sentMessages_outputs_ite,
    miniSetCredentialDomain_sentMessages]
  simp [sentMessages, outputs]

/-- What the Mini `set_credential` branch hands to the device: nothing when a
GUI round trip suspends the write, otherwise one `setCredential` whose service
key is the manual-entry name, else the bare full domain of a website without
`saveDomainConfirmed`, else the `service` value as received. -/
theorem miniSetCredential_storedKey (env : Env) (root : QJsonObject)
    (o : QJsonObject) (ho : o = (root.value "data").toObject)
    (url : ParseDomain) (hurl : url = env.parseDomain (o.value "service").toString) :
    (deviceCalls (miniSetCredential env root)).map DeviceCall.storedKey =
      if ((o.value "login").toString.isEmpty
          && (o.contains "extension_version" || o.contains "mc_cli_version")
          && !o.contains "saveLoginConfirmed" && env.guiRunning) = true then []
      else if (!url.subdomain.isEmpty
          && (o.contains "extension_version" || o.contains "mc_cli_version")
          && (env.settings.enable_subdomain_selection && url.isWebsite)
          && !o.contains "saveManualCredential" && !o.contains "saveDomainConfirmed"
          && env.guiRunning) = true then []
      else
        [some
          (if o.contains "saveManualCredential" = true then
              url.getManuallyEnteredDomainName (o.value "service").toString
            else if (!o.contains "saveDomainConfirmed" && url.isWebsite) = true then
              url.getFullDomain
            else (o.value "service").toString,
           (o.value "login").toString)] := by
  subst ho hurl
  simp only [miniSetCredential, deviceCalls_append, deviceCalls_ite, deviceCalls_cons_out,
    deviceCalls_nil, ite_self, List.nil_append, apply_ite (List.map DeviceCall.storedKey),
    List.map_nil, miniSetCredentialDomain_storedKey, QJsonObject.toObject_value_afterRead,
    QJsonObject.toString_value_afterRead,
    QJsonObject.contains_afterRead_ne _ "login" "extension_version" (by decide),
    QJsonObject.contains_afterRead_ne _ "login" "mc_cli_version" (by decide),
    QJsonObject.contains_afterRead_ne _ "login" "saveLoginConfirmed" (by decide),
    QJsonObject.contains_afterRead_ne _ "login" "saveManualCredential" (by decide),
    QJsonObject.contains_afterRead_ne _ "login" "saveDomainConfirmed" (by decide)]

/-- An object read out of a `root` without the key `data` has no key. -/
theorem contains_of_not_contains_data (root : QJsonObject) (k : String)
    (h : root.contains "data" = false) : (root.value "data").toObject.contains k = false := by
  cases hc : (root.value "data").toObject.contains k
  · rfl
  · rw [contains_data_of_contains root k hc] at h
    cases h

/-- The GUI messages of the Mini `set_credential` branch, in order: the
`request_login` round trip when the login is empty in extension context and not
confirmed; then, unless that round trip suspended the write, the
`request_domain` round trip when a subdomain has to be confirmed, its `data`
being `o` as it stands after the reads `o["login"]` and `o["service"]` plus
`domain` and `subdomain`; then, unless a round trip suspended the write,
`credential_detected`. -/
theorem miniSetCredential_guiMessages (env : Env) (root : QJsonObject)
    (o : QJsonObject) (ho : o = (root.value "data").toObject)
    (url : ParseDomain) (hurl : url = env.parseDomain (o.value "service").toString)
    (askLogin askDomain : Bool)
    (hA : askLogin = ((o.value "login").toString.isEmpty
      && (o.contains "extension_version" || o.contains "mc_cli_version")
      && !o.contains "saveLoginConfirmed"))
    (hD : askDomain = (!url.subdomain.isEmpty
      && (o.contains "extension_version" || o.contains "mc_cli_version")
      && (env.settings.enable_subdomain_selection && url.isWebsite)
      && !o.contains "saveManualCredential" && !o.contains "saveDomainConfirmed")) :
    guiMessages (outputs (miniSetCredential env root)) =
      (if askLogin = true then [root.insert "msg" (QJsonValue.string "request_login")] else [])
      ++ (if (askLogin && env.guiRunning) = true then []
          else
            (if askDomain = true then
              [((if askLogin = true then root.insert "msg" (QJsonValue.string "request_login")
                  else root).insert "msg" (QJsonValue.string "request_domain")).insert "data"
                (QJsonValue.object
                  ((((o.afterRead "login").afterRead "service").insert "domain"
                    (QJsonValue.string url.getFullDomain)).insert "subdomain"
                    (QJsonValue.string url.getFullSubdomain)).fields)]
             else [])
            ++ (if (askDomain && env.guiRunning) = true then []
                else [mkObject [("msg", QJsonValue.string "credential_detected")]])) := by
  subst ho hurl
  by_cases hd : root.contains "data" = true
  · subst hA hD
    simp only [miniSetCredential, guiMessages_outputs_append, guiMessages_outputs_ite,
      guiMessages_outputs_gui, guiMessages_outputs_nil, miniSetCredentialDomain_guiMessages,
      QJsonObject.afterRead_of_contains _ _ hd, QJsonObject.toString_value_afterRead,
      QJsonObject.contains_afterRead_ne _ "login" "extension_version" (by decide),
      QJsonObject.contains_afterRead_ne _ "login" "mc_cli_version" (by decide),
      QJsonObject.contains_afterRead_ne _ "login" "saveLoginConfirmed" (by decide),
      QJsonObject.contains_afterRead_ne _ "login" "saveManualCredential" (by decide),
      QJsonObject.contains_afterRead_ne _ "login" "saveDomainConfirmed" (by decide)]
    split_ifs <;> simp_all
  · have hd2 : root.contains "data" = false := by simpa using hd
    have he1 := contains_of_not_contains_data root "extension_version" hd2
    have he2 := contains_of_not_contains_data root "mc_cli_version" hd2
    have hA2 : askLogin = false := by
      rw [hA, he1, he2]
      simp
    have hD2 : askDomain = false := by
      rw [hD, he1, he2]
      simp
    subst hA2 hD2
    rw [he1, he2] at hA hD
    simp only [miniSetCredential, guiMessages_outputs_append, guiMessages_outputs_ite,
      guiMessages_outputs_gui, guiMessages_outputs_nil, miniSetCredentialDomain_guiMessages,
      QJsonObject.toObject_value_afterRead, QJsonObject.toString_value_afterRead,
      QJsonObject.contains_afterRead_ne _ "login" "extension_version" (by decide),
      QJsonObject.contains_afterRead_ne _ "login" "mc_cli_version" (by decide),
      QJsonObject.contains_afterRead_ne _ "login" "saveLoginConfirmed" (by decide),
      QJsonObject.contains_afterRead_ne _ "login" "saveManualCredential" (by decide),
      QJsonObject.contains_afterRead_ne _ "login" "saveDomainConfirmed" (by decide), he1, he2]
    simp

/-! ## Completion callbacks -/

/-- C3, the code at a failing input: client `ws-1` sends `lock_device` to a Mini
device and is gone from the registry when the device reports success; the
completion callback still sends one message.  The callback of `reset_card`,
which starts with the registry check, sends none in the same situation. -/
theorem lock_device_callback_sends_after_disconnect :
    (sampleEnv (some sampleMini) none true []).server.checkClientExists "ws-1" = false
      ∧ (deviceCalls (processMessage (sampleEnv (some sampleMini) none true ["ws-1"])
          (sampleMsg "lock_device" []))).map
          (fun c => (c.complete (DeviceReply.status true "")).map
            (fun act => (sentMessages (act (sampleEnv (some sampleMini) none true []))).length))
        = [some 1]
      ∧ (deviceCalls (processMessage (sampleEnv (some sampleMini) none true ["ws-1"])
          (sampleMsg "reset_card" []))).map
          (fun c => (c.complete (DeviceReply.status true "")).map
            (fun act => (sentMessages (act (sampleEnv (some sampleMini) none true []))).length))
        = [some 0] := by
  refine ⟨?_, ?_, ?_⟩
  · decide
  · decide
  · decide

/-- C4 fails as stated: client `ws-1` sends `start_memorymgmt` to a Mini device
and still exists when the device reports success; the completion callback
sends no message. -/
theorem start_memorymgmt_success_sends_nothing :
    (sampleEnv (some sampleMini) none true ["ws-1"]).server.checkClientExists "ws-1" = true
      ∧ (deviceCalls (processMessage (sampleEnv (some sampleMini) none true ["ws-1"])
          (sampleMsg "start_memorymgmt" []))).map
          (fun c => (c.complete (DeviceReply.memMgmt true 0 "")).map
            (fun act =>
              (sentMessages (act (sampleEnv (some sampleMini) none true ["ws-1"]))).length))
        = [some 0] := by
  constructor
  · decide
  · decide

/-- No call made by `processParametersSet` has a completion callback. -/
theorem processParametersSet_complete (data : QJsonObject) (c : DeviceCall)
    (reply : DeviceReply) (hc : c ∈ deviceCalls (processParametersSet data)) :
    c.complete reply = none := by
  simp only [deviceCalls, processParametersSet, List.mem_filterMap, List.mem_append] at hc
  obtain ⟨e, he, hce⟩ := hc
  rcases he with he | he
  · obtain ⟨p, _, hp⟩ := he
    by_cases hcont : data.contains p.1 = true
    · by_cases hk : p.2 = true
      · simp [hcont, hk] at hp
        subst hp
        simp at hce
        subst hce
        rfl
      · simp [hcont, hk] at hp
        subst hp
        simp at hce
        subst hce
        rfl
    · simp [hcont] at hp
  · simp at he
    subst he
    simp at hce
    subst hce
    rfl

/-- Membership in the device calls of a two-way branch. -/
theorem mem_deviceCalls_ite (p : Prop) [Decidable p] (a b : List Effect) (c : DeviceCall) :
    c ∈ deviceCalls (if p then a else b) ↔
      (p ∧ c ∈ deviceCalls a) ∨ (¬ p ∧ c ∈ deviceCalls b) := by
  by_cases h : p <;> simp [h]

set_option maxHeartbeats 4000000 in
/-- Message count of one firing of a completion callback registered by
`processMessageMini`, for a client that still exists. -/
theorem completion_mini (env : Env) (dev : MPDevice) (root : QJsonObject)
    (cbp : MPDeviceProgressCb) (c : DeviceCall) (reply : DeviceReply) (act : Action)
    (env2 : Env)
    (hc : c ∈ deviceCalls (processMessageMini env dev root cbp))
    (hact : c.complete reply = some act)
    (hex : env2.server.checkClientExists env.clientUid = true) :
    (sentMessages (act env2)).length =
      if reply.success = true ∧ msgIs root "start_memorymgmt" = true then 0 else 1 := by
  unfold processMessageMini at hc
  rw [← msgIs_afterRead root "msg" "start_memorymgmt"]
  simp only [] at hc
  generalize root.afterRead "msg" = root2 at hc ⊢
  rw [mem_deviceCalls_ite] at hc
  rcases hc with ⟨_, hc⟩ | ⟨_, hc⟩
  · have hnone := processParametersSet_complete _ c reply hc
    simp [hnone] at hact
  repeat
    rw [mem_deviceCalls_ite] at hc
    rcases hc with ⟨_, hc⟩ | ⟨_, hc⟩
    · first
      | (guard_hyp hc : c ∈ deviceCalls (miniSetCredential env root2)
         obtain ⟨_, _, _, _, _, _, _, hc⟩ := miniSetCredential_call_shape env root2 c hc
         subst hc
         cases reply <;> simp [DeviceCall.complete] at hact
         subst hact
         simp [hex, DeviceReply.success, *]
         split_ifs <;> simp_all [sendFailedJson, sentMessages])
      | (simp [miniStartMemorymgmt, miniStartMemcheck, miniGetCredential, miniDelCredential,
           miniGetRandomNumbers, miniGetDataNode, miniSetDataNode, miniDeleteDataNodes,
           miniServiceExists, miniSetCredentials, miniExportDatabase, miniImportDatabase,
           miniImportCsv, miniLockDevice, sendFilesCache, cbSuccessTrue, deviceCalls,
           sendFailedJson] at hc
         try split_ifs at hc
         all_goals try simp at hc
         all_goals
           subst hc
           cases reply <;> simp [DeviceCall.complete] at hact <;>
             (subst hact
              simp [hex, DeviceReply.success, cbSuccessTrue, *]
              try split_ifs
              all_goals simp_all [sendFailedJson, sentMessages]))
  simp [deviceCalls] at hc

/-- Every device call of the BLE `set_credential` branch is one `storeCredential`
whose completion callback answers on some envelope `root2` with some data `o2`. -/
theorem bleSetCredential_call_shape (env : Env) (root : QJsonObject) (c : DeviceCall)
    (hc : c ∈ deviceCalls (bleSetCredential env root)) :
    ∃ (cred : BleCredential) (root2 o2 : QJsonObject),
      c = DeviceCall.storeCredential cred
        (fun success errstr env2 =>
          if !env2.server.checkClientExists env.clientUid then []
          else if !success then sendFailedJson root2 errstr (-999)
          else [Output.sendJsonMessage (root2.insert "data" (QJsonValue.object o2.fields))]) := by
  simp only [bleSetCredential, deviceCalls_append, deviceCalls_ite, deviceCalls_cons_out,
    deviceCalls_cons_device, deviceCalls_nil, ite_self, List.append_nil, List.nil_append,
    List.mem_singleton] at hc
  exact ⟨_, _, _, hc⟩

/-- Message count of one firing of a completion callback registered by
`processMessageBLE`, for a client that still exists. -/
theorem completion_ble (env : Env) (dev : MPDevice) (root : QJsonObject)
    (cbp : MPDeviceProgressCb) (c : DeviceCall) (reply : DeviceReply) (act : Action)
    (env2 : Env)
    (hc : c ∈ deviceCalls (processMessageBLE env dev root cbp))
    (hact : c.complete reply = some act)
    (hex : env2.server.checkClientExists env.clientUid = true) :
    (sentMessages (act env2)).length =
      if reply.success = true ∧ msgIs root "flash_mcu" = true then 0 else 1 := by
  unfold processMessageBLE at hc
  rw [mem_deviceCalls_ite] at hc
  rcases hc with ⟨_, hc⟩ | ⟨_, hc⟩
  · simp [deviceCalls] at hc
  rw [← msgIs_afterRead root "msg" "flash_mcu"]
  simp only [] at hc
  generalize root.afterRead "msg" = root2 at hc ⊢
  have hg : msgIs root2 "get_debug_platinfo" = true → msgIs root2 "flash_mcu" = false :=
    fun h => msgIs_of_ne root2 _ _ h (by decide)
  repeat
    rw [mem_deviceCalls_ite] at hc
    rcases hc with ⟨_, hc⟩ | ⟨_, hc⟩
    · first
      | (guard_hyp hc : c ∈ deviceCalls (bleSetCredential env root2)
         obtain ⟨_, _, _, hc⟩ := bleSetCredential_call_shape env root2 c hc
         subst hc
         cases reply <;> simp [DeviceCall.complete] at hact
         subst hact
         simp [hex, DeviceReply.success, *]
         split_ifs <;> simp_all [sendFailedJson, sentMessages])
      | (simp [bleGetDebugPlatinfo, bleFlashMcu, bleUploadBundle, bleGetCredential,
           deviceCalls] at hc
         subst hc
         cases reply <;> simp [DeviceCall.complete] at hact <;>
           (subst hact
            simp [hex, DeviceReply.success, *]
            try split_ifs
            all_goals simp_all [sendFailedJson, sentMessages]))
  simp [deviceCalls] at hc

/-- C4 as amended: a completion callback registered by a verb that
`processMessage` dispatched to the attached device, fired once while the client
still exists, sends exactly one message, except that the callback of
`start_memorymgmt` (Mini) sends none when the device reports success.  The
firing of the `flash_mcu` callback (BLE) with success is left out of the
statement. -/
theorem completion_sends_one_message (env : Env) (root : QJsonObject) (dev : MPDevice)
    (c : DeviceCall) (reply : DeviceReply) (act : Action) (env2 : Env)
    (hdev : env.mpdevice = some dev)
    (hc : c ∈ deviceCalls (processMessage env root))
    (hact : c.complete reply = some act)
    (hex : env2.server.checkClientExists env.clientUid = true)
    (hflash : ¬ (reply.success = true ∧ dev.isBLE = true ∧ msgIs root "flash_mcu" = true)) :
    (sentMessages (act env2)).length =
      if reply.success = true ∧ dev.isBLE = false ∧ msgIs root "start_memorymgmt" = true
      then 0 else 1 := by
  unfold processMessage at hc
  rw [← msgIs_afterRead root "msg" "start_memorymgmt"]
  rw [← msgIs_afterRead root "msg" "flash_mcu"] at hflash
  simp only [] at hc
  generalize root.afterRead "msg" = root2 at hc hflash ⊢
  rw [mem_deviceCalls_ite] at hc
  rcases hc with ⟨_, hc⟩ | ⟨_, hc⟩
  · simp [deviceCalls] at hc
  rw [mem_deviceCalls_ite] at hc
  rcases hc with ⟨_, hc⟩ | ⟨_, hc⟩
  · simp [deviceCalls] at hc
  rw [mem_deviceCalls_ite] at hc
  rcases hc with ⟨_, hc⟩ | ⟨_, hc⟩
  · simp [deviceCalls] at hc
  simp only [hdev] at hc
  rw [mem_deviceCalls_ite] at hc
  rcases hc with ⟨_, hc⟩ | ⟨hl, hc⟩
  · exfalso
    revert hc
    unfold checkMemModeEnabled
    split_ifs <;> simp [deviceCalls, sendFailedJson]
  have hl2 : (checkMemModeEnabled env root2).1 = [] := by
    unfold checkMemModeEnabled at hl ⊢
    split_ifs at hl ⊢ <;> simp_all
  rw [mem_deviceCalls_ite] at hc
  rcases hc with ⟨hb, hc⟩ | ⟨hb, hc⟩
  · simp only [hl2, List.map_nil, List.nil_append] at hc
    rw [completion_ble env dev root2 _ c reply act env2 hc hact hex]
    simp only [hb, true_and] at hflash
    simp [hb, hflash]
  · simp only [hl2, List.map_nil, List.nil_append] at hc
    rw [completion_mini env dev root2 _ c reply act env2 hc hact hex]
    simp [hb]

/-- C4 as amended, at a sample: the callback of `get_random_numbers` on a Mini
device, fired with success while `ws-1` still exists, sends one message. -/
theorem completion_sends_one_message_witness :
    (sampleEnv (some sampleMini) none true ["ws-1"]).server.checkClientExists "ws-1" = true
      ∧ (sentMessages
          ((((deviceCalls (processMessage (sampleEnv (some sampleMini) none true ["ws-1"])
              (sampleMsg "get_random_numbers" []))).headD DeviceCall.loadParameters).complete
              (DeviceReply.bytes true "" [7])).getD (fun _ => [])
            (sampleEnv (some sampleMini) none true ["ws-1"]))).length = 1 :=
  ⟨by decide,
    completion_sends_one_message (sampleEnv (some sampleMini) none true ["ws-1"])
      (sampleMsg "get_random_numbers" []) sampleMini
      ((deviceCalls (processMessage (sampleEnv (some sampleMini) none true ["ws-1"])
        (sampleMsg "get_random_numbers" []))).headD DeviceCall.loadParameters)
      (DeviceReply.bytes true "" [7]) _
      (sampleEnv (some sampleMini) none true ["ws-1"])
      rfl (List.mem_singleton.2 rfl) rfl (by decide) (by decide)⟩

/-! ## Dispatch to a branch -/

/-- A message that matches a verb carries that verb as its `msg` string. -/
theorem msg_of_msgIs (root : QJsonObject) (a : String) (h : msgIs root a = true) :
    root.value "msg" = QJsonValue.string a := by
  unfold msgIs at h
  cases hv : root.value "msg" <;> simp_all [QJsonValue.eqString]

/-- With a Mini device attached and the lock not held by another client,
`set_data_node` is handled by its branch of `processMessageMini`. -/
theorem processMessage_set_data_node (env : Env) (root : QJsonObject) (dev : MPDevice)
    (hdev : env.mpdevice = some dev) (hmini : dev.isBLE = false)
    (hlock : env.server.isMemModeLocked env.clientUid = false)
    (hmsg : msgIs root "set_data_node" = true) :
    processMessage env root =
      miniSetDataNode env root (defaultProgressCb env.clientUid (root.remove "data")) := by
  have hv := msg_of_msgIs root _ hmsg
  simp [processMessage, processMessageMini, checkMemModeEnabled, msgIs, hv,
    QJsonValue.eqString, hdev, hmini, hlock, afterRead_msg_of_msgIs root _ hmsg]

/-- With a Mini device attached and the lock not held by another client,
`set_credential` is handled by its branch of `processMessageMini`. -/
theorem processMessage_set_credential (env : Env) (root : QJsonObject) (dev : MPDevice)
    (hdev : env.mpdevice = some dev) (hmini : dev.isBLE = false)
    (hlock : env.server.isMemModeLocked env.clientUid = false)
    (hmsg : msgIs root "set_credential" = true) :
    processMessage env root = miniSetCredential env root := by
  have hv := msg_of_msgIs root _ hmsg
  simp [processMessage, processMessageMini, checkMemModeEnabled, msgIs, hv,
    QJsonValue.eqString, hdev, hmini, hlock, afterRead_msg_of_msgIs root _ hmsg]

/-! ## Size cap of `set_data_node` -/

/-- C5: for a `set_data_node` handled on a Mini device whose decoded payload
`d` is not empty, with `M` the SSH maximum when the lower-cased service equals
`MC_SSH_SERVICE` and the file maximum otherwise: when `size(d) > M` (in
particular `size(d) = M + 1`) the turn is exactly one failure response "data is
too big to be stored in device" and `setDataNode` is not called; when
`size(d) ≤ M` the turn is exactly one call `setDataNode(service, d, ..)` and no
failure response is sent. -/
theorem set_data_node_size_cap (env : Env) (root : QJsonObject) (dev : MPDevice)
    (hdev : env.mpdevice = some dev) (hmini : dev.isBLE = false)
    (hlock : env.server.isMemModeLocked env.clientUid = false)
    (hmsg : msgIs root "set_data_node" = true)
    (service : String) (d : List Nat) (M : Int)
    (hservice : service = ((root.value "data").toObject.value "service").toString)
    (hd : d = env.fromBase64 ((root.value "data").toObject.value "node_data").toString)
    (hM : M = if env.toLower service = env.MC_SSH_SERVICE then env.MP_MAX_SSH_SIZE
      else env.MP_MAX_FILE_SIZE)
    (hne : d ≠ []) :
    ((d.length : Int) > M →
        processMessage env root =
          [Effect.out (Output.sendJsonMessage (root.insert "data" (QJsonValue.object
            [("failed", QJsonValue.bool true),
             ("error_message", QJsonValue.string "data is too big to be stored in device")])))])
      ∧ ((d.length : Int) = M + 1 →
        deviceCalls (processMessage env root) = []
          ∧ (sentMessages (outputs (processMessage env root))).length = 1)
      ∧ ((d.length : Int) ≤ M →
        ∃ cb cbProgress,
          processMessage env root =
            [Effect.device (DeviceCall.setDataNode service d cb cbProgress)]) := by
  have hbig : (d.length : Int) > M →
      processMessage env root =
        [Effect.out (Output.sendJsonMessage (root.insert "data" (QJsonValue.object
          [("failed", QJsonValue.bool true),
           ("error_message",
             QJsonValue.string "data is too big to be stored in device")])))] := by
    intro hgt
    have he : ("data is too big to be stored in device").isEmpty = false := by decide
    have hne2 : ¬ env.fromBase64
        ((root.value "data").toObject.value "node_data").toString = [] := hd ▸ hne
    rw [processMessage_set_data_node env root dev hdev hmini hlock hmsg]
    subst hservice hd
    by_cases hs : env.toLower ((root.value "data").toObject.value "service").toString =
        env.MC_SSH_SERVICE
    · simp only [hs, if_true] at hM
      subst hM
      simp [miniSetDataNode, hne2, hs, hgt, sendFailedJson, he, QJsonObject.insert,
        QJsonObject.insertFields, QJsonObject.empty]
    · simp only [hs, if_false] at hM
      subst hM
      simp [miniSetDataNode, hne2, hs, hgt, sendFailedJson, he, QJsonObject.insert,
        QJsonObject.insertFields, QJsonObject.empty]
  refine ⟨hbig, ?_, ?_⟩
  · intro heq
    rw [hbig (by omega)]
    exact ⟨rfl, rfl⟩
  · intro hle
    have hne2 : ¬ env.fromBase64
        ((root.value "data").toObject.value "node_data").toString = [] := hd ▸ hne
    rw [processMessage_set_data_node env root dev hdev hmini hlock hmsg]
    subst hservice hd
    by_cases hs : env.toLower ((root.value "data").toObject.value "service").toString =
        env.MC_SSH_SERVICE
    · simp only [hs, if_true] at hM
      subst hM
      exact ⟨_, _, by simp [miniSetDataNode, hne2, hs, not_lt.2 hle]; exact ⟨rfl, rfl⟩⟩
    · simp only [hs, if_false] at hM
      subst hM
      exact ⟨_, _, by simp [miniSetDataNode, hne2, hs, not_lt.2 hle]; exact ⟨rfl, rfl⟩⟩

/-- C5 at a sample: a 3-byte payload for the `ssh` service, one byte over its
2-byte maximum, is rejected without a device call. -/
theorem set_data_node_size_cap_witness :
    qtFromBase64 "AAAA" = [0, 0, 0]
      ∧ deviceCalls (processMessage (sampleEnv (some sampleMini) none true ["ws-1"])
          (sampleMsg "set_data_node"
            [("service", .string "ssh"), ("node_data", .string "AAAA")])) = []
      ∧ (sentMessages (outputs (processMessage (sampleEnv (some sampleMini) none true ["ws-1"])
          (sampleMsg "set_data_node"
            [("service", .string "ssh"), ("node_data", .string "AAAA")])))).length = 1 :=
  ⟨by decide,
    (set_data_node_size_cap (sampleEnv (some sampleMini) none true ["ws-1"])
      (sampleMsg "set_data_node" [("service", .string "ssh"), ("node_data", .string "AAAA")])
      sampleMini rfl rfl (by decide) (by decide) "ssh" [0, 0, 0] 2 (by decide) (by decide)
      (by decide) (by decide)).2.1 (by decide)⟩

/-! ## Progress relay -/

/-- Reading an object back from the JSON value that wraps its fields. -/
theorem QJsonValue.toObject_object (o : QJsonObject) :
    (QJsonValue.object o.fields).toObject = o := rfl

/-- The two outputs of one progress tick for a client that still exists, and
none for a client that is gone; the first is tagged `progress`, the second
`progress_detailed`. -/
theorem defaultProgressCb_shape (clientUid : String) (rootStripped : QJsonObject)
    (progressData : ProgressData) (env : Env) :
    ∃ m1 m2 : QJsonObject,
      m1.value "msg" = QJsonValue.string "progress"
        ∧ m2.value "msg" = QJsonValue.string "progress_detailed"
        ∧ defaultProgressCb clientUid rootStripped progressData env =
            if env.server.checkClientExists clientUid = true then
              [Output.sendJsonMessage m1, Output.sendJsonMessage m2]
            else [] := by
  by_cases h : env.server.checkClientExists clientUid = true
  · exact ⟨_, _, QJsonObject.value_insert_same _ _ _, QJsonObject.value_insert_same _ _ _, by
      unfold defaultProgressCb
      simp only [h, Bool.not_true, Bool.false_eq_true, if_false, if_true]
      rfl⟩
  · exact ⟨rootStripped.insert "msg" (QJsonValue.string "progress"),
      rootStripped.insert "msg" (QJsonValue.string "progress_detailed"),
      QJsonObject.value_insert_same _ _ _, QJsonObject.value_insert_same _ _ _, by
        simp [defaultProgressCb, h]⟩

/-- C6: one progress tick handled by the default progress callback sends
nothing when the client no longer exists, and otherwise exactly two messages,
first the one tagged `progress`, then the one tagged `progress_detailed`; so
over any sequence of ticks the tags of the messages sent are, tick after tick
of a live client, `progress` followed by `progress_detailed`: the detailed
message of a tick comes after its coarse message and before the coarse message
of the next tick. -/
theorem defaultProgressCb_two_messages_in_order (clientUid : String)
    (rootStripped : QJsonObject) (progressData : ProgressData) (env : Env)
    (ticks : List (ProgressData × Env)) :
    (∃ m1 m2 : QJsonObject,
      m1.value "msg" = QJsonValue.string "progress"
        ∧ m2.value "msg" = QJsonValue.string "progress_detailed"
        ∧ defaultProgressCb clientUid rootStripped progressData env =
            if env.server.checkClientExists clientUid = true then
              [Output.sendJsonMessage m1, Output.sendJsonMessage m2]
            else [])
      ∧ (sentMessages
            (ticks.flatMap fun t => defaultProgressCb clientUid rootStripped t.1 t.2)).map
          (fun m => m.value "msg") =
        (ticks.filter fun t => t.2.server.checkClientExists clientUid).flatMap
          (fun _ => [QJsonValue.string "progress", QJsonValue.string "progress_detailed"]) := by
  refine ⟨defaultProgressCb_shape clientUid rootStripped progressData env, ?_⟩
  induction ticks with
  | nil => rfl
  | cons t rest ih =>
    obtain ⟨m1, m2, h1, h2, h⟩ := defaultProgressCb_shape clientUid rootStripped t.1 t.2
    simp only [List.flatMap_cons, sentMessages, List.filterMap_append, List.map_append,
      List.filter_cons] at ih ⊢
    rw [ih, h]
    by_cases hex : t.2.server.checkClientExists clientUid = true
    · simp [hex, h1, h2]
    · simp [hex]

/-- C7: for every progress event, with `total` and `current` the reported
integers (a missing one read as -1), every `progress_detailed` message the
callback emits has `progress_total = total` and
`progress_current = min(current, total)`, so the emitted current never exceeds
the emitted total. -/
theorem progress_detailed_clamped (clientUid : String) (rootStripped : QJsonObject)
    (progressData : ProgressData) (env : Env) (m : QJsonObject)
    (hm : m ∈ sentMessages (defaultProgressCb clientUid rootStripped progressData env))
    (hd : msgIs m "progress_detailed" = true) :
    (m.value "data").toObject.value "progress_total" =
        QJsonValue.double (progressData.total.getD (-1))
      ∧ (m.value "data").toObject.value "progress_current" =
        QJsonValue.double (min (progressData.current.getD (-1)) (progressData.total.getD (-1)))
      ∧ min (progressData.current.getD (-1)) (progressData.total.getD (-1)) ≤
        progressData.total.getD (-1) := by
  have hclamp : (if progressData.current.getD (-1) > progressData.total.getD (-1) then
      progressData.total.getD (-1) else progressData.current.getD (-1)) =
      min (progressData.current.getD (-1)) (progressData.total.getD (-1)) := by
    split_ifs with h
    · exact (min_eq_right (le_of_lt h)).symm
    · exact (min_eq_left (not_lt.1 h)).symm
  refine ⟨?_, ?_, min_le_right _ _⟩
  all_goals
    unfold defaultProgressCb at hm
    by_cases hex : env.server.checkClientExists clientUid = true
    · simp only [hex, Bool.not_true, Bool.false_eq_true, if_false, sentMessages,
        List.filterMap_cons, List.filterMap_nil, List.mem_cons, List.mem_singleton,
        List.not_mem_nil, or_false] at hm
      rcases hm with hm | hm
      · subst hm
        simp [msgIs, QJsonObject.value_insert_same, QJsonValue.eqString] at hd
      · subst hm
        rw [QJsonObject.value_insert_ne _ _ _ _ (by decide), QJsonObject.value_insert_same,
          QJsonValue.toObject_object]
        cases progressData.msg <;> cases progressData.msg_args <;>
          simp [QJsonObject.value_insert_ne, QJsonObject.value_insert_same, hclamp]
    · simp [hex, sentMessages] at hm

/-- C7 at a sample: a tick reporting `current = 15`, `total = 10` is emitted
with `progress_current = 10`. -/
theorem progress_detailed_clamped_witness :
    msgIs ((sentMessages (defaultProgressCb "ws-1" (sampleMsg "export_database" [])
        ⟨some 10, some 15, none, none⟩
        (sampleEnv (some sampleMini) none true ["ws-1"]))).getD 1 QJsonObject.empty)
        "progress_detailed" = true
      ∧ (((sentMessages (defaultProgressCb "ws-1" (sampleMsg "export_database" [])
        ⟨some 10, some 15, none, none⟩
        (sampleEnv (some sampleMini) none true ["ws-1"]))).getD 1 QJsonObject.empty).value
          "data").toObject.value "progress_current" = QJsonValue.double 10 :=
  ⟨by decide,
    (progress_detailed_clamped "ws-1" (sampleMsg "export_database" [])
      ⟨some 10, some 15, none, none⟩ (sampleEnv (some sampleMini) none true ["ws-1"])
      ((sentMessages (defaultProgressCb "ws-1" (sampleMsg "export_database" [])
        ⟨some 10, some 15, none, none⟩
        (sampleEnv (some sampleMini) none true ["ws-1"]))).getD 1 QJsonObject.empty)
      (List.mem_cons_of_mem _ (List.mem_singleton.2 rfl)) (by decide)).2.1⟩

/-- C8, the code at a failing input: client `ws-1` sends `export_database` to a
Mini device and the device reports one progress tick `current = 3`,
`total = 10`; the message tagged `progress` has no `data` field at all (the
request's `data` was stripped and the progress values are attached only
afterwards), while the `progress_detailed` message carries the values. -/
theorem coarse_progress_has_no_data :
    (deviceCalls (processMessage (sampleEnv (some sampleMini) none true ["ws-1"])
        (sampleMsg "export_database" []))).map
        (fun c => c.progress.map fun cbProgress =>
          (sentMessages (cbProgress ⟨some 10, some 3, none, none⟩
            (sampleEnv (some sampleMini) none true ["ws-1"]))).map
            fun m => (msgIs m "progress", m.contains "data",
              ((m.value "data").toObject.value "progress_total").toInt))
      = [some [(true, false, 0), (false, true, 10)]] := by
  decide

/-! ## Credential key resolution (`set_credential` on a Mini device) -/

/-- C9, the code at a failing input: Mini device, GUI unreachable, subdomain
selection enabled, and a `set_credential` from the extension for
"https://login.example.com/path" (full domain "example.com", full subdomain
"login.example.com"); `setCredential` is called once in the turn, with the
bare domain "example.com" as the service key, not "login.example.com". -/
theorem set_credential_gui_unreachable_stores_bare_domain :
    (sampleParseDomain "https://login.example.com/path").getFullSubdomain = "login.example.com"
      ∧ (deviceCalls (processMessage (sampleEnv (some sampleMini) none false ["ws-1"])
          (sampleMsg "set_credential"
            [("service", .string "https://login.example.com/path"),
             ("login", .string "alice"), ("password", .string "pw"),
             ("extension_version", .string "1")]))).map DeviceCall.storedKey
        = [some ("example.com", "alice")] := by
  constructor
  · decide
  · decide

/-- The `request_domain` round trip on `processMessage`: for a `set_credential`
handled on a Mini device that passes the empty-login step, with a non-empty
parsed subdomain, extension context, subdomain selection enabled,
website-shaped input and neither `saveManualCredential` nor
`saveDomainConfirmed`, exactly one `request_domain` message goes to the GUI; it
is the inbound message re-tagged; its data is `o` as it stands after the reads
`o["login"]` and `o["service"]`, plus `domain = getFullDomain()` and
`subdomain = getFullSubdomain()`; and when the GUI is reachable the turn ends
there, with no device call and nothing sent to the client. -/
theorem request_domain_round_trip (env : Env) (root : QJsonObject) (dev : MPDevice)
    (hdev : env.mpdevice = some dev) (hmini : dev.isBLE = false)
    (hlock : env.server.isMemModeLocked env.clientUid = false)
    (hmsg : msgIs root "set_credential" = true)
    (o : QJsonObject) (ho : o = (root.value "data").toObject)
    (url : ParseDomain) (hurl : url = env.parseDomain (o.value "service").toString)
    (hlogin : ((o.value "login").toString.isEmpty
      && (o.contains "extension_version" || o.contains "mc_cli_version")
      && !o.contains "saveLoginConfirmed" && env.guiRunning) = false)
    (hsub : url.subdomain.isEmpty = false)
    (hext : (o.contains "extension_version" || o.contains "mc_cli_version") = true)
    (hsel : env.settings.enable_subdomain_selection = true)
    (hweb : url.isWebsite = true)
    (hman : o.contains "saveManualCredential" = false)
    (hconf : o.contains "saveDomainConfirmed" = false) :
    ∃ m : QJsonObject,
      (guiMessages (outputs (processMessage env root))).filter
          (fun g => msgIs g "request_domain") = [m]
        ∧ m.value "data" = QJsonValue.object
            ((((o.afterRead "login").afterRead "service").insert "domain"
              (QJsonValue.string url.getFullDomain)).insert "subdomain"
              (QJsonValue.string url.getFullSubdomain)).fields
        ∧ (∀ k : String, k ≠ "msg" → k ≠ "data" → m.value k = root.value k)
        ∧ (env.guiRunning = true →
            deviceCalls (processMessage env root) = []
              ∧ sentMessages (outputs (processMessage env root)) = []) := by
  rw [processMessage_set_credential env root dev hdev hmini hlock hmsg]
  have hcd : msgIs (mkObject [("msg", QJsonValue.string "credential_detected")])
      "request_domain" = false := by decide
  have hval : ∀ (r : QJsonObject) (v : QJsonValue) (k : String), k ≠ "msg" → k ≠ "data" →
      ((r.insert "msg" (QJsonValue.string "request_domain")).insert "data" v).value k =
        r.value k := by
    intro r v k h1 h2
    rw [QJsonObject.value_insert_ne _ _ _ _ h2, QJsonObject.value_insert_ne _ _ _ _ h1]
  have hD : (!url.subdomain.isEmpty
      && (o.contains "extension_version" || o.contains "mc_cli_version")
      && (env.settings.enable_subdomain_selection && url.isWebsite)
      && !o.contains "saveManualCredential" && !o.contains "saveDomainConfirmed") = true := by
    simp [hsub, hext, hsel, hweb, hman, hconf]
  have hgui := miniSetCredential_guiMessages env root o ho url hurl _ _ rfl hD.symm
  have hkey := miniSetCredential_storedKey env root o ho url hurl
  rw [hgui]
  refine ⟨((if ((o.value "login").toString.isEmpty
      && (o.contains "extension_version" || o.contains "mc_cli_version")
      && !o.contains "saveLoginConfirmed") = true
      then root.insert "msg" (QJsonValue.string "request_login")
      else root).insert "msg" (QJsonValue.string "request_domain")).insert "data" _, ?_,
    QJsonObject.value_insert_same _ _ _, ?_, ?_⟩
  · cases hA : ((o.value "login").toString.isEmpty
        && (o.contains "extension_version" || o.contains "mc_cli_version")
        && !o.contains "saveLoginConfirmed") <;>
      cases hg : env.guiRunning <;>
      simp_all [msgIs_insert_msg, msgIs_insert_data]
  · intro k h1 h2
    rw [hval _ _ k h1 h2]
    split_ifs
    · exact QJsonObject.value_insert_ne _ _ _ _ h1
    · rfl
  · intro hg
    constructor
    · have hnil : (deviceCalls (miniSetCredential env root)).map DeviceCall.storedKey = [] := by
        rw [hkey]
        simp only [hg, Bool.and_true] at hlogin ⊢
        rw [hlogin, hD]
        simp
      exact List.map_eq_nil_iff.1 hnil
    · exact miniSetCredential_sentMessages env root

/-- The round trip at the sample of the spec: "https://login.example.com/path"
from the extension, GUI reachable; the turn ends after the `request_domain`
message. -/
theorem request_domain_round_trip_sample :
    (sampleEnv (some sampleMini) none true ["ws-1"]).guiRunning = true
      ∧ (sampleParseDomain "https://login.example.com/path").subdomain.isEmpty = false
      ∧ deviceCalls (processMessage (sampleEnv (some sampleMini) none true ["ws-1"])
          (sampleMsg "set_credential"
            [("service", .string "https://login.example.com/path"),
             ("login", .string "alice"), ("password", .string "pw"),
             ("extension_version", .string "1")])) = []
      ∧ sentMessages (outputs (processMessage (sampleEnv (some sampleMini) none true ["ws-1"])
          (sampleMsg "set_credential"
            [("service", .string "https://login.example.com/path"),
             ("login", .string "alice"), ("password", .string "pw"),
             ("extension_version", .string "1")]))) = [] :=
  ⟨rfl, by decide,
    Exists.elim
      (request_domain_round_trip (sampleEnv (some sampleMini) none true ["ws-1"])
        (sampleMsg "set_credential"
          [("service", .string "https://login.example.com/path"),
           ("login", .string "alice"), ("password", .string "pw"),
           ("extension_version", .string "1")])
        sampleMini rfl rfl (by decide) (by decide) _ rfl _ rfl (by decide) (by decide)
        (by decide) (by decide) (by decide) (by decide) (by decide))
      (fun _ h => h.2.2.2 rfl)⟩

/-- C11: for a `set_credential` handled on a Mini device, with `askLogin` the
conjunction "login empty, extension context, no `saveLoginConfirmed`": when it
holds, exactly one `request_login` message, the inbound message re-tagged, goes
to the GUI; if the GUI is reachable the turn ends there with no device call and
nothing sent to the client; if the GUI is unreachable `setCredential` is called
with the empty login.  When it does not hold no `request_login` message is
sent. -/
theorem set_credential_request_login (env : Env) (root : QJsonObject) (dev : MPDevice)
    (hdev : env.mpdevice = some dev) (hmini : dev.isBLE = false)
    (hlock : env.server.isMemModeLocked env.clientUid = false)
    (hmsg : msgIs root "set_credential" = true)
    (o : QJsonObject) (ho : o = (root.value "data").toObject)
    (askLogin : Bool)
    (hA : askLogin = ((o.value "login").toString.isEmpty
      && (o.contains "extension_version" || o.contains "mc_cli_version")
      && !o.contains "saveLoginConfirmed")) :
    (guiMessages (outputs (processMessage env root))).filter
        (fun g => msgIs g "request_login") =
        (if askLogin = true then [root.insert "msg" (QJsonValue.string "request_login")]
         else [])
      ∧ (askLogin = true → env.guiRunning = true →
          deviceCalls (processMessage env root) = []
            ∧ sentMessages (outputs (processMessage env root)) = [])
      ∧ (askLogin = true → env.guiRunning = false →
          ∃ service : String,
            (deviceCalls (processMessage env root)).map DeviceCall.storedKey =
              [some (service, "")]) := by
  rw [processMessage_set_credential env root dev hdev hmini hlock hmsg]
  have hcd : msgIs (mkObject [("msg", QJsonValue.string "credential_detected")])
      "request_login" = false := by decide
  refine ⟨?_, ?_, ?_⟩
  · obtain ⟨askDomain, hD⟩ : ∃ b : Bool, b = (!(env.parseDomain
        (o.value "service").toString).subdomain.isEmpty
        && (o.contains "extension_version" || o.contains "mc_cli_version")
        && (env.settings.enable_subdomain_selection
          && (env.parseDomain (o.value "service").toString).isWebsite)
        && !o.contains "saveManualCredential" && !o.contains "saveDomainConfirmed") :=
      ⟨_, rfl⟩
    rw [miniSetCredential_guiMessages env root o ho _ rfl askLogin askDomain hA hD]
    cases askLogin <;> cases askDomain <;> cases env.guiRunning <;>
      simp [msgIs_insert_msg, msgIs_insert_data, hcd]
  · intro ha hg
    refine ⟨?_, miniSetCredential_sentMessages env root⟩
    have h := miniSetCredential_storedKey env root o ho _ rfl
    rw [← hA, ha, hg] at h
    simpa using h
  · intro ha hg
    have h := miniSetCredential_storedKey env root o ho _ rfl
    rw [← hA, ha, hg] at h
    have hl : (o.value "login").toString = "" := by
      apply (String.isEmpty_iff _).1
      have hA2 := hA
      rw [ha] at hA2
      cases h1 : (o.value "login").toString.isEmpty
      · rw [h1] at hA2
        simp at hA2
      · rfl
    rw [hl] at h
    exact ⟨_, by simpa using h⟩

/-- C11 at a sample: an extension `set_credential` with an empty login and the
GUI reachable is suspended after the `request_login` round trip. -/
theorem set_credential_request_login_witness :
    (sampleEnv (some sampleMini) none true ["ws-1"]).guiRunning = true
      ∧ (guiMessages (outputs (processMessage (sampleEnv (some sampleMini) none true ["ws-1"])
          (sampleMsg "set_credential"
            [("service", .string "example"), ("login", .string ""),
             ("password", .string "pw"), ("extension_version", .string "1")])))).filter
          (fun g => msgIs g "request_login") =
        [(sampleMsg "set_credential"
            [("service", .string "example"), ("login", .string ""),
             ("password", .string "pw"), ("extension_version", .string "1")]).insert "msg"
          (QJsonValue.string "request_login")]
      ∧ deviceCalls (processMessage (sampleEnv (some sampleMini) none true ["ws-1"])
          (sampleMsg "set_credential"
            [("service", .string "example"), ("login", .string ""),
             ("password", .string "pw"), ("extension_version", .string "1")])) = [] :=
  ⟨rfl,
    (set_credential_request_login (sampleEnv (some sampleMini) none true ["ws-1"])
      (sampleMsg "set_credential"
        [("service", .string "example"), ("login", .string ""),
         ("password", .string "pw"), ("extension_version", .string "1")])
      sampleMini rfl rfl (by decide) (by decide) _ rfl true (by decide)).1,
    ((set_credential_request_login (sampleEnv (some sampleMini) none true ["ws-1"])
      (sampleMsg "set_credential"
        [("service", .string "example"), ("login", .string ""),
         ("password", .string "pw"), ("extension_version", .string "1")])
      sampleMini rfl rfl (by decide) (by decide) _ rfl true (by decide)).2.1 rfl rfl).1⟩

/-! ## Final service key -/

/-- C12: for a `set_credential` handled on a Mini device that carries
`saveManualCredential`: when the write reaches the device (it is not suspended
by a `request_login` round trip) `setCredential` is called once with the
service key `getManuallyEnteredDomainName(original service string)`, whatever
the parsed domain, `saveDomainConfirmed` and the subdomain-selection setting
are; and no `request_domain` message is ever sent. -/
theorem set_credential_manual_key (env : Env) (root : QJsonObject) (dev : MPDevice)
    (hdev : env.mpdevice = some dev) (hmini : dev.isBLE = false)
    (hlock : env.server.isMemModeLocked env.clientUid = false)
    (hmsg : msgIs root "set_credential" = true)
    (o : QJsonObject) (ho : o = (root.value "data").toObject)
    (url : ParseDomain) (hurl : url = env.parseDomain (o.value "service").toString)
    (hman : o.contains "saveManualCredential" = true) :
    (((o.value "login").toString.isEmpty
          && (o.contains "extension_version" || o.contains "mc_cli_version")
          && !o.contains "saveLoginConfirmed" && env.guiRunning) = false →
        (deviceCalls (processMessage env root)).map DeviceCall.storedKey =
          [some (url.getManuallyEnteredDomainName (o.value "service").toString,
            (o.value "login").toString)])
      ∧ (guiMessages (outputs (processMessage env root))).filter
          (fun g => msgIs g "request_domain") = [] := by
  rw [processMessage_set_credential env root dev hdev hmini hlock hmsg]
  have hcd : msgIs (mkObject [("msg", QJsonValue.string "credential_detected")])
      "request_domain" = false := by decide
  refine ⟨?_, ?_⟩
  · intro hreach
    rw [miniSetCredential_storedKey env root o ho url hurl, hreach, hman]
    simp
  · rw [miniSetCredential_guiMessages env root o ho url hurl _ _ rfl rfl, hman]
    cases ((o.value "login").toString.isEmpty
        && (o.contains "extension_version" || o.contains "mc_cli_version")
        && !o.contains "saveLoginConfirmed") <;> cases env.guiRunning <;>
      simp [msgIs_insert_msg, msgIs_insert_data, hcd]

/-- C13: for a `set_credential` resubmission handled on a Mini device that
carries `saveDomainConfirmed` and not `saveManualCredential`: no
`request_domain` message is sent, and when the write reaches the device
`setCredential` is called once with exactly the `service` value of the
resubmission as service key. -/
theorem set_credential_confirmed_key (env : Env) (root : QJsonObject) (dev : MPDevice)
    (hdev : env.mpdevice = some dev) (hmini : dev.isBLE = false)
    (hlock : env.server.isMemModeLocked env.clientUid = false)
    (hmsg : msgIs root "set_credential" = true)
    (o : QJsonObject) (ho : o = (root.value "data").toObject)
    (hconf : o.contains "saveDomainConfirmed" = true)
    (hman : o.contains "saveManualCredential" = false) :
    (((o.value "login").toString.isEmpty
          && (o.contains "extension_version" || o.contains "mc_cli_version")
          && !o.contains "saveLoginConfirmed" && env.guiRunning) = false →
        (deviceCalls (processMessage env root)).map DeviceCall.storedKey =
          [some ((o.value "service").toString, (o.value "login").toString)])
      ∧ (guiMessages (outputs (processMessage env root))).filter
          (fun g => msgIs g "request_domain") = [] := by
  rw [processMessage_set_credential env root dev hdev hmini hlock hmsg]
  have hcd : msgIs (mkObject [("msg", QJsonValue.string "credential_detected")])
      "request_domain" = false := by decide
  refine ⟨?_, ?_⟩
  · intro hreach
    rw [miniSetCredential_storedKey env root o ho _ rfl, hreach, hman, hconf]
    simp
  · rw [miniSetCredential_guiMessages env root o ho _ rfl _ _ rfl rfl, hman, hconf]
    cases ((o.value "login").toString.isEmpty
        && (o.contains "extension_version" || o.contains "mc_cli_version")
        && !o.contains "saveLoginConfirmed") <;> cases env.guiRunning <;>
      simp [msgIs_insert_msg, msgIs_insert_data, hcd]

/-- C14: for a `set_credential` handled on a Mini device with neither
`saveManualCredential` nor `saveDomainConfirmed`, for which no GUI round trip
is needed (neither the empty-login nor the subdomain confirmation applies):
`setCredential` is called exactly once in the turn, with the raw service string
as key when the input is not website-shaped and the bare full domain
`getFullDomain()` when it is. -/
theorem set_credential_default_key (env : Env) (root : QJsonObject) (dev : MPDevice)
    (hdev : env.mpdevice = some dev) (hmini : dev.isBLE = false)
    (hlock : env.server.isMemModeLocked env.clientUid = false)
    (hmsg : msgIs root "set_credential" = true)
    (o : QJsonObject) (ho : o = (root.value "data").toObject)
    (url : ParseDomain) (hurl : url = env.parseDomain (o.value "service").toString)
    (hman : o.contains "saveManualCredential" = false)
    (hconf : o.contains "saveDomainConfirmed" = false)
    (hlogin : ((o.value "login").toString.isEmpty
      && (o.contains "extension_version" || o.contains "mc_cli_version")
      && !o.contains "saveLoginConfirmed") = false)
    (hdomain : (!url.subdomain.isEmpty
      && (o.contains "extension_version" || o.contains "mc_cli_version")
      && (env.settings.enable_subdomain_selection && url.isWebsite)) = false) :
    (deviceCalls (processMessage env root)).map DeviceCall.storedKey =
        [some (if url.isWebsite = true then url.getFullDomain else (o.value "service").toString,
          (o.value "login").toString)]
      ∧ (deviceCalls (processMessage env root)).length = 1 := by
  rw [processMessage_set_credential env root dev hdev hmini hlock hmsg]
  have h : (deviceCalls (miniSetCredential env root)).map DeviceCall.storedKey =
      [some (if url.isWebsite = true then url.getFullDomain else (o.value "service").toString,
        (o.value "login").toString)] := by
    rw [miniSetCredential_storedKey env root o ho url hurl, hlogin, hdomain, hman, hconf]
    simp
  refine ⟨h, ?_⟩
  have hlen := congrArg List.length h
  simpa using hlen

/-- C12 at a sample: a manual entry from the extension, GUI unreachable. -/
theorem set_credential_manual_key_witness :
    ((sampleMsg "set_credential"
        [("service", .string "https://login.example.com/path"), ("login", .string "alice"),
         ("password", .string "pw"), ("extension_version", .string "1"),
         ("saveManualCredential", .bool true)]).value "data").toObject.contains
        "saveManualCredential" = true
      ∧ (deviceCalls (processMessage (sampleEnv (some sampleMini) none false ["ws-1"])
          (sampleMsg "set_credential"
            [("service", .string "https://login.example.com/path"), ("login", .string "alice"),
             ("password", .string "pw"), ("extension_version", .string "1"),
             ("saveManualCredential", .bool true)]))).map DeviceCall.storedKey =
        [some ("https://login.example.com/path", "alice")] :=
  ⟨by decide,
    (set_credential_manual_key (sampleEnv (some sampleMini) none false ["ws-1"])
      (sampleMsg "set_credential"
        [("service", .string "https://login.example.com/path"), ("login", .string "alice"),
         ("password", .string "pw"), ("extension_version", .string "1"),
         ("saveManualCredential", .bool true)])
      sampleMini rfl rfl (by decide) (by decide) _ rfl _ rfl (by decide)).1 (by decide)⟩

/-- C13 at a sample: the resubmission after the GUI chose "login.example.com". -/
theorem set_credential_confirmed_key_witness :
    (sampleEnv (some sampleMini) none true ["ws-1"]).guiRunning = true
      ∧ (deviceCalls (processMessage (sampleEnv (some sampleMini) none true ["ws-1"])
          (sampleMsg "set_credential"
            [("service", .string "login.example.com"), ("login", .string "alice"),
             ("password", .string "pw"), ("extension_version", .string "1"),
             ("saveDomainConfirmed", .bool true)]))).map DeviceCall.storedKey =
        [some ("login.example.com", "alice")] :=
  ⟨rfl,
    (set_credential_confirmed_key (sampleEnv (some sampleMini) none true ["ws-1"])
      (sampleMsg "set_credential"
        [("service", .string "login.example.com"), ("login", .string "alice"),
         ("password", .string "pw"), ("extension_version", .string "1"),
         ("saveDomainConfirmed", .bool true)])
      sampleMini rfl rfl (by decide) (by decide) _ rfl (by decide) (by decide)).1
      (by decide)⟩

/-- C14 at a sample: a write that needs no GUI round trip; the address of the
spec is stored under its bare domain. -/
theorem set_credential_default_key_witness :
    (sampleParseDomain "https://login.example.com/path").isWebsite = true
      ∧ (deviceCalls (processMessage (sampleEnv (some sampleMini) none true ["ws-1"])
          (sampleMsg "set_credential"
            [("service", .string "https://login.example.com/path"), ("login", .string "alice"),
             ("password", .string "pw")]))).map DeviceCall.storedKey =
        [some ("example.com", "alice")] :=
  ⟨by decide,
    (set_credential_default_key (sampleEnv (some sampleMini) none true ["ws-1"])
      (sampleMsg "set_credential"
        [("service", .string "https://login.example.com/path"), ("login", .string "alice"),
         ("password", .string "pw")])
      sampleMini rfl rfl (by decide) (by decide) _ rfl _ rfl (by decide) (by decide)
      (by decide) (by decide)).1⟩

/-! ## Failure responses -/

/-- The outputs of a stretch made of outputs only. -/
theorem outputs_map_out (l : List Output) : outputs (l.map Effect.out) = l := by
  induction l with
  | nil => rfl
  | cons x rest ih =>
    simp only [outputs, List.map_cons, List.filterMap_cons] at ih ⊢
    rw [ih]

/-- A stretch made of outputs only has no device call. -/
theorem deviceCalls_map_out (l : List Output) : deviceCalls (l.map Effect.out) = [] := by
  induction l with
  | nil => rfl
  | cons x rest ih =>
    simp only [deviceCalls, List.map_cons, List.filterMap_cons] at ih ⊢
    rw [ih]

/-- The fields of the failure payload built by `sendFailedJson`. -/
theorem sendFailedJson_fields (obj : QJsonObject) (errstr : String) (errCode : Int) :
    ∃ m : QJsonObject,
      sendFailedJson obj errstr errCode = [Output.sendJsonMessage m]
        ∧ (m.value "data").toObject.value "failed" = QJsonValue.bool true
        ∧ (errstr.isEmpty = false →
            (m.value "data").toObject.value "error_message" = QJsonValue.string errstr)
        ∧ (errstr.isEmpty = true →
            (m.value "data").toObject.contains "error_message" = false)
        ∧ (errCode ≠ -999 →
            (m.value "data").toObject.value "error_code" = QJsonValue.double errCode)
        ∧ (errCode = -999 → (m.value "data").toObject.contains "error_code" = false) := by
  refine ⟨obj.insert "data" _, rfl, ?_⟩
  rw [QJsonObject.value_insert_same, QJsonValue.toObject_object]
  by_cases he : errstr.isEmpty = true <;> by_cases hc : errCode = -999 <;>
    simp [he, hc, QJsonObject.contains, QJsonObject.empty, QJsonObject.value,
      QJsonObject.insert, QJsonObject.insertFields]

/-- C17: for every envelope `obj`, text `errstr` and code `errCode`,
`sendFailedJson` sends exactly one message; its `data` is the object holding
`failed = true`, then `error_message = errstr` exactly when `errstr` is not
empty, then `error_code = errCode` exactly when `errCode` is not -999, and no
other field; every other top-level field of the message is that of `obj`. -/
theorem sendFailedJson_shape (obj : QJsonObject) (errstr : String) (errCode : Int) :
    ∃ m : QJsonObject,
      sendFailedJson obj errstr errCode = [Output.sendJsonMessage m]
        ∧ m.value "data" = QJsonValue.object
            ([("failed", QJsonValue.bool true)]
              ++ (if errstr.isEmpty = true then []
                  else [("error_message", QJsonValue.string errstr)])
              ++ (if errCode = -999 then [] else [("error_code", QJsonValue.double errCode)]))
        ∧ ∀ k : String, k ≠ "data" →
            m.value k = obj.value k ∧ m.contains k = obj.contains k := by
  refine ⟨obj.insert "data" _, rfl, ?_, ?_⟩
  · rw [QJsonObject.value_insert_same]
    by_cases he : errstr.isEmpty = true <;> by_cases hc : errCode = -999 <;>
      simp [he, hc, QJsonObject.insert, QJsonObject.insertFields, QJsonObject.empty]
  · intro k hk
    exact ⟨QJsonObject.value_insert_ne _ _ _ _ hk, QJsonObject.contains_insert_ne _ _ _ _ hk⟩

/-! ## Request correlation -/

/-- C16: on a Mini device, for one client and one `request_id` value, the
correlation id that `cancel_request` passes to `cancelUserRequest` is the one
that `ask_password` / `get_credential`, `get_data_node`, `credential_exists` and
`data_node_exists` pass to the device for a request carrying the same
`request_id`: `clientUid-getRequestId(request_id)`, and the empty string for
both when `request_id` is absent. -/
theorem cancel_request_correlation_id (env : Env) (rootC rootR : QJsonObject) (dev : MPDevice)
    (hdev : env.mpdevice = some dev) (hmini : dev.isBLE = false)
    (hlock : env.server.isMemModeLocked env.clientUid = false)
    (hC : msgIs rootC "cancel_request" = true)
    (hR : msgIs rootR "ask_password" = true ∨ msgIs rootR "get_credential" = true
      ∨ msgIs rootR "get_data_node" = true ∨ msgIs rootR "credential_exists" = true
      ∨ msgIs rootR "data_node_exists" = true)
    (hcontains : (rootC.value "data").toObject.contains "request_id" =
      (rootR.value "data").toObject.contains "request_id")
    (hvalue : (rootC.value "data").toObject.value "request_id" =
      (rootR.value "data").toObject.value "request_id") :
    (deviceCalls (processMessage env rootC)).map DeviceCall.reqid =
        [some (if (rootC.value "data").toObject.contains "request_id" = true then
            env.clientUid ++ "-"
              ++ getRequestId ((rootC.value "data").toObject.value "request_id")
          else "")]
      ∧ (deviceCalls (processMessage env rootR)).map DeviceCall.reqid =
        (deviceCalls (processMessage env rootC)).map DeviceCall.reqid := by
  have hvC := msg_of_msgIs rootC _ hC
  have h1 : (deviceCalls (processMessage env rootC)).map DeviceCall.reqid =
      [some (reqidOf env.clientUid (rootC.value "data").toObject)] := by
    simp [processMessage, processMessageMini, checkMemModeEnabled, msgIs, hvC,
      QJsonValue.eqString, hdev, hmini, hlock, deviceCalls, DeviceCall.reqid,
      afterRead_msg_of_value rootC _ hvC]
  have h2 : (deviceCalls (processMessage env rootR)).map DeviceCall.reqid =
      [some (reqidOf env.clientUid (rootR.value "data").toObject)] := by
    rcases hR with h | h | h | h | h <;>
      (have hvR := msg_of_msgIs rootR _ h
       simp [processMessage, processMessageMini, checkMemModeEnabled, msgIs, hvR,
         QJsonValue.eqString, hdev, hmini, hlock, deviceCalls, DeviceCall.reqid,
         miniGetCredential, miniGetDataNode, miniServiceExists,
         afterRead_msg_of_value rootR _ hvR])
  refine ⟨?_, ?_⟩
  · rw [h1]
    rfl
  · rw [h1, h2]
    simp [reqidOf, hcontains, hvalue]

/-- C16 at a sample: `cancel_request` and `get_credential` of `ws-1`, both with
`request_id` 7, carry the correlation id "ws-1-7". -/
theorem cancel_request_correlation_id_witness :
    (deviceCalls (processMessage (sampleEnv (some sampleMini) none true ["ws-1"])
        (sampleMsg "cancel_request" [("request_id", .double 7)]))).map DeviceCall.reqid =
        [some "ws-1-7"]
      ∧ (deviceCalls (processMessage (sampleEnv (some sampleMini) none true ["ws-1"])
        (sampleMsg "get_credential"
          [("service", .string "example.com"), ("request_id", .double 7)]))).map
          DeviceCall.reqid =
        (deviceCalls (processMessage (sampleEnv (some sampleMini) none true ["ws-1"])
          (sampleMsg "cancel_request" [("request_id", .double 7)]))).map DeviceCall.reqid :=
  cancel_request_correlation_id (sampleEnv (some sampleMini) none true ["ws-1"])
    (sampleMsg "cancel_request" [("request_id", .double 7)])
    (sampleMsg "get_credential" [("service", .string "example.com"), ("request_id", .double 7)])
    sampleMini rfl rfl (by decide) (by decide) (Or.inr (Or.inl (by decide))) (by decide) rfl

/-! ## Management-mode verbs -/

/-- C19 fails as stated: the lock is unheld, the Mini device reports memory
management mode, and `ws-1` sends `set_credentials`; the turn makes one device
call (`setMMCredentials`) and sends no failure response. -/
theorem set_credentials_with_lock_unheld_reaches_device :
    (sampleEnv (some sampleMiniMgmt) none true ["ws-1"]).server.memLockedClient = none
      ∧ (deviceCalls (processMessage (sampleEnv (some sampleMiniMgmt) none true ["ws-1"])
          ⟨[("msg", .string "set_credentials"), ("data", .array [])]⟩)).length = 1
      ∧ (sentMessages (outputs (processMessage
          (sampleEnv (some sampleMiniMgmt) none true ["ws-1"])
          ⟨[("msg", .string "set_credentials"), ("data", .array [])]⟩))).length = 0 := by
  refine ⟨rfl, ?_, ?_⟩
  · decide
  · decide

/-- C19 as amended: on a Mini device, for `set_credentials` and
`delete_data_nodes`.  When the lock is held by another client the turn is
exactly one failure response with the text "Device is in memory management
mode".  When the lock is not held by another client and the device is not in
memory management mode the turn is exactly one failure response with the text
"Not in memory management mode".  When the lock is not held by another client
and the device is in memory management mode the turn is exactly one device
call: `setMMCredentials` with the `data` array for `set_credentials`,
`deleteDataNodesAndLeave` with the strings of `data.services` for
`delete_data_nodes`. -/
theorem mgmt_verbs_gate (env : Env) (root : QJsonObject) (dev : MPDevice)
    (hdev : env.mpdevice = some dev) (hmini : dev.isBLE = false)
    (hverb : msgIs root "set_credentials" = true ∨ msgIs root "delete_data_nodes" = true) :
    (env.server.isMemModeLocked env.clientUid = true →
        processMessage env root =
          [Effect.out (Output.sendJsonMessage (root.insert "data" (QJsonValue.object
            [("failed", QJsonValue.bool true),
             ("error_message",
               QJsonValue.string "Device is in memory management mode")])))])
      ∧ (env.server.isMemModeLocked env.clientUid = false → dev.memMgmtMode = false →
        processMessage env root =
          [Effect.out (Output.sendJsonMessage (root.insert "data" (QJsonValue.object
            [("failed", QJsonValue.bool true),
             ("error_message", QJsonValue.string "Not in memory management mode")])))])
      ∧ (env.server.isMemModeLocked env.clientUid = false → dev.memMgmtMode = true →
        msgIs root "set_credentials" = true →
        processMessage env root =
          [Effect.device (DeviceCall.setMMCredentials (root.value "data").toArray false
            (defaultProgressCb env.clientUid (root.remove "data"))
            (cbSuccessTrue env.clientUid root))])
      ∧ (env.server.isMemModeLocked env.clientUid = false → dev.memMgmtMode = true →
        msgIs root "delete_data_nodes" = true →
        processMessage env root =
          [Effect.device (DeviceCall.deleteDataNodesAndLeave
            (((root.value "data").toObject.value "services").toArray.map QJsonValue.toString)
            (fun success errstr env2 =>
              if !env2.server.checkClientExists env.clientUid then []
              else if !success then sendFailedJson root errstr (-999)
              else
                [Output.sendJsonMessage (root.insert "data"
                  (QJsonValue.object (mkObject [("success", QJsonValue.bool true)]).fields))])
            (defaultProgressCb env.clientUid (root.remove "data")))]) := by
  have he1 : ("Device is in memory management mode").isEmpty = false := by decide
  have he2 : ("Not in memory management mode").isEmpty = false := by decide
  refine ⟨?_, ?_, ?_, ?_⟩
  · intro hl
    rcases hverb with hv | hv <;>
      (have hm := msg_of_msgIs root _ hv
       simp [processMessage, checkMemModeEnabled, msgIs, hm, QJsonValue.eqString, hdev, hl,
         afterRead_msg_of_value root _ hm, sendFailedJson, QJsonObject.insert,
         QJsonObject.insertFields, QJsonObject.empty, he1])
  · intro hl hmm
    rcases hverb with hv | hv <;>
      (have hm := msg_of_msgIs root _ hv
       simp [processMessage, processMessageMini, checkMemModeEnabled, msgIs, hm,
         QJsonValue.eqString, hdev, hmini, hl, hmm, miniSetCredentials, miniDeleteDataNodes,
         afterRead_msg_of_value root _ hm, sendFailedJson, QJsonObject.insert,
         QJsonObject.insertFields, QJsonObject.empty, he2])
  · intro hl hmm hv
    have hm := msg_of_msgIs root _ hv
    cases hlr : env.argsLeftToRight <;>
      simp [processMessage, processMessageMini, checkMemModeEnabled, msgIs, hm,
        QJsonValue.eqString, hdev, hmini, hl, hmm, miniSetCredentials, hlr,
        afterRead_msg_of_value root _ hm]
  · intro hl hmm hv
    have hm := msg_of_msgIs root _ hv
    simp [processMessage, processMessageMini, checkMemModeEnabled, msgIs, hm,
      QJsonValue.eqString, hdev, hmini, hl, hmm, miniDeleteDataNodes,
      afterRead_msg_of_value root _ hm]

/-- C19 as amended, at a sample: `delete_data_nodes` from `ws-1` while `ws-2`
holds the lock makes no device call. -/
theorem mgmt_verbs_gate_witness :
    (sampleEnv (some sampleMiniMgmt) (some "ws-2") true ["ws-1", "ws-2"]).server.isMemModeLocked
        "ws-1" = true
      ∧ deviceCalls (processMessage
          (sampleEnv (some sampleMiniMgmt) (some "ws-2") true ["ws-1", "ws-2"])
          (sampleMsg "delete_data_nodes" [("services", .array [.string "notes"])])) = [] :=
  ⟨by decide,
    (congrArg deviceCalls
      ((mgmt_verbs_gate (sampleEnv (some sampleMiniMgmt) (some "ws-2") true ["ws-1", "ws-2"])
        (sampleMsg "delete_data_nodes" [("services", .array [.string "notes"])])
        sampleMiniMgmt rfl rfl (Or.inr (by decide))).1 (by decide))).trans rfl⟩

/-! ## Envelope of the `set_credential` response -/

/-- C20, the code at a failing input: the `set_credential` of the C9 sample
(GUI unreachable, subdomain confirmation required) reaches `setCredential`; the
inbound message has `msg = "set_credential"`, but the response its completion
callback sends, on success as on failure, has `msg = "request_domain"`. -/
theorem set_credential_response_is_retagged :
    ((sampleMsg "set_credential"
        [("service", .string "https://login.example.com/path"),
         ("login", .string "alice"), ("password", .string "pw"),
         ("extension_version", .string "1")]).value "msg").toString = "set_credential"
      ∧ (deviceCalls (processMessage (sampleEnv (some sampleMini) none false ["ws-1"])
          (sampleMsg "set_credential"
            [("service", .string "https://login.example.com/path"),
             ("login", .string "alice"), ("password", .string "pw"),
             ("extension_version", .string "1")]))).map
          (fun c => (c.complete (DeviceReply.status true "")).map fun act =>
            (sentMessages (act (sampleEnv (some sampleMini) none false ["ws-1"]))).map
              fun m => (m.value "msg").toString)
        = [some ["request_domain"]]
      ∧ (deviceCalls (processMessage (sampleEnv (some sampleMini) none false ["ws-1"])
          (sampleMsg "set_credential"
            [("service", .string "https://login.example.com/path"),
             ("login", .string "alice"), ("password", .string "pw"),
             ("extension_version", .string "1")]))).map
          (fun c => (c.complete (DeviceReply.status false "card removed")).map fun act =>
            (sentMessages (act (sampleEnv (some sampleMini) none false ["ws-1"]))).map
              fun m => (m.value "msg").toString)
        = [some ["request_domain"]] := by
  refine ⟨?_, ?_, ?_⟩
  · decide
  · decide
  · decide

/-! ## Device-reported failure -/

set_option maxHeartbeats 4000000 in
/-- A completion callback registered by `processMessageMini`, fired with a
failure for a client that still exists, sends the failure response built by
`sendFailedJson` from the reported text and code. -/
theorem failure_mini (env : Env) (dev : MPDevice) (root : QJsonObject)
    (cbp : MPDeviceProgressCb) (c : DeviceCall) (reply : DeviceReply) (act : Action)
    (env2 : Env)
    (hc : c ∈ deviceCalls (processMessageMini env dev root cbp))
    (hact : c.complete reply = some act)
    (hex : env2.server.checkClientExists env.clientUid = true)
    (hfail : reply.success = false) :
    ∃ envelope : QJsonObject,
      act env2 = sendFailedJson envelope reply.errstr (reply.errCode.getD (-999)) := by
  unfold processMessageMini at hc
  simp only [] at hc
  generalize root.afterRead "msg" = root2 at hc
  rw [mem_deviceCalls_ite] at hc
  rcases hc with ⟨_, hc⟩ | ⟨_, hc⟩
  · have hnone := processParametersSet_complete _ c reply hc
    simp [hnone] at hact
  repeat
    rw [mem_deviceCalls_ite] at hc
    rcases hc with ⟨_, hc⟩ | ⟨_, hc⟩
    · first
      | (guard_hyp hc : c ∈ deviceCalls (miniSetCredential env root2)
         obtain ⟨_, _, _, _, _, _, _, hc⟩ := miniSetCredential_call_shape env root2 c hc
         subst hc
         cases reply <;> simp [DeviceCall.complete] at hact
         subst hact
         simp only [DeviceReply.success] at hfail
         subst hfail
         simp only [hex, Bool.not_true, Bool.false_eq_true, if_false, Bool.not_false, if_true,
           DeviceReply.errstr, DeviceReply.errCode, Option.getD]
         exact ⟨_, rfl⟩)
      | (simp only [miniStartMemorymgmt, miniStartMemcheck, miniGetCredential,
           miniDelCredential, miniGetRandomNumbers, miniGetDataNode, miniSetDataNode,
           miniDeleteDataNodes, miniServiceExists, miniSetCredentials, miniExportDatabase,
           miniImportDatabase, miniImportCsv, miniLockDevice, deviceCalls_ite,
           deviceCalls_map_out,
           deviceCalls_cons_device, deviceCalls_cons_out, deviceCalls_nil] at hc
         try split_ifs at hc
         all_goals try simp only [List.mem_singleton, List.not_mem_nil] at hc
         all_goals
           subst hc
           cases reply <;> simp [DeviceCall.complete] at hact <;>
             (subst hact
              simp only [DeviceReply.success] at hfail
              subst hfail
              simp only [hex, Bool.not_true, Bool.false_eq_true, if_false, Bool.not_false,
                if_true, DeviceReply.errstr, DeviceReply.errCode, Option.getD, cbSuccessTrue]
              exact ⟨_, rfl⟩))
  simp [deviceCalls] at hc

set_option maxHeartbeats 4000000 in
/-- A completion callback registered by `processMessageBLE` for a verb other
than `upload_bundle`, fired with a failure for a client that still exists,
sends the failure response built by `sendFailedJson` from the reported text. -/
theorem failure_ble (env : Env) (dev : MPDevice) (root : QJsonObject)
    (cbp : MPDeviceProgressCb) (c : DeviceCall) (reply : DeviceReply) (act : Action)
    (env2 : Env)
    (hc : c ∈ deviceCalls (processMessageBLE env dev root cbp))
    (hact : c.complete reply = some act)
    (hex : env2.server.checkClientExists env.clientUid = true)
    (hfail : reply.success = false)
    (hup : msgIs root "upload_bundle" = false) :
    ∃ envelope : QJsonObject,
      act env2 = sendFailedJson envelope reply.errstr (reply.errCode.getD (-999)) := by
  unfold processMessageBLE at hc
  rw [mem_deviceCalls_ite] at hc
  rcases hc with ⟨_, hc⟩ | ⟨_, hc⟩
  · simp [deviceCalls] at hc
  rw [← msgIs_afterRead root "msg" "upload_bundle"] at hup
  simp only [] at hc
  generalize root.afterRead "msg" = root2 at hc hup
  repeat
    rw [mem_deviceCalls_ite] at hc
    rcases hc with ⟨hv, hc⟩ | ⟨_, hc⟩
    · first
      | (rw [hup] at hv
         exact absurd hv (by decide))
      | (guard_hyp hc : c ∈ deviceCalls (bleSetCredential env root2)
         obtain ⟨_, _, _, hc⟩ := bleSetCredential_call_shape env root2 c hc
         subst hc
         cases reply <;> simp [DeviceCall.complete] at hact
         subst hact
         simp only [DeviceReply.success] at hfail
         subst hfail
         simp only [hex, Bool.not_true, Bool.false_eq_true, if_false, Bool.not_false, if_true,
           DeviceReply.errstr, DeviceReply.errCode, Option.getD]
         exact ⟨_, rfl⟩)
      | (simp only [bleGetDebugPlatinfo, bleFlashMcu, bleGetCredential,
           deviceCalls_cons_device, deviceCalls_cons_out, deviceCalls_nil,
           List.mem_singleton, List.not_mem_nil] at hc
         subst hc
         cases reply <;> simp [DeviceCall.complete] at hact <;>
           (subst hact
            simp only [DeviceReply.success] at hfail
            subst hfail
            simp only [Bool.not_true, Bool.false_eq_true, if_false, Bool.not_false,
              if_true, DeviceReply.errstr, DeviceReply.errCode, Option.getD]
            exact ⟨_, rfl⟩))
  simp [deviceCalls] at hc

/-- C18 fails as stated: `ws-1` sends `upload_bundle` to a BLE device and the
device reports failure with the text "bad bundle" while `ws-1` still exists; the
one message sent has neither `failed` nor `error_message` in its data. -/
theorem upload_bundle_failure_has_no_error :
    (sampleEnv (some sampleBle) none true ["ws-1"]).server.checkClientExists "ws-1" = true
      ∧ (deviceCalls (processMessage (sampleEnv (some sampleBle) none true ["ws-1"])
          (sampleMsg "upload_bundle" [("file", .string "bundle.img")]))).map
          (fun c => (c.complete (DeviceReply.status false "bad bundle")).map fun act =>
            (sentMessages (act (sampleEnv (some sampleBle) none true ["ws-1"]))).map
              fun m => ((m.value "data").toObject.contains "failed",
                (m.value "data").toObject.contains "error_message"))
        = [some [(false, false)]] := by
  refine ⟨?_, ?_⟩
  · decide
  · decide

/-- C18 as amended: for every verb dispatched by `processMessage` with a
completion callback, other than `upload_bundle` on a BLE device: when the device
reports `success = false` with text `e` (and code `c` where the callback has
one) and the client still exists, exactly one message is sent; its data has
`failed = true`, `error_message = e` when `e` is not empty and no
`error_message` when it is, and `error_code = c` when there is a code other
than -999. -/
theorem failure_response_carries_device_error (env : Env) (root : QJsonObject)
    (dev : MPDevice) (c : DeviceCall) (reply : DeviceReply) (act : Action) (env2 : Env)
    (hdev : env.mpdevice = some dev)
    (hc : c ∈ deviceCalls (processMessage env root))
    (hact : c.complete reply = some act)
    (hex : env2.server.checkClientExists env.clientUid = true)
    (hfail : reply.success = false)
    (hup : ¬ (dev.isBLE = true ∧ msgIs root "upload_bundle" = true)) :
    ∃ m : QJsonObject,
      act env2 = [Output.sendJsonMessage m]
        ∧ (m.value "data").toObject.value "failed" = QJsonValue.bool true
        ∧ (reply.errstr.isEmpty = false →
            (m.value "data").toObject.value "error_message" = QJsonValue.string reply.errstr)
        ∧ (reply.errstr.isEmpty = true →
            (m.value "data").toObject.contains "error_message" = false)
        ∧ (∀ code : Int, reply.errCode = some code → code ≠ -999 →
            (m.value "data").toObject.value "error_code" = QJsonValue.double code) := by
  have key : ∃ envelope : QJsonObject,
      act env2 = sendFailedJson envelope reply.errstr (reply.errCode.getD (-999)) := by
    unfold processMessage at hc
    rw [← msgIs_afterRead root "msg" "upload_bundle"] at hup
    simp only [] at hc
    generalize root.afterRead "msg" = root2 at hc hup
    rw [mem_deviceCalls_ite] at hc
    rcases hc with ⟨_, hc⟩ | ⟨_, hc⟩
    · simp [deviceCalls] at hc
    rw [mem_deviceCalls_ite] at hc
    rcases hc with ⟨_, hc⟩ | ⟨_, hc⟩
    · simp [deviceCalls] at hc
    rw [mem_deviceCalls_ite] at hc
    rcases hc with ⟨_, hc⟩ | ⟨_, hc⟩
    · simp [deviceCalls] at hc
    simp only [hdev] at hc
    rw [mem_deviceCalls_ite] at hc
    rcases hc with ⟨_, hc⟩ | ⟨hl, hc⟩
    · rw [deviceCalls_map_out] at hc
      simp at hc
    have hl2 : (checkMemModeEnabled env root2).1 = [] := by
      unfold checkMemModeEnabled at hl ⊢
      split_ifs at hl ⊢ <;> simp_all
    rw [mem_deviceCalls_ite] at hc
    rcases hc with ⟨hb, hc⟩ | ⟨hb, hc⟩
    · simp only [hl2, List.map_nil, List.nil_append] at hc
      have hup2 : msgIs root2 "upload_bundle" = false := by
        cases h : msgIs root2 "upload_bundle"
        · rfl
        · exact absurd ⟨hb, h⟩ hup
      exact failure_ble env dev root2 _ c reply act env2 hc hact hex hfail hup2
    · simp only [hl2, List.map_nil, List.nil_append] at hc
      exact failure_mini env dev root2 _ c reply act env2 hc hact hex hfail
  obtain ⟨envelope, he⟩ := key
  obtain ⟨m, hm, hf, h1, h2, h3, _⟩ :=
    sendFailedJson_fields envelope reply.errstr (reply.errCode.getD (-999))
  refine ⟨m, he.trans hm, hf, h1, h2, ?_⟩
  intro code hcode hne
  rw [hcode] at h3
  exact h3 hne

/-- C18 as amended, at a sample: `start_memorymgmt` on a Mini device fails with
code 5 and text "locked card"; the response carries both. -/
theorem failure_response_carries_device_error_witness :
    (sampleEnv (some sampleMini) none true ["ws-1"]).server.checkClientExists "ws-1" = true
      ∧ (sentMessages
          ((((deviceCalls (processMessage (sampleEnv (some sampleMini) none true ["ws-1"])
              (sampleMsg "start_memorymgmt" []))).headD DeviceCall.loadParameters).complete
              (DeviceReply.memMgmt false 5 "locked card")).getD (fun _ => [])
            (sampleEnv (some sampleMini) none true ["ws-1"]))).map
          (fun m => (((m.value "data").toObject.value "failed").toBool,
            ((m.value "data").toObject.value "error_message").toString,
            ((m.value "data").toObject.value "error_code").toInt))
        = [(true, "locked card", 5)] :=
  ⟨by decide,
    Exists.elim
      (failure_response_carries_device_error (sampleEnv (some sampleMini) none true ["ws-1"])
        (sampleMsg "start_memorymgmt" []) sampleMini
        ((deviceCalls (processMessage (sampleEnv (some sampleMini) none true ["ws-1"])
          (sampleMsg "start_memorymgmt" []))).headD DeviceCall.loadParameters)
        (DeviceReply.memMgmt false 5 "locked card")
        ((((deviceCalls (processMessage (sampleEnv (some sampleMini) none true ["ws-1"])
          (sampleMsg "start_memorymgmt" []))).headD DeviceCall.loadParameters).complete
          (DeviceReply.memMgmt false 5 "locked card")).getD (fun _ => []))
        (sampleEnv (some sampleMini) none true ["ws-1"])
        rfl (List.mem_singleton.2 rfl) rfl (by decide) rfl (by decide))
      (fun m h => by
        rw [h.1]
        simp [sentMessages, h.2.1, h.2.2.1 (by decide), h.2.2.2.2 5 rfl (by decide),
          QJsonValue.toBool, QJsonValue.toString, QJsonValue.toInt, DeviceReply.errstr])⟩

/-! ## Uniqueness of correlation ids -/

/-- The printed digit of a number below ten has that number as its value. -/
theorem digitChar_value (k : Nat) (h : k < 10) : (Nat.digitChar k).toNat - 48 = k := by
  interval_cases k <;> rfl

/-- The printed digit of a number below ten is not the minus sign. -/
theorem digitChar_ne_minus (k : Nat) (h : k < 10) : Nat.digitChar k ≠ '-' := by
  interval_cases k <;> decide

/-- Reading back the digits printed in front of `ds` continues from the printed
number. -/
theorem foldl_toDigitsCore (fuel : Nat) :
    ∀ (n : Nat) (ds : List Char), n < fuel →
      (Nat.toDigitsCore 10 fuel n ds).foldl (fun a c => a * 10 + (c.toNat - 48)) 0 =
        ds.foldl (fun a c => a * 10 + (c.toNat - 48)) n := by
  induction fuel with
  | zero => intro n ds h; omega
  | succ fuel ih =>
    intro n ds h
    simp only [Nat.toDigitsCore]
    split_ifs with h0
    · have hn : n < 10 := by omega
      simp only [List.foldl_cons, Nat.zero_mul, Nat.zero_add]
      rw [digitChar_value _ (Nat.mod_lt _ (by decide)), Nat.mod_eq_of_lt hn]
    · rw [ih (n / 10) _ (by omega)]
      simp only [List.foldl_cons]
      rw [digitChar_value _ (Nat.mod_lt _ (by decide))]
      have : n / 10 * 10 + n % 10 = n := by omega
      rw [this]

/-- The minus sign is not among printed digits. -/
theorem minus_not_mem_toDigitsCore (fuel : Nat) :
    ∀ (n : Nat) (ds : List Char), '-' ∉ ds → '-' ∉ Nat.toDigitsCore 10 fuel n ds := by
  induction fuel with
  | zero => intro n ds h; simpa [Nat.toDigitsCore] using h
  | succ fuel ih =>
    intro n ds h
    have hd : '-' ∉ Nat.digitChar (n % 10) :: ds := by
      intro hm
      rcases List.mem_cons.1 hm with h1 | h1
      · exact digitChar_ne_minus _ (Nat.mod_lt _ (by decide)) h1.symm
      · exact h h1
    simp only [Nat.toDigitsCore]
    split_ifs
    · exact hd
    · exact ih _ _ hd

/-- Decimal printing of natural numbers is injective. -/
theorem natRepr_injective (a b : Nat) (h : Nat.repr a = Nat.repr b) : a = b := by
  have hd : Nat.toDigits 10 a = Nat.toDigits 10 b := by
    have := congrArg String.data h
    simpa [Nat.repr, List.asString] using this
  have ha := foldl_toDigitsCore (a + 1) a [] (by omega)
  have hb := foldl_toDigitsCore (b + 1) b [] (by omega)
  simp only [List.foldl_nil] at ha hb
  unfold Nat.toDigits at hd
  rw [hd, hb] at ha
  exact ha.symm

/-- Decimal printing of integers, as `QString::number` does it, is injective. -/
theorem intToString_injective (a b : Int) (h : toString a = toString b) : a = b := by
  have hminus : ∀ m : Nat, '-' ∉ (Nat.repr m).data := by
    intro m
    simpa [Nat.repr, List.asString, Nat.toDigits] using
      minus_not_mem_toDigitsCore (m + 1) m [] (by simp)
  cases a with
  | ofNat x =>
    cases b with
    | ofNat y =>
      have : Nat.repr x = Nat.repr y := h
      rw [natRepr_injective x y this]
    | negSucc y =>
      exfalso
      have h2 : Nat.repr x = "-" ++ Nat.repr (y + 1) := h
      apply hminus x
      rw [h2]
      simp
  | negSucc x =>
    cases b with
    | ofNat y =>
      exfalso
      have h2 : "-" ++ Nat.repr (x + 1) = Nat.repr y := h
      apply hminus y
      rw [← h2]
      simp
    | negSucc y =>
      have h2 : "-" ++ Nat.repr (x + 1) = "-" ++ Nat.repr (y + 1) := h
      have h3 := congrArg String.data h2
      simp only [String.data_append, List.append_cancel_left_eq] at h3
      have h4 := natRepr_injective _ _ (String.ext h3)
      have : x = y := by omega
      rw [this]

/-- For client uids of the same length, equal correlation ids come from the
same client and the same printed request id. -/
theorem correlation_id_inj (c1 c2 r1 r2 : String) (hlen : c1.length = c2.length)
    (h : c1 ++ "-" ++ r1 = c2 ++ "-" ++ r2) : c1 = c2 ∧ r1 = r2 := by
  have hd := congrArg String.data h
  simp only [String.data_append] at hd
  have hl : (c1.data ++ "-".data).length = (c2.data ++ "-".data).length := by
    have : c1.data.length = c2.data.length := hlen
    simp [this]
  obtain ⟨h1, h2⟩ := List.append_inj hd hl
  exact ⟨String.ext (List.append_cancel_right h1), String.ext h2⟩

/-- When neither client uid is the other followed by "-" and further text,
equal correlation ids come from the same client and the same printed request
id. -/
theorem correlation_id_inj_of_not_extension (c1 c2 r1 r2 : String)
    (h12 : ∀ t : String, c2 ≠ c1 ++ "-" ++ t) (h21 : ∀ t : String, c1 ≠ c2 ++ "-" ++ t)
    (h : c1 ++ "-" ++ r1 = c2 ++ "-" ++ r2) : c1 = c2 ∧ r1 = r2 := by
  have hd := congrArg String.data h
  simp only [String.data_append, List.append_assoc] at hd
  have hdash : "-".data = ['-'] := rfl
  rcases List.append_eq_append_iff.1 hd with ⟨a, ha, hb⟩ | ⟨a, ha, hb⟩
  · cases a with
    | nil =>
      simp only [List.append_nil, List.nil_append] at ha hb
      refine ⟨String.ext ha.symm, String.ext ?_⟩
      simpa using hb
    | cons x xs =>
      exfalso
      simp only [List.cons_append, List.singleton_append, List.cons.injEq] at hb
      apply h12 ⟨xs⟩
      apply String.ext
      rw [ha, ← hb.1]
      simp [String.data_append, hdash]
  · cases a with
    | nil =>
      simp only [List.append_nil, List.nil_append] at ha hb
      refine ⟨String.ext ha, String.ext ?_⟩
      simpa using hb.symm
    | cons x xs =>
      exfalso
      simp only [List.cons_append, List.singleton_append, List.cons.injEq] at hb
      apply h21 ⟨xs⟩
      apply String.ext
      rw [ha, ← hb.1]
      simp [String.data_append, hdash]

/-- C15 fails as stated, in three ways.  For client `ws-1` the request ids 1 (a
number) and "1" (a string) are different, yet both give the correlation id
"ws-1-1"; the numbers 0 and 1/2 are different, yet both give "ws-1-0"; and the
different pairs ("ws-1", "2-3") and ("ws-1-2", 3) both give "ws-1-2-3". -/
theorem correlation_id_collisions :
    (QJsonValue.double 1 ≠ QJsonValue.string "1"
        ∧ reqidOf "ws-1" ⟨[("request_id", QJsonValue.double 1)]⟩ = "ws-1-1"
        ∧ reqidOf "ws-1" ⟨[("request_id", QJsonValue.string "1")]⟩ = "ws-1-1")
      ∧ (QJsonValue.double 0 ≠ QJsonValue.double (1 / 2)
        ∧ reqidOf "ws-1" ⟨[("request_id", QJsonValue.double 0)]⟩ = "ws-1-0"
        ∧ reqidOf "ws-1" ⟨[("request_id", QJsonValue.double (1 / 2))]⟩ = "ws-1-0")
      ∧ ("ws-1" ≠ "ws-1-2"
        ∧ reqidOf "ws-1" ⟨[("request_id", QJsonValue.string "2-3")]⟩ = "ws-1-2-3"
        ∧ reqidOf "ws-1-2" ⟨[("request_id", QJsonValue.double 3)]⟩ = "ws-1-2-3") := by
  refine ⟨⟨?_, ?_, ?_⟩, ⟨?_, ?_, ?_⟩, ⟨?_, ?_, ?_⟩⟩
  · intro h
    cases h
  · decide
  · decide
  · intro h
    injection h with h
    norm_num at h
  · decide
  · have hd : ¬ ((1 / 2 : ℚ).den = 1) := by norm_num
    have hc : (⟨[("request_id", QJsonValue.double (1 / 2))]⟩ : QJsonObject).contains
        "request_id" = true := by decide
    have hv : (⟨[("request_id", QJsonValue.double (1 / 2))]⟩ : QJsonObject).value
        "request_id" = QJsonValue.double (1 / 2) := by
      simp [QJsonObject.value]
    rw [reqidOf, if_pos hc, hv]
    simp only [getRequestId, QJsonValue.isDouble, QJsonValue.toInt, if_true, hd, false_and,
      if_false]
    decide
  · decide
  · decide
  · decide

/-- C15 as amended.  The correlation id of a request that has a `request_id`
is `clientUid ++ "-" ++ getRequestId(request_id)`.  When neither client uid is
the other followed by "-" and further text, in particular for client uids of
the same length, two correlation ids are equal exactly when the client uids are
equal and the texts `getRequestId` gives are equal; when one client uid is the
other followed by "-" and further text, some pair of string request ids gives
the two clients the same correlation id.  That text is the
string itself for a string, the decimal text of a number that is an integer
within the 32-bit int range, and "0" for every other number.  So two strings
have the same text only when equal, two integers within the int range only when
equal, and a number and a string exactly when the string is the number's
text. -/
theorem correlation_id_unique (c1 c2 : String) (v1 v2 : QJsonValue) :
    (∀ o : QJsonObject, o.contains "request_id" = true → o.value "request_id" = v1 →
        reqidOf c1 o = c1 ++ "-" ++ getRequestId v1)
      ∧ ((∀ t : String, c2 ≠ c1 ++ "-" ++ t) → (∀ t : String, c1 ≠ c2 ++ "-" ++ t) →
        (c1 ++ "-" ++ getRequestId v1 = c2 ++ "-" ++ getRequestId v2 ↔
          c1 = c2 ∧ getRequestId v1 = getRequestId v2))
      ∧ (c1.length = c2.length →
        (c1 ++ "-" ++ getRequestId v1 = c2 ++ "-" ++ getRequestId v2 ↔
          c1 = c2 ∧ getRequestId v1 = getRequestId v2))
      ∧ (∀ t r : String, c2 = c1 ++ "-" ++ t →
        c1 ++ "-" ++ getRequestId (QJsonValue.string (t ++ "-" ++ r)) =
          c2 ++ "-" ++ getRequestId (QJsonValue.string r))
      ∧ (∀ s : String, v1 = QJsonValue.string s → getRequestId v1 = s)
      ∧ (∀ d : ℚ, v1 = QJsonValue.double d →
          getRequestId v1 =
            if d.den = 1 ∧ -2147483648 ≤ d.num ∧ d.num ≤ 2147483647 then toString d.num
            else "0")
      ∧ (∀ s1 s2 : String, v1 = QJsonValue.string s1 → v2 = QJsonValue.string s2 →
          (getRequestId v1 = getRequestId v2 ↔ s1 = s2))
      ∧ (∀ d1 d2 : ℚ, v1 = QJsonValue.double d1 → v2 = QJsonValue.double d2 →
          (d1.den = 1 ∧ -2147483648 ≤ d1.num ∧ d1.num ≤ 2147483647) →
          (d2.den = 1 ∧ -2147483648 ≤ d2.num ∧ d2.num ≤ 2147483647) →
          (getRequestId v1 = getRequestId v2 ↔ d1 = d2))
      ∧ (∀ (d : ℚ) (s : String), v1 = QJsonValue.double d → v2 = QJsonValue.string s →
          (getRequestId v1 = getRequestId v2 ↔
            s = if d.den = 1 ∧ -2147483648 ≤ d.num ∧ d.num ≤ 2147483647 then toString d.num
                else "0")) := by
  have htext : ∀ d : ℚ, getRequestId (QJsonValue.double d) =
      if d.den = 1 ∧ -2147483648 ≤ d.num ∧ d.num ≤ 2147483647 then toString d.num
      else "0" := by
    intro d
    by_cases h : d.den = 1 ∧ -2147483648 ≤ d.num ∧ d.num ≤ 2147483647
    · simp only [getRequestId, QJsonValue.isDouble, QJsonValue.toInt, if_true, if_pos h]
    · simp only [getRequestId, QJsonValue.isDouble, QJsonValue.toInt, if_true, if_neg h]
      rfl
  have hstr : ∀ s : String, getRequestId (QJsonValue.string s) = s := by
    intro s
    rfl
  refine ⟨?_, ?_, ?_, ?_, ?_, ?_, ?_, ?_, ?_⟩
  · intro o hc hv
    rw [reqidOf, if_pos hc, hv]
  · intro h12 h21
    constructor
    · exact correlation_id_inj_of_not_extension _ _ _ _ h12 h21
    · rintro ⟨hc, hr⟩
      rw [hc, hr]
  · intro hlen
    constructor
    · exact correlation_id_inj _ _ _ _ hlen
    · rintro ⟨hc, hr⟩
      rw [hc, hr]
  · rintro t r rfl
    rw [hstr, hstr]
    simp only [String.append_assoc]
  · rintro s rfl
    exact hstr s
  · rintro d rfl
    exact htext d
  · rintro s1 s2 rfl rfl
    rw [hstr, hstr]
  · rintro d1 d2 rfl rfl h1 h2
    rw [htext, htext, if_pos h1, if_pos h2]
    constructor
    · intro h
      have hn := intToString_injective _ _ h
      exact Rat.ext hn (h1.1.trans h2.1.symm)
    · rintro rfl
      rfl
  · rintro d s rfl rfl
    rw [htext, hstr]
    exact eq_comm

/-- C15 as amended, at a sample: two clients using the same request id 7 get
the different ids "ws-1-7" and "ws-2-7". -/
theorem correlation_id_unique_witness :
    ("ws-1").length = ("ws-2").length
      ∧ ¬ ("ws-1" ++ "-" ++ getRequestId (QJsonValue.double 7) =
          "ws-2" ++ "-" ++ getRequestId (QJsonValue.double 7)) :=
  ⟨by decide, fun h =>
    absurd (((correlation_id_unique "ws-1" "ws-2" (QJsonValue.double 7)
      (QJsonValue.double 7)).2.2.1 (by decide)).1 h).1 (by decide)⟩

/-! ## Breach-check notification -/

/-- C22: for every breach-check result `message`, `sendHibpNotification` hands
exactly one message to the GUI, `{msg: "send_hibp", data: {message}}`, and does
nothing else: nothing is sent to the websocket client or to any other client,
whether the GUI is reachable or not. -/
theorem sendHibpNotification_gui_only (message : String) :
    sendHibpNotification message =
        [Output.sendMessageToGUI
          ⟨[("msg", QJsonValue.string "send_hibp"),
            ("data", QJsonValue.object [("message", QJsonValue.string message)])]⟩]
      ∧ sentMessages (sendHibpNotification message) = []
      ∧ (guiMessages (sendHibpNotification message)).length = 1 := by
  have h : sendHibpNotification message =
      [Output.sendMessageToGUI
        ⟨[("msg", QJsonValue.string "send_hibp"),
          ("data", QJsonValue.object [("message", QJsonValue.string message)])]⟩] := by
    simp [sendHibpNotification, mkObject, QJsonObject.insert, QJsonObject.insertFields,
      QJsonObject.empty]
  rw [h]
  exact ⟨rfl, rfl, rfl⟩

/-! ## Verbs that need no device -/

/-- C23: whatever the device attachment and the lock state, `show_app` is only
broadcast with the unchanged message, `get_application_id` sends the caller
exactly one reply, the envelope with `data` replaced by the application name
"moolticute" and the application version, and
`show_status_notification_warning` is only forwarded to the GUI; none of the
three makes a device call or sends a failure response. -/
theorem device_free_verbs (env : Env) (root : QJsonObject) :
    (msgIs root "show_app" = true →
        processMessage env root = [Effect.out (Output.notifyAllClients root)])
      ∧ (msgIs root "get_application_id" = true →
          ∃ m : QJsonObject,
            processMessage env root = [Effect.out (Output.sendJsonMessage m)]
              ∧ m.value "data" = QJsonValue.object
                  [("application_name", QJsonValue.string "moolticute"),
                   ("application_version", QJsonValue.string env.APP_VERSION)]
              ∧ ∀ k : String, k ≠ "data" → m.value k = root.value k)
      ∧ (msgIs root "show_status_notification_warning" = true →
          processMessage env root = [Effect.out (Output.sendMessageToGUI root)])
      ∧ ((msgIs root "show_app" = true ∨ msgIs root "get_application_id" = true
            ∨ msgIs root "show_status_notification_warning" = true) →
          deviceCalls (processMessage env root) = []) := by
  have h1 : msgIs root "show_app" = true →
      processMessage env root = [Effect.out (Output.notifyAllClients root)] := by
    intro h
    simp [processMessage, h, afterRead_msg_of_msgIs root _ h]
  have h2 : msgIs root "get_application_id" = true →
      processMessage env root = [Effect.out (Output.sendJsonMessage
        ((root.insert "data" (QJsonValue.object
          [("application_name", QJsonValue.string "moolticute"),
           ("application_version", QJsonValue.string env.APP_VERSION)])).insert "msg"
          (QJsonValue.string "get_application_id")))] := by
    intro h
    have hn := msgIs_of_ne root _ "show_app" h (by decide)
    simp [processMessage, h, hn, QJsonObject.insert, QJsonObject.insertFields,
      QJsonObject.empty, afterRead_msg_of_msgIs root _ h]
  have h3 : msgIs root "show_status_notification_warning" = true →
      processMessage env root = [Effect.out (Output.sendMessageToGUI root)] := by
    intro h
    have hn := msgIs_of_ne root _ "show_app" h (by decide)
    have hn2 := msgIs_of_ne root _ "get_application_id" h (by decide)
    simp [processMessage, h, hn, hn2, afterRead_msg_of_msgIs root _ h]
  refine ⟨h1, ?_, h3, ?_⟩
  · intro h
    refine ⟨_, h2 h, ?_, ?_⟩
    · rw [QJsonObject.value_insert_ne _ _ _ _ (by decide), QJsonObject.value_insert_same]
    · intro k hk
      by_cases hm : k = "msg"
      · subst hm
        rw [QJsonObject.value_insert_same, msg_of_msgIs root _ h]
      · rw [QJsonObject.value_insert_ne _ _ _ _ hm, QJsonObject.value_insert_ne _ _ _ _ hk]
  · intro h
    rcases h with h | h | h
    · rw [h1 h]
      rfl
    · rw [h2 h]
      rfl
    · rw [h3 h]
      rfl

/-! ## Optional parts of the detailed progress message -/

/-- C24 fails as stated: a progress event that supplies an argument list
(`msg_args`) but no message (`msg`) yields a `progress_detailed` message
without `progress_message_args`. -/
theorem progress_args_without_message_dropped :
    (sentMessages (defaultProgressCb "ws-1" (sampleMsg "export_database" [])
        ⟨some 10, some 3, none, some [QJsonValue.string "a.bin"]⟩
        (sampleEnv (some sampleMini) none true ["ws-1"]))).map
        (fun m => (msgIs m "progress_detailed",
          (m.value "data").toObject.contains "progress_message_args"))
      = [(false, false), (true, false)] := by
  decide

/-- C24 as amended: every `progress_detailed` message carries
`progress_message` exactly when the device layer supplied a message (`msg`),
equal to it, and carries `progress_message_args` exactly when the device layer
supplied both a message and an argument list (`msg_args`), equal to that
list. -/
theorem progress_detailed_optional_parts (clientUid : String) (rootStripped : QJsonObject)
    (progressData : ProgressData) (env : Env) (m : QJsonObject)
    (hm : m ∈ sentMessages (defaultProgressCb clientUid rootStripped progressData env))
    (hd : msgIs m "progress_detailed" = true) :
    (m.value "data").toObject.contains "progress_message" = progressData.msg.isSome
      ∧ (∀ s : String, progressData.msg = some s →
          (m.value "data").toObject.value "progress_message" = QJsonValue.string s)
      ∧ (m.value "data").toObject.contains "progress_message_args" =
          (progressData.msg.isSome && progressData.msg_args.isSome)
      ∧ (∀ (s : String) (args : List QJsonValue), progressData.msg = some s →
          progressData.msg_args = some args →
          (m.value "data").toObject.value "progress_message_args" = QJsonValue.array args) := by
  unfold defaultProgressCb at hm
  by_cases hex : env.server.checkClientExists clientUid = true
  · simp only [hex, Bool.not_true, Bool.false_eq_true, if_false, sentMessages,
      List.filterMap_cons, List.filterMap_nil, List.mem_cons, List.mem_singleton,
      List.not_mem_nil, or_false] at hm
    rcases hm with hm | hm
    · subst hm
      simp [msgIs, QJsonObject.value_insert_same, QJsonValue.eqString] at hd
    · subst hm
      rw [QJsonObject.value_insert_ne _ _ _ _ (by decide), QJsonObject.value_insert_same,
        QJsonValue.toObject_object]
      cases progressData.msg <;> cases progressData.msg_args <;>
        simp [QJsonObject.value, QJsonObject.contains, QJsonObject.insert,
          QJsonObject.insertFields, QJsonObject.empty]
  · simp [hex, sentMessages] at hm

/-- C24 as amended, at a sample: a tick with the message "saving %1" and one
argument carries both. -/
theorem progress_detailed_optional_parts_witness :
    msgIs ((sentMessages (defaultProgressCb "ws-1" (sampleMsg "export_database" [])
        ⟨some 10, some 3, some "saving %1", some [QJsonValue.string "a.bin"]⟩
        (sampleEnv (some sampleMini) none true ["ws-1"]))).getD 1 QJsonObject.empty)
        "progress_detailed" = true
      ∧ (((sentMessages (defaultProgressCb "ws-1" (sampleMsg "export_database" [])
        ⟨some 10, some 3, some "saving %1", some [QJsonValue.string "a.bin"]⟩
        (sampleEnv (some sampleMini) none true ["ws-1"]))).getD 1 QJsonObject.empty).value
          "data").toObject.contains "progress_message_args" = true :=
  ⟨by decide,
    (progress_detailed_optional_parts "ws-1" (sampleMsg "export_database" [])
      ⟨some 10, some 3, some "saving %1", some [QJsonValue.string "a.bin"]⟩
      (sampleEnv (some sampleMini) none true ["ws-1"])
      ((sentMessages (defaultProgressCb "ws-1" (sampleMsg "export_database" [])
        ⟨some 10, some 3, some "saving %1", some [QJsonValue.string "a.bin"]⟩
        (sampleEnv (some sampleMini) none true ["ws-1"]))).getD 1 QJsonObject.empty)
      (List.mem_cons_of_mem _ (List.mem_singleton.2 rfl)) (by decide)).2.2.1⟩

/-! ## `set_credential` on a BLE device -/

/-- With a BLE device attached, its BLE implementation present and the lock not
held by another client, `set_credential` is handled by its branch of
`processMessageBLE`. -/
theorem processMessage_ble_set_credential (env : Env) (root : QJsonObject) (dev : MPDevice)
    (hdev : env.mpdevice = some dev) (hble : dev.isBLE = true) (himpl : dev.ble = true)
    (hlock : env.server.isMemModeLocked env.clientUid = false)
    (hmsg : msgIs root "set_credential" = true) :
    processMessage env root = bleSetCredential env root := by
  have hv := msg_of_msgIs root _ hmsg
  simp [processMessage, processMessageBLE, checkMemModeEnabled, msgIs, hv,
    QJsonValue.eqString, hdev, hble, himpl, hlock, afterRead_msg_of_msgIs root _ hmsg]

/-- C26: for a `set_credential` handled on a BLE device with a non-null BLE
implementation, whatever the login, flags and settings: `storeCredential` is
called exactly once in the turn, with the service key
`getManuallyEnteredDomainName(raw service)` when `saveManualCredential` is
present and `getFullSubdomain()` otherwise, and neither `request_login` nor
`request_domain` is sent to the GUI. -/
theorem ble_set_credential_stores_once (env : Env) (root : QJsonObject) (dev : MPDevice)
    (hdev : env.mpdevice = some dev) (hble : dev.isBLE = true) (himpl : dev.ble = true)
    (hlock : env.server.isMemModeLocked env.clientUid = false)
    (hmsg : msgIs root "set_credential" = true)
    (o : QJsonObject) (ho : o = (root.value "data").toObject)
    (url : ParseDomain) (hurl : url = env.parseDomain (o.value "service").toString) :
    (deviceCalls (processMessage env root)).map DeviceCall.bleStoredKey =
        [some (if o.contains "saveManualCredential" = true then
            url.getManuallyEnteredDomainName (o.value "service").toString
          else url.getFullSubdomain,
          (o.value "login").toString)]
      ∧ (deviceCalls (processMessage env root)).length = 1
      ∧ (guiMessages (outputs (processMessage env root))).filter
          (fun g => msgIs g "request_login" || msgIs g "request_domain") = [] := by
  rw [processMessage_ble_set_credential env root dev hdev hble himpl hlock hmsg]
  subst ho hurl
  have hcd1 : msgIs (mkObject [("msg", QJsonValue.string "credential_detected")])
      "request_login" = false := by decide
  have hcd2 : msgIs (mkObject [("msg", QJsonValue.string "credential_detected")])
      "request_domain" = false := by decide
  cases hman : (root.value "data").toObject.contains "saveManualCredential" <;>
    cases hh : env.settings.enable_hibp_check <;>
    simp [bleSetCredential, hman, hh, deviceCalls, outputs, guiMessages,
      DeviceCall.bleStoredKey, QJsonObject.value_insert_same, QJsonObject.value_insert_ne,
      QJsonValue.toString_string, hcd1, hcd2,
      QJsonObject.contains_afterRead_ne _ "login" "saveManualCredential" (by decide),
      QJsonObject.contains_afterRead_ne _ "service" "saveManualCredential" (by decide)]

/-- C26 at the sample of the spec: on a BLE device the address is stored under
its subdomain-qualified form. -/
theorem ble_set_credential_stores_once_witness :
    (sampleParseDomain "https://login.example.com/path").getFullSubdomain = "login.example.com"
      ∧ (deviceCalls (processMessage (sampleEnv (some sampleBle) none true ["ws-1"])
          (sampleMsg "set_credential"
            [("service", .string "https://login.example.com/path"),
             ("login", .string ""), ("password", .string "pw"),
             ("extension_version", .string "1")]))).map DeviceCall.bleStoredKey =
        [some ("login.example.com", "")] :=
  ⟨by decide,
    (ble_set_credential_stores_once (sampleEnv (some sampleBle) none true ["ws-1"])
      (sampleMsg "set_credential"
        [("service", .string "https://login.example.com/path"),
         ("login", .string ""), ("password", .string "pw"),
         ("extension_version", .string "1")])
      sampleBle rfl rfl rfl (by decide) (by decide) _ rfl _ rfl).1⟩

/-! ## Unknown verbs -/

/-- C21 fails as stated: with no device attached, a message whose verb
("frobnicate") no handler knows is answered with one failure response. -/
theorem unknown_verb_without_device_gets_failure :
    (deviceFreeVerbs ++ miniVerbs ++ bleVerbs).all
        (fun v => !msgIs (sampleMsg "frobnicate" []) v) = true
      ∧ (sentMessages (outputs (processMessage (sampleEnv none none true ["ws-1"])
          (sampleMsg "frobnicate" [])))).length = 1 := by
  refine ⟨?_, ?_⟩
  · decide
  · decide

/-- C21 as amended: for a message whose verb is none of the device-free verbs,
with a device attached and the lock not held by another client, a verb that
`processMessageMini` (Mini device) or `processMessageBLE` (BLE device) does not
know leaves the turn empty: no response and no device call; a BLE device
without BLE implementation leaves it empty for every verb.  With no device
attached the turn makes no device call and sends exactly one failure
response, with the text "No device connected". -/
theorem unknown_verb_is_ignored (env : Env) (root : QJsonObject)
    (hfree : ∀ v ∈ deviceFreeVerbs, msgIs root v = false) :
    (∀ dev : MPDevice, env.mpdevice = some dev →
        env.server.isMemModeLocked env.clientUid = false → dev.isBLE = false →
        (∀ v ∈ miniVerbs, msgIs root v = false) → processMessage env root = [])
      ∧ (∀ dev : MPDevice, env.mpdevice = some dev →
        env.server.isMemModeLocked env.clientUid = false → dev.isBLE = true →
        ((∀ v ∈ bleVerbs, msgIs root v = false) ∨ dev.ble = false) →
        processMessage env root = [])
      ∧ (env.mpdevice = none →
        deviceCalls (processMessage env root) = []
          ∧ ∃ m : QJsonObject,
              outputs (processMessage env root) = [Output.sendJsonMessage m]
                ∧ (m.value "data").toObject.value "failed" = QJsonValue.bool true
                ∧ (m.value "data").toObject.value "error_message" =
                    QJsonValue.string "No device connected") := by
  simp only [deviceFreeVerbs, List.mem_cons, List.mem_singleton, List.not_mem_nil, or_false,
    forall_eq_or_imp, forall_eq] at hfree
  obtain ⟨hf1, hf2, hf3⟩ := hfree
  refine ⟨?_, ?_, ?_⟩
  · intro dev hdev hlock hmini hv
    simp only [miniVerbs, List.mem_cons, List.mem_singleton, List.not_mem_nil, or_false,
      forall_eq_or_imp, forall_eq] at hv
    simp [processMessage, processMessageMini, checkMemModeEnabled, hf1, hf2, hf3, hdev, hlock,
      hmini, hv]
  · intro dev hdev hlock hble hv
    rcases hv with hv | hv
    · simp only [bleVerbs, List.mem_cons, List.mem_singleton, List.not_mem_nil, or_false,
        forall_eq_or_imp, forall_eq] at hv
      simp [processMessage, processMessageBLE, checkMemModeEnabled, hf1, hf2, hf3, hdev,
        hlock, hble, hv]
    · simp [processMessage, processMessageBLE, checkMemModeEnabled, hf1, hf2, hf3, hdev,
        hlock, hble, hv]
  · intro hdev
    have ho : processMessage env root =
        (sendFailedJson (root.afterRead "msg") "No device connected" (-999)).map Effect.out := by
      simp [processMessage, hf1, hf2, hf3, hdev]
    obtain ⟨m, hm, hf, he, _⟩ :=
      sendFailedJson_fields (root.afterRead "msg") "No device connected" (-999)
    rw [ho, deviceCalls_map_out, outputs_map_out]
    exact ⟨rfl, m, hm, hf, he (by decide)⟩

/-- C21 as amended, at a sample: "frobnicate" sent to a Mini device is ignored. -/
theorem unknown_verb_is_ignored_witness :
    deviceFreeVerbs.all (fun v => !msgIs (sampleMsg "frobnicate" []) v) = true
      ∧ miniVerbs.all (fun v => !msgIs (sampleMsg "frobnicate" []) v) = true
      ∧ (processMessage (sampleEnv (some sampleMini) none true ["ws-1"])
          (sampleMsg "frobnicate" [])).length = 0 :=
  ⟨by decide, by decide,
    congrArg List.length
      ((unknown_verb_is_ignored (sampleEnv (some sampleMini) none true ["ws-1"])
        (sampleMsg "frobnicate" []) (by decide)).1 sampleMini rfl (by decide) rfl
        (by decide))⟩

/-! ## Lock holder -/

/-- A branch whose two arms leave the lock alone leaves the lock alone. -/
theorem lockSets_ite_nil (c : Prop) [Decidable c] (a b : List Effect)
    (ha : lockSets a = []) (hb : lockSets b = []) : lockSets (if c then a else b) = [] := by
  split_ifs
  · exact ha
  · exact hb

/-- A stretch made of outputs that are sent messages leaves the lock alone. -/
theorem lockSets_sendFailedJson (obj : QJsonObject) (e : String) (code : Int) :
    lockSets ((sendFailedJson obj e code).map Effect.out) = [] := by
  simp [lockSets, outputs, sendFailedJson]

/-- Forwarding parameters to the device leaves the lock alone. -/
theorem lockSets_processParametersSet (data : QJsonObject) :
    lockSets (processParametersSet data) = [] := by
  have h : outputs (processParametersSet data) = [] := by
    unfold outputs processParametersSet
    rw [List.filterMap_eq_nil_iff]
    intro e he
    simp only [List.mem_append, List.mem_filterMap, List.mem_singleton] at he
    rcases he with ⟨p, _, hp⟩ | he
    · split_ifs at hp <;> simp at hp <;> subst hp <;> rfl
    · subst he
      rfl
  simp [lockSets, h]

/-- The lock assignments of two stretches of a turn. -/
theorem lockSets_append (a b : List Effect) :
    lockSets (a ++ b) = lockSets a ++ lockSets b := by
  simp [lockSets, outputs]

/-- The lock assignments of a branch. -/
theorem lockSets_ite (c : Prop) [Decidable c] (a b : List Effect) :
    lockSets (if c then a else b) = if c then lockSets a else lockSets b := by
  split <;> rfl

/-- A GUI message is no lock assignment. -/
theorem lockSets_cons_gui (m : QJsonObject) (l : List Effect) :
    lockSets (Effect.out (Output.sendMessageToGUI m) :: l) = lockSets l := rfl

/-- A breach check is no lock assignment. -/
theorem lockSets_cons_pwned (p f : String) (l : List Effect) :
    lockSets (Effect.out (Output.isPasswordPwned p f) :: l) = lockSets l := rfl

/-- A device call is no lock assignment. -/
theorem lockSets_cons_device (c : DeviceCall) (l : List Effect) :
    lockSets (Effect.device c :: l) = lockSets l := rfl

/-- An empty turn assigns no lock holder. -/
theorem lockSets_nil : lockSets [] = [] := rfl

/-- The Mini `set_credential` branch leaves the lock alone. -/
theorem lockSets_miniSetCredential (env : Env) (root : QJsonObject) :
    lockSets (miniSetCredential env root) = [] := by
  have hstore : ∀ (r o : QJsonObject) (l s : String) (u : ParseDomain) (b : Bool),
      lockSets (miniSetCredentialStore env r o l s u b) = [] := by
    intro r o l s u b
    simp only [miniSetCredentialStore, lockSets_append, lockSets_ite, lockSets_cons_gui,
      lockSets_cons_pwned, lockSets_cons_device, lockSets_nil, ite_self, List.append_nil]
  have hdomain : ∀ (r o : QJsonObject) (l : String) (b : Bool),
      lockSets (miniSetCredentialDomain env r o l b) = [] := by
    intro r o l b
    simp only [miniSetCredentialDomain, lockSets_append, lockSets_ite, lockSets_cons_gui,
      lockSets_nil, ite_self, List.append_nil, hstore]
  simp only [miniSetCredential, lockSets_append, lockSets_ite, lockSets_cons_gui,
    lockSets_nil, ite_self, List.append_nil, hdomain]

set_option maxHeartbeats 2000000 in
/-- In `processMessageMini` only `start_memorymgmt` assigns the lock holder, and
it assigns the calling client. -/
theorem lockSets_processMessageMini (env : Env) (dev : MPDevice) (root : QJsonObject)
    (cbp : MPDeviceProgressCb) :
    lockSets (processMessageMini env dev root cbp) =
      if msgIs root "start_memorymgmt" = true then [env.clientUid] else [] := by
  unfold processMessageMini
  rw [← msgIs_afterRead root "msg" "start_memorymgmt"]
  simp only []
  generalize root.afterRead "msg" = root
  by_cases h1 : msgIs root "param_set" = true
  · rw [if_pos h1, lockSets_processParametersSet,
      msgIs_of_ne root _ "start_memorymgmt" h1 (by decide)]
    rfl
  rw [if_neg h1]
  by_cases h2 : msgIs root "start_memorymgmt" = true
  · rw [if_pos h2, if_pos h2]
    rfl
  rw [if_neg h2, if_neg h2]
  repeat
    refine lockSets_ite_nil _ _ _ ?_ ?_
    · first
      | exact lockSets_miniSetCredential env root
      | (try simp only [miniStartMemcheck, miniGetCredential, miniDelCredential,
           miniGetRandomNumbers, miniGetDataNode, miniSetDataNode, miniDeleteDataNodes,
           miniServiceExists, miniSetCredentials, miniExportDatabase, miniImportDatabase,
           miniImportCsv, miniLockDevice, sendFilesCache]
         try split_ifs
         all_goals first
           | exact lockSets_sendFailedJson _ _ _
           | rfl)
  rfl

/-- No branch of `processMessageBLE` assigns the lock holder. -/
theorem lockSets_processMessageBLE (env : Env) (dev : MPDevice) (root : QJsonObject)
    (cbp : MPDeviceProgressCb) :
    lockSets (processMessageBLE env dev root cbp) = [] := by
  unfold processMessageBLE
  refine lockSets_ite_nil _ _ _ rfl ?_
  simp only []
  generalize root.afterRead "msg" = root
  repeat
    refine lockSets_ite_nil _ _ _ ?_ ?_
    · first
      | rfl
      | simp only [bleSetCredential, lockSets_append, lockSets_ite, lockSets_cons_gui,
          lockSets_cons_pwned, lockSets_cons_device, lockSets_nil, ite_self, List.append_nil]
  rfl

/-- The lock assignments of a whole turn of `processMessage`: none, or the single
assignment of the calling client, made by `start_memorymgmt` on a Mini device in a
state where no other client holds the lock. -/
theorem lockSets_processMessage (env : Env) (root : QJsonObject) :
    lockSets (processMessage env root) = [] ∨
      (lockSets (processMessage env root) = [env.clientUid] ∧
        env.server.isMemModeLocked env.clientUid = false ∧
        msgIs root "start_memorymgmt" = true ∧
        ∃ dev, env.mpdevice = some dev ∧ dev.isBLE = false) := by
  unfold processMessage
  rw [← msgIs_afterRead root "msg" "start_memorymgmt"]
  simp only []
  generalize root.afterRead "msg" = root
  by_cases h1 : msgIs root "show_app" = true
  · rw [if_pos h1]
    exact Or.inl rfl
  rw [if_neg h1]
  by_cases h2 : msgIs root "get_application_id" = true
  · rw [if_pos h2]
    exact Or.inl rfl
  rw [if_neg h2]
  by_cases h3 : msgIs root "show_status_notification_warning" = true
  · rw [if_pos h3]
    exact Or.inl rfl
  rw [if_neg h3]
  cases hdev : env.mpdevice with
  | none => exact Or.inl (lockSets_sendFailedJson _ _ _)
  | some dev =>
    simp only [checkMemModeEnabled]
    by_cases hlock : env.server.isMemModeLocked env.clientUid = true
    · simp only [hlock, if_true]
      exact Or.inl (lockSets_sendFailedJson _ _ _)
    · simp only [hlock, if_false, Bool.false_eq_true, List.map_nil, List.nil_append]
      by_cases hble : dev.isBLE = true
      · simp only [hble, if_true]
        exact Or.inl (lockSets_processMessageBLE _ _ _ _)
      · simp only [hble, if_false, Bool.false_eq_true]
        rw [lockSets_processMessageMini]
        by_cases hv : msgIs root "start_memorymgmt" = true
        · rw [if_pos hv]
          exact Or.inr ⟨rfl, by simp [hlock], hv, dev, rfl, by simp [hble]⟩
        · rw [if_neg hv]
          exact Or.inl rfl

/-- C25: in every state and for every message, the turn of `processMessage` assigns
the lock holder at most once and only to the calling client; it does so only for
`start_memorymgmt` and only when the lock is not held by a different client; for
`start_memorymgmt` on a Mini device in such a state the turn is the assignment
followed by the device call `startMemMgmtMode`; a hold of a different client is
still in place after the turn; and a message with any other verb leaves the
server state as it was. -/
theorem lock_holder_set_only_by_start_memorymgmt (env : Env) (root : QJsonObject) :
    (lockSets (processMessage env root) = [] ∨
      lockSets (processMessage env root) = [env.clientUid]) ∧
    (lockSets (processMessage env root) ≠ [] →
      env.server.isMemModeLocked env.clientUid = false ∧
        msgIs root "start_memorymgmt" = true) ∧
    (∀ dev, env.mpdevice = some dev → dev.isBLE = false →
      env.server.isMemModeLocked env.clientUid = false →
      msgIs root "start_memorymgmt" = true →
      ∃ cb, processMessage env root =
        [Effect.out (Output.setMemLockedClient env.clientUid),
         Effect.device (DeviceCall.startMemMgmtMode
           (((root.value "data").toObject.value "want_data").toBool)
           (defaultProgressCb env.clientUid (root.remove "data")) cb)]) ∧
    (∀ x, env.server.memLockedClient = some x → x ≠ env.clientUid →
      (serverAfter env.server (processMessage env root)).memLockedClient = some x) ∧
    (msgIs root "start_memorymgmt" = false →
      serverAfter env.server (processMessage env root) = env.server) := by
  have hc := lockSets_processMessage env root
  refine ⟨?_, ?_, ?_, ?_, ?_⟩
  · rcases hc with h | ⟨h, _⟩
    · exact Or.inl h
    · exact Or.inr h
  · intro hne
    rcases hc with h | ⟨_, hl, hv, _⟩
    · exact absurd h hne
    · exact ⟨hl, hv⟩
  · intro dev hdev hble hlock hv
    have hm := msg_of_msgIs root "start_memorymgmt" hv
    have h : processMessage env root =
        miniStartMemorymgmt env root (defaultProgressCb env.clientUid (root.remove "data")) := by
      simp [processMessage, processMessageMini, checkMemModeEnabled, msgIs, hm,
        QJsonValue.eqString, hdev, hble, hlock, afterRead_msg_of_value root _ hm]
    rw [h]
    simp only [miniStartMemorymgmt, QJsonObject.toObject_value_afterRead]
    exact ⟨_, rfl⟩
  · intro x hx hne
    rcases hc with h | ⟨_, hl, _⟩
    · simp [serverAfter, h, hx]
    · exfalso
      simp [WSServer.isMemModeLocked, hx, hne] at hl
  · intro hv
    rcases hc with h | ⟨_, _, hv2, _⟩
    · simp [serverAfter, h]
    · rw [hv] at hv2
      exact absurd hv2 (by decide)

/-- With no lock held, `start_memorymgmt` from `ws-1` on a Mini device assigns the
lock to `ws-1`; with the lock held by `ws-2`, the same message leaves `ws-2` the
holder. -/
theorem lock_holder_set_only_by_start_memorymgmt_witness :
    lockSets (processMessage (sampleEnv (some sampleMini) none true ["ws-1"])
      (sampleMsg "start_memorymgmt" [])) = ["ws-1"] ∧
    (serverAfter (sampleEnv (some sampleMini) (some "ws-2") true ["ws-1", "ws-2"]).server
      (processMessage (sampleEnv (some sampleMini) (some "ws-2") true ["ws-1", "ws-2"])
        (sampleMsg "start_memorymgmt" []))).memLockedClient = some "ws-2" :=
  ⟨by decide,
   (lock_holder_set_only_by_start_memorymgmt
      (sampleEnv (some sampleMini) (some "ws-2") true ["ws-1", "ws-2"])
      (sampleMsg "start_memorymgmt" [])).2.2.2.1 "ws-2" rfl (by decide)⟩

end Moolticute
